import Mathlib

/-!
Shallow embedding of the process/thread/syscall core of the devine-kernel
repository (files src/process/{thread,scheduler,context,mod,elf_loader}.rs,
src/security/mod.rs, src/syscall/mod.rs), together with proofs settling the
frozen claims about it.

Modelling conventions:
* Rust `usize`/`u64` values are modelled as `Nat`; wrapping or saturating
  arithmetic is made explicit where the source relies on it.
* A Rust `Vec<Option<T>>` indexed by an id (the process and thread tables)
  is modelled by its observable lookup map `Nat → Option T`: `get` reads the
  slot, `add` writes it, `remove` clears it.  Out-of-range reads are `none`
  in both representations.
* The global mutable tables behind `spin::Mutex` statics are gathered into
  one explicit `Kernel` state record that every operation threads through.
* Raw user-memory reads/writes (`slice::from_raw_parts`, pointer writes in
  `sys_read`) are modelled by a byte map `userMem : Nat → Nat` in the state.
* The external physical frame allocator (`allocate_frame`) is modelled as a
  list of free frame start addresses consumed from the front.
-/

namespace Devine

/-- Update one slot of a `Nat`-indexed table map. -/
def upd {α : Type} (f : Nat → Option α) (k : Nat) (v : Option α) : Nat → Option α :=
  fun x => if x = k then v else f x

/-- Update one of the five run-queue lanes. -/
def upd5 (f : Fin 5 → List Nat) (k : Fin 5) (v : List Nat) : Fin 5 → List Nat :=
  fun x => if x = k then v else f x

/-- Remove the first element satisfying `p`, returning it and the remaining
list; models `Vec::iter().position(p)` followed by `Vec::remove(index)`. -/
def takeFirst {α : Type} (p : α → Prop) [DecidablePred p] : List α → Option (α × List α)
  | [] => none
  | x :: xs =>
    if p x then some (x, xs)
    else (takeFirst p xs).map (fun r => (r.1, x :: r.2))

/-- Models `Vec::swap_remove(i)`: the last element is moved into slot `i`. -/
def swapRemove {α : Type} (l : List α) (i : Nat) : List α :=
  match l.getLast? with
  | some last => (l.set i last).dropLast
  | none => l

/-! ## Security model (src/security/mod.rs) -/

inductive PrivilegeLevel
  | Ring0
  | Ring1
  | Ring2
  | Ring3
deriving DecidableEq, Repr

/-- Numeric value of a ring, as in `self.privilege as u8`. -/
def PrivilegeLevel.toNat : PrivilegeLevel → Nat
  | .Ring0 => 0
  | .Ring1 => 1
  | .Ring2 => 2
  | .Ring3 => 3

/-- 64-bit capability bitmask (`pub type CapMask = u64`). -/
abbrev CapMask := Nat

def CAP_NONE : CapMask := 0

def CAP_PROC_MANAGE : CapMask := 2 ^ 16

def CAP_VM_MANAGE : CapMask := 2 ^ 17

/-- The source names this constant `CAP_CONSOLE_IO`. -/
def CAP_CONSOLE_IO_BIT : CapMask := 2 ^ 18

def CAP_FS_RW : CapMask := 2 ^ 19

def CAP_IPC_BIT : CapMask := 2 ^ 20

def CAP_SYS_ADMIN : CapMask := 2 ^ 63

structure SecurityContext where
  uid : Nat
  gid : Nat
  euid : Nat
  egid : Nat
  privilege : PrivilegeLevel
  umask : Nat
  capabilities : CapMask
deriving DecidableEq, Repr

def SecurityContext.new (uid : Nat) (privilege : PrivilegeLevel) : SecurityContext :=
  { uid := uid, gid := uid, euid := uid, egid := uid
    privilege := privilege, umask := 0o22, capabilities := 0 }

def SecurityContext.kernel : SecurityContext :=
  { SecurityContext.new 0 .Ring0 with capabilities := 2 ^ 64 - 1 }

def SecurityContext.as_user (uid : Nat) : SecurityContext :=
  SecurityContext.new uid .Ring3

/-- `(self.privilege as u8) <= (max_allowed_ring as u8)`. -/
def SecurityContext.is_privileged_enough (s : SecurityContext)
    (max_allowed_ring : PrivilegeLevel) : Prop :=
  s.privilege.toNat ≤ max_allowed_ring.toNat

instance (s : SecurityContext) (r : PrivilegeLevel) :
    Decidable (s.is_privileged_enough r) := by
  unfold SecurityContext.is_privileged_enough; infer_instance

/-- `(self.capabilities & required) == required`. -/
def SecurityContext.has_capabilities (s : SecurityContext) (required : CapMask) : Prop :=
  s.capabilities &&& required = required

instance (s : SecurityContext) (m : CapMask) :
    Decidable (s.has_capabilities m) := by
  unfold SecurityContext.has_capabilities; infer_instance

def SecurityContext.grant_capabilities (s : SecurityContext) (mask : CapMask) :
    SecurityContext :=
  { s with capabilities := s.capabilities ||| mask }

def SecurityContext.with_capabilities (s : SecurityContext) (caps : CapMask) :
    SecurityContext :=
  { s with capabilities := caps }

/-- Entry of the global `SECURITY_CONTEXTS` registry. -/
structure SecurityEntry where
  pid : Nat
  context : SecurityContext

/-- `security::register_process`: overwrite the first entry with this pid, or push. -/
def registerProcessCtx : List SecurityEntry → Nat → SecurityContext → List SecurityEntry
  | [], pid, ctx => [⟨pid, ctx⟩]
  | e :: es, pid, ctx =>
    if e.pid = pid then ⟨e.pid, ctx⟩ :: es
    else e :: registerProcessCtx es pid ctx

/-- `security::get_context`: first entry with this pid. -/
def getContext : List SecurityEntry → Nat → Option SecurityContext
  | [], _ => none
  | e :: es, pid => if e.pid = pid then some e.context else getContext es pid

/-- `security::grant_capabilities`: or the mask into the first entry with this pid. -/
def grantCapabilitiesCtx : List SecurityEntry → Nat → CapMask → List SecurityEntry
  | [], _, _ => []
  | e :: es, pid, mask =>
    if e.pid = pid then ⟨e.pid, e.context.grant_capabilities mask⟩ :: es
    else e :: grantCapabilitiesCtx es pid mask

/-- `security::set_capabilities`: overwrite the mask of the first entry with this pid. -/
def setCapabilitiesCtx : List SecurityEntry → Nat → CapMask → List SecurityEntry
  | [], _, _ => []
  | e :: es, pid, caps =>
    if e.pid = pid then ⟨e.pid, e.context.with_capabilities caps⟩ :: es
    else e :: setCapabilitiesCtx es pid caps

/-- `security::remove_context`: `swap_remove` the first entry with this pid. -/
def removeContextCtx (l : List SecurityEntry) (pid : Nat) : List SecurityEntry :=
  match l.findIdx? (fun e => e.pid = pid) with
  | some i => swapRemove l i
  | none => l

/-! ## Threads (src/process/thread.rs, src/process/context.rs) -/

inductive ThreadState
  | Ready
  | Running
  | Blocked
  | Sleeping
  | Terminated
deriving DecidableEq, Repr

inductive Priority
  | Idle
  | Low
  | Normal
  | High
  | Realtime
deriving DecidableEq, Repr

/-- `Priority as usize` (discriminant values 0..4). -/
def Priority.as_usize : Priority → Nat
  | .Idle => 0
  | .Low => 1
  | .Normal => 2
  | .High => 3
  | .Realtime => 4

/-- The lane index of a priority, as a `Fin 5`. -/
def Priority.index : Priority → Fin 5
  | .Idle => 0
  | .Low => 1
  | .Normal => 2
  | .High => 3
  | .Realtime => 4

/-- x86_64 register context (src/process/context.rs). -/
structure Context where
  r15 : Nat
  r14 : Nat
  r13 : Nat
  r12 : Nat
  r11 : Nat
  r10 : Nat
  r9 : Nat
  r8 : Nat
  rdi : Nat
  rsi : Nat
  rbp : Nat
  rbx : Nat
  rdx : Nat
  rcx : Nat
  rax : Nat
  rip : Nat
  cs : Nat
  rflags : Nat
  rsp : Nat
  ss : Nat
deriving DecidableEq, Repr

def Context.empty : Context :=
  { r15 := 0, r14 := 0, r13 := 0, r12 := 0, r11 := 0, r10 := 0, r9 := 0, r8 := 0
    rdi := 0, rsi := 0, rbp := 0, rbx := 0, rdx := 0, rcx := 0, rax := 0
    rip := 0, cs := 0, rflags := 0, rsp := 0, ss := 0 }

def Context.new_user (entry_point stack_pointer : Nat) : Context :=
  { Context.empty with
    rip := entry_point, cs := 0x1B, rflags := 0x202, rsp := stack_pointer, ss := 0x23 }

def Context.new_kernel (entry_point stack_pointer : Nat) : Context :=
  { Context.empty with
    rip := entry_point, cs := 0x08, rflags := 0x202, rsp := stack_pointer, ss := 0x10 }

structure Thread where
  id : Nat
  process_id : Nat
  state : ThreadState
  priority : Priority
  context : Context
  kernel_stack : Nat
  user_stack : Option Nat
  time_slice : Nat
  total_cpu_time : Nat
deriving DecidableEq, Repr

def Thread.calculate_time_slice : Priority → Nat
  | .Idle => 1
  | .Low => 5
  | .Normal => 10
  | .High => 20
  | .Realtime => 50

def Thread.new (id process_id : Nat) (priority : Priority)
    (entry_point kernel_stack : Nat) (user_stack : Option Nat) : Thread :=
  let context :=
    match user_stack with
    | some user_sp => Context.new_user entry_point user_sp
    | none => Context.new_kernel entry_point kernel_stack
  { id := id, process_id := process_id, state := .Ready, priority := priority
    context := context, kernel_stack := kernel_stack, user_stack := user_stack
    time_slice := Thread.calculate_time_slice priority, total_cpu_time := 0 }

/-- `state == Ready || state == Running`. -/
def Thread.is_runnable (t : Thread) : Prop :=
  t.state = ThreadState.Ready ∨ t.state = ThreadState.Running

instance (t : Thread) : Decidable t.is_runnable := by
  unfold Thread.is_runnable; infer_instance

def Thread.set_state (t : Thread) (s : ThreadState) : Thread :=
  { t with state := s }

def Thread.increment_cpu_time (t : Thread) (ticks : Nat) : Thread :=
  { t with total_cpu_time := t.total_cpu_time + ticks }

structure ThreadTable where
  threads : Nat → Option Thread
  nextTid : Nat

def ThreadTable.new : ThreadTable :=
  { threads := fun _ => none, nextTid := 1 }

def ThreadTable.allocate_tid (tt : ThreadTable) : Nat × ThreadTable :=
  (tt.nextTid, { tt with nextTid := tt.nextTid + 1 })

def ThreadTable.add_thread (tt : ThreadTable) (t : Thread) : ThreadTable :=
  { tt with threads := upd tt.threads t.id (some t) }

def ThreadTable.get_thread (tt : ThreadTable) (tid : Nat) : Option Thread :=
  tt.threads tid

def ThreadTable.remove_thread (tt : ThreadTable) (tid : Nat) : ThreadTable :=
  { tt with threads := upd tt.threads tid none }

/-- Mutation through `get_thread_mut`: apply `f` if the slot is occupied. -/
def ThreadTable.modifyThread (tt : ThreadTable) (tid : Nat) (f : Thread → Thread) :
    ThreadTable :=
  match tt.threads tid with
  | some th => { tt with threads := upd tt.threads tid (some (f th)) }
  | none => tt

/-! ## Scheduler (src/process/scheduler.rs) -/

structure RunQueue where
  queues : Fin 5 → List Nat
  currentThread : Option Nat
  idleThread : Option Nat

def RunQueue.new : RunQueue :=
  { queues := fun _ => [], currentThread := none, idleThread := none }

/-- `enqueue` is idempotent: no duplicate entries in a lane. -/
def RunQueue.enqueue (q : RunQueue) (tid : Nat) (priority : Priority) : RunQueue :=
  let i := priority.index
  if tid ∈ q.queues i then q
  else { q with queues := upd5 q.queues i (q.queues i ++ [tid]) }

/-- Scan lanes from highest to lowest priority, popping the first non-empty
head; fall back to the idle thread (without popping anything). -/
def RunQueue.pick_next (q : RunQueue) : Option Nat × RunQueue :=
  match q.queues 4 with
  | t :: rest => (some t, { q with queues := upd5 q.queues 4 rest })
  | [] =>
    match q.queues 3 with
    | t :: rest => (some t, { q with queues := upd5 q.queues 3 rest })
    | [] =>
      match q.queues 2 with
      | t :: rest => (some t, { q with queues := upd5 q.queues 2 rest })
      | [] =>
        match q.queues 1 with
        | t :: rest => (some t, { q with queues := upd5 q.queues 1 rest })
        | [] =>
          match q.queues 0 with
          | t :: rest => (some t, { q with queues := upd5 q.queues 0 rest })
          | [] => (q.idleThread, q)

def RunQueue.set_current (q : RunQueue) (tid : Option Nat) : RunQueue :=
  { q with currentThread := tid }

/-- `retain(|&t| t != tid)` over all five lanes. -/
def RunQueue.remove (q : RunQueue) (tid : Nat) : RunQueue :=
  { q with queues := fun i => (q.queues i).filter (fun t => t ≠ tid) }

structure Scheduler where
  runQueue : RunQueue
  timeSliceRemaining : Nat
  totalTicks : Nat

def Scheduler.new : Scheduler :=
  { runQueue := RunQueue.new, timeSliceRemaining := 0, totalTicks := 0 }

def Scheduler.add_thread (s : Scheduler) (tt : ThreadTable) (tid : Nat) : Scheduler :=
  match tt.get_thread tid with
  | some th =>
    if th.is_runnable then { s with runQueue := s.runQueue.enqueue tid th.priority }
    else s
  | none => s

def Scheduler.remove_thread (s : Scheduler) (tid : Nat) : Scheduler :=
  { s with runQueue := s.runQueue.remove tid }

/-- First half of the rotation tail of `schedule()`: a still-Running current
thread is set to Ready and re-enqueued at the tail of its lane. -/
def Scheduler.demoteCurrent (s : Scheduler) (tt : ThreadTable) :
    Scheduler × ThreadTable :=
  match s.runQueue.currentThread with
  | some ct =>
    match tt.get_thread ct with
    | some th =>
      if th.state = ThreadState.Running then
        ({ s with runQueue := s.runQueue.enqueue ct th.priority },
         tt.modifyThread ct (fun t => t.set_state .Ready))
      else (s, tt)
    | none => (s, tt)
  | none => (s, tt)

/-- Second half of the rotation tail of `schedule()`: pick the next thread,
promote it to Running, reload the budget from it and make it current. -/
def Scheduler.pickStage (s1 : Scheduler) (tt1 : ThreadTable) :
    Option Nat × Scheduler × ThreadTable :=
  match s1.runQueue.pick_next with
  | (none, _) => (none, s1, tt1)
  | (some next, rq) =>
    match tt1.get_thread next with
    | some th =>
      (some next,
       { s1 with runQueue := rq.set_current (some next), timeSliceRemaining := th.time_slice },
       tt1.modifyThread next (fun t => t.set_state .Running))
    | none =>
      (some next, { s1 with runQueue := rq.set_current (some next) }, tt1)

/-- Rotation tail of `schedule()`: demote a still-Running current thread to
Ready and re-enqueue it, then pick the next thread, promote it to Running and
reload the time-slice budget from it. -/
def Scheduler.scheduleRotate (s : Scheduler) (tt : ThreadTable) :
    Option Nat × Scheduler × ThreadTable :=
  let demoted := s.demoteCurrent tt
  demoted.1.pickStage demoted.2

def Scheduler.schedule (s : Scheduler) (tt : ThreadTable) :
    Option Nat × Scheduler × ThreadTable :=
  if s.timeSliceRemaining > 0 then
    match s.runQueue.currentThread with
    | some ct =>
      match tt.get_thread ct with
      | some th =>
        if th.state = ThreadState.Running ∧ th.is_runnable then (some ct, s, tt)
        else s.scheduleRotate tt
      | none => s.scheduleRotate tt
    | none => s.scheduleRotate tt
  else s.scheduleRotate tt

def Scheduler.tick (s : Scheduler) (tt : ThreadTable) : Scheduler × ThreadTable :=
  let tsr := if s.timeSliceRemaining > 0 then s.timeSliceRemaining - 1
             else s.timeSliceRemaining
  let s1 := { s with totalTicks := s.totalTicks + 1, timeSliceRemaining := tsr }
  match s1.runQueue.currentThread with
  | some ct => (s1, tt.modifyThread ct (fun t => t.increment_cpu_time 1))
  | none => (s1, tt)

def Scheduler.yield_current (s : Scheduler) : Scheduler :=
  { s with timeSliceRemaining := 0 }

def Scheduler.block_current (s : Scheduler) (tt : ThreadTable) :
    Scheduler × ThreadTable :=
  match s.runQueue.currentThread with
  | some ct =>
    ({ s with runQueue := s.runQueue.set_current none },
     tt.modifyThread ct (fun t => t.set_state .Blocked))
  | none => (s, tt)

def Scheduler.unblock_thread (s : Scheduler) (tt : ThreadTable) (tid : Nat) :
    Scheduler × ThreadTable :=
  match tt.get_thread tid with
  | some th =>
    if th.state = ThreadState.Blocked then
      ({ s with runQueue := s.runQueue.enqueue tid th.priority },
       tt.modifyThread tid (fun t => t.set_state .Ready))
    else (s, tt)
  | none => (s, tt)

def Scheduler.current_thread (s : Scheduler) : Option Nat :=
  s.runQueue.currentThread

/-! ## ELF loader data model (src/process/elf_loader.rs).
`PageFlags` bit values are from src/memory/paging/mod.rs. -/

def PAGE_SIZE : Nat := 4096

def PageFlags.PRESENT : Nat := 1

def PageFlags.WRITABLE : Nat := 2

def PageFlags.USER_ACCESSIBLE : Nat := 4

def PageFlags.NO_EXECUTE : Nat := 2 ^ 63

inductive TargetArch
  | X86_64
  | AArch64
deriving DecidableEq, Repr

structure Segment where
  vaddr : Nat
  mem_size : Nat
  file_size : Nat
  flags : Nat
  data : List Nat
deriving DecidableEq, Repr

structure AuxEntry where
  key : Nat
  value : Nat
deriving DecidableEq, Repr

structure StackImage where
  user_sp : Nat
  stack_top : Nat
  stack_bottom : Nat
  data : List Nat
deriving DecidableEq, Repr

structure LoadedImage where
  entry_point : Nat
  segments : List Segment
  auxiliary : List AuxEntry
  stack : StackImage
  program_header_offset : Nat
  program_header_entry_size : Nat
  program_header_count : Nat
deriving DecidableEq, Repr

inductive ElfLoaderError
  | InvalidMagic
  | UnsupportedClass
  | UnsupportedEndianness
  | UnsupportedMachine
  | InvalidHeader
  | InvalidProgramHeader
  | UnexpectedEof
  | MissingLoadSegment
  | StackOverflow
  | RelocationUnsupported
deriving DecidableEq, Repr

/-! ## File descriptor table and processes (src/process/mod.rs) -/

inductive PipeEndKind
  | Read
  | Write
deriving DecidableEq, Repr

/-- One end of a pipe.  The shared ring buffer and reader/writer counts live
behind an `Arc<Mutex<..>>` in the source; the claims only need the handle, so
it is modelled as the pipe's identity plus the end kind. -/
structure PipeEnd where
  kind : PipeEndKind
  pipeId : Nat
deriving DecidableEq, Repr

inductive FdObject
  | Stdin
  | Stdout
  | Stderr
  | Pipe (pipeEnd : PipeEnd)
deriving DecidableEq, Repr

structure FileDescriptorEntry where
  fd : Nat
  flags : Nat
  inheritable : Bool
  object : FdObject
deriving DecidableEq, Repr

structure FileDescriptorTable where
  entries : List FileDescriptorEntry
  next_fd : Nat
deriving DecidableEq, Repr

/-- `inherit()`: keep only inheritable entries; recompute the next-fd counter
as the fold of `max(max_fd, entry.fd + 1)` over the surviving entries. -/
def FileDescriptorTable.inherit (t : FileDescriptorTable) : FileDescriptorTable :=
  let entries := t.entries.filter (fun e => e.inheritable)
  let next_fd := entries.foldl (fun max_fd e => Nat.max max_fd (e.fd + 1)) 0
  { entries := entries, next_fd := next_fd }

def FileDescriptorTable.insert (t : FileDescriptorTable) (fd flags : Nat)
    (inheritable : Bool) (object : FdObject) : FileDescriptorTable :=
  let next_fd := Nat.max t.next_fd (fd + 1)
  if (t.entries.filter (fun e => e.fd = fd)) ≠ [] then
    { entries := t.entries.map
        (fun e => if e.fd = fd
          then { e with flags := flags, inheritable := inheritable, object := object }
          else e)
      next_fd := next_fd }
  else
    { entries := t.entries ++ [⟨fd, flags, inheritable, object⟩], next_fd := next_fd }

/-- `Default::default()`: fds 0/1/2 pre-populated as inheritable std streams. -/
def FileDescriptorTable.default : FileDescriptorTable :=
  (((FileDescriptorTable.mk [] 0).insert 0 0 true .Stdin).insert 1 0 true
      .Stdout).insert 2 0 true .Stderr

def FileDescriptorTable.new : FileDescriptorTable := FileDescriptorTable.default

structure AddressSpace where
  page_table_frame : Nat
  heap_start : Nat
  heap_end : Nat
  stack_start : Nat
  stack_end : Nat
deriving DecidableEq, Repr

def AddressSpace.new (page_table_frame : Nat) : AddressSpace :=
  { page_table_frame := page_table_frame
    heap_start := 0x0000100000000000
    heap_end := 0x0000100010000000
    stack_start := 0x00007FFFFFFF0000
    stack_end := 0x0000800000000000 }

structure Process where
  id : Nat
  name : String
  address_space : AddressSpace
  threads : List Nat
  parent : Option Nat
  children : List Nat
  file_descriptors : FileDescriptorTable
  security : SecurityContext
  image : Option LoadedImage

def Process.new (id : Nat) (name : String) (address_space : AddressSpace)
    (security : SecurityContext) (file_descriptors : FileDescriptorTable) : Process :=
  { id := id, name := name, address_space := address_space, threads := []
    parent := none, children := [], file_descriptors := file_descriptors
    security := security, image := none }

def Process.add_thread (p : Process) (thread_id : Nat) : Process :=
  { p with threads := p.threads ++ [thread_id] }

def Process.remove_thread (p : Process) (thread_id : Nat) : Process :=
  { p with threads := p.threads.filter (fun id => id ≠ thread_id) }

structure ProcessTable where
  processes : Nat → Option Process
  nextPid : Nat

def ProcessTable.new : ProcessTable :=
  { processes := fun _ => none, nextPid := 1 }

def ProcessTable.allocate_pid (pt : ProcessTable) : Nat × ProcessTable :=
  (pt.nextPid, { pt with nextPid := pt.nextPid + 1 })

def ProcessTable.add_process (pt : ProcessTable) (p : Process) : ProcessTable :=
  { pt with processes := upd pt.processes p.id (some p) }

def ProcessTable.get_process (pt : ProcessTable) (pid : Nat) : Option Process :=
  pt.processes pid

/-- Mutation through `get_process_mut`: apply `f` if the slot is occupied. -/
def ProcessTable.modifyProcess (pt : ProcessTable) (pid : Nat) (f : Process → Process) :
    ProcessTable :=
  match pt.processes pid with
  | some p => { pt with processes := upd pt.processes pid (some (f p)) }
  | none => pt

/-! ## Kernel state: the global mutexed tables of the source gathered into one
explicit state record. -/

/-- Transient exit record (src/syscall/mod.rs `struct ZombieChild`). -/
structure ZombieChild where
  parent : Nat
  child : Nat
  status : Nat
deriving DecidableEq, Repr

/-- Registered waiting thread (src/syscall/mod.rs `struct Waiter`). -/
structure Waiter where
  parent : Nat
  tid : Nat
  target : Option Nat
deriving DecidableEq, Repr

structure Kernel where
  processTable : ProcessTable
  threadTable : ThreadTable
  sched : Scheduler
  securityContexts : List SecurityEntry
  zombies : List ZombieChild
  waiters : List Waiter
  stdout : List Nat
  stdin : List Nat
  userMem : Nat → Nat
  freeFrames : List Nat

/-- The reset/boot state: all tables empty. -/
def Kernel.empty : Kernel :=
  { processTable := ProcessTable.new, threadTable := ThreadTable.new
    sched := Scheduler.new, securityContexts := [], zombies := [], waiters := []
    stdout := [], stdin := [], userMem := fun _ => 0, freeFrames := [] }

/-- External collaborator `allocate_frame()`: pop the next free frame. -/
def Kernel.allocate_frame (k : Kernel) : Option (Nat × Kernel) :=
  match k.freeFrames with
  | [] => none
  | f :: rest => some (f, { k with freeFrames := rest })

/-- `process::create_process` (always returns `Some(pid)` in the source). -/
def Kernel.create_process (k : Kernel) (name : String) (page_table_frame : Nat)
    (security : SecurityContext) (file_descriptors : FileDescriptorTable) :
    Nat × Kernel :=
  let (pid, pt) := k.processTable.allocate_pid
  let address_space := AddressSpace.new page_table_frame
  let process := Process.new pid name address_space security file_descriptors
  let ctxs := registerProcessCtx k.securityContexts pid security
  (pid, { k with processTable := pt.add_process process, securityContexts := ctxs })

/-- `thread::create_thread` (always returns `Some(tid)` in the source). -/
def Kernel.create_thread (k : Kernel) (process_id : Nat) (priority : Priority)
    (entry_point kernel_stack : Nat) (user_stack : Option Nat) : Nat × Kernel :=
  let (tid, tt) := k.threadTable.allocate_tid
  let thread := Thread.new tid process_id priority entry_point kernel_stack user_stack
  let tt := tt.add_thread thread
  let pt := k.processTable.modifyProcess process_id (fun p => p.add_thread tid)
  (tid, { k with threadTable := tt, processTable := pt })

def Kernel.get_process (k : Kernel) (pid : Nat) : Option Process :=
  k.processTable.get_process pid

/-- `ProcessTable::remove_process`, which also drops the security-registry
entry of the removed process. -/
def Kernel.remove_process (k : Kernel) (pid : Nat) : Option Process × Kernel :=
  match k.processTable.processes pid with
  | some p =>
    let pt := { k.processTable with processes := upd k.processTable.processes pid none }
    (some p,
     { k with processTable := pt,
              securityContexts := removeContextCtx k.securityContexts pid })
  | none => (none, k)

def Kernel.set_thread_state (k : Kernel) (tid : Nat) (s : ThreadState) : Kernel :=
  { k with threadTable := k.threadTable.modifyThread tid (fun t => t.set_state s) }

def Kernel.sched_add_thread (k : Kernel) (tid : Nat) : Kernel :=
  { k with sched := k.sched.add_thread k.threadTable tid }

def Kernel.sched_remove_thread (k : Kernel) (tid : Nat) : Kernel :=
  { k with sched := k.sched.remove_thread tid }

def Kernel.schedule (k : Kernel) : Option Nat × Kernel :=
  let r := k.sched.schedule k.threadTable
  (r.1, { k with sched := r.2.1, threadTable := r.2.2 })

def Kernel.tick (k : Kernel) : Kernel :=
  let r := k.sched.tick k.threadTable
  { k with sched := r.1, threadTable := r.2 }

def Kernel.yield_cpu (k : Kernel) : Kernel :=
  { k with sched := k.sched.yield_current }

def Kernel.block_current_thread (k : Kernel) : Kernel :=
  let r := k.sched.block_current k.threadTable
  { k with sched := r.1, threadTable := r.2 }

def Kernel.unblock_thread (k : Kernel) (tid : Nat) : Kernel :=
  let r := k.sched.unblock_thread k.threadTable tid
  { k with sched := r.1, threadTable := r.2 }

/-- `process::grant_process_capabilities`: or the mask into the process-table
copy and into the global security registry. -/
def Kernel.grant_process_capabilities (k : Kernel) (pid : Nat) (mask : CapMask) :
    Bool × Kernel :=
  match k.processTable.processes pid with
  | none => (false, k)
  | some p =>
    (true,
     { k with
        processTable := { k.processTable with
          processes := upd k.processTable.processes pid
            (some { p with security := p.security.grant_capabilities mask }) }
        securityContexts := grantCapabilitiesCtx k.securityContexts pid mask })

/-! ## Syscall dispatch (src/syscall/mod.rs) -/

inductive Errno
  | EPERM
  | ESRCH
  | ENOMEM
  | EINVAL
  | ENOSYS
deriving DecidableEq, Repr

/-- The `#[repr(i32)]` discriminants of `Errno`. -/
def Errno.code : Errno → Nat
  | .EPERM => 1
  | .ESRCH => 3
  | .ENOMEM => 12
  | .EINVAL => 22
  | .ENOSYS => 38

abbrev SyscallResult := Except Errno Nat

structure SyscallArgs where
  a1 : Nat
  a2 : Nat
  a3 : Nat
  a4 : Nat
  a5 : Nat
  a6 : Nat
deriving DecidableEq, Repr

inductive SyscallArgKind
  | None
  | Usize
  | Fd
  | Ptr
  | Len
  | Flags
  | Offset
  | CStringPtr
  | CStringArrayPtr
deriving DecidableEq, Repr

/-- Identity of the handler function stored in a descriptor (a `fn` pointer in
the source); the dispatcher is parametric in the interpretation of these tags. -/
inductive HandlerTag
  | tagExit
  | tagFork
  | tagExec
  | tagWait
  | tagGetpid
  | tagMmap
  | tagMunmap
  | tagBrk
  | tagClone
  | tagWrite
  | tagRead
  | tagYield
  | tagUnimplemented
deriving DecidableEq, Repr

structure SyscallDescriptor where
  number : Nat
  name : String
  handler : HandlerTag
  max_caller_ring : PrivilegeLevel
  required_capabilities : CapMask
  args : List SyscallArgKind

def SYSCALL_MAX : Nat := 32

/-- The fixed 32-slot descriptor table, mirrored entry by entry. -/
def SYSCALL_TABLE : List SyscallDescriptor :=
  [ ⟨0, "exit", .tagExit, .Ring3, CAP_NONE, [.Usize, .None, .None, .None, .None, .None]⟩
  , ⟨1, "fork", .tagFork, .Ring3, CAP_PROC_MANAGE, [.None, .None, .None, .None, .None, .None]⟩
  , ⟨2, "exec", .tagExec, .Ring3, CAP_PROC_MANAGE, [.CStringPtr, .CStringArrayPtr, .None, .None, .None, .None]⟩
  , ⟨3, "wait", .tagWait, .Ring3, CAP_PROC_MANAGE, [.Usize, .None, .None, .None, .None, .None]⟩
  , ⟨4, "getpid", .tagGetpid, .Ring3, CAP_NONE, [.None, .None, .None, .None, .None, .None]⟩
  , ⟨5, "mmap", .tagMmap, .Ring3, CAP_VM_MANAGE, [.Ptr, .Len, .Flags, .Flags, .Fd, .Offset]⟩
  , ⟨6, "munmap", .tagMunmap, .Ring3, CAP_VM_MANAGE, [.Ptr, .Len, .None, .None, .None, .None]⟩
  , ⟨7, "brk", .tagBrk, .Ring3, CAP_VM_MANAGE, [.Ptr, .None, .None, .None, .None, .None]⟩
  , ⟨8, "clone", .tagClone, .Ring3, CAP_PROC_MANAGE, [.Flags, .Ptr, .Ptr, .None, .None, .None]⟩
  , ⟨9, "write", .tagWrite, .Ring3, CAP_CONSOLE_IO_BIT, [.Fd, .Ptr, .Len, .None, .None, .None]⟩
  , ⟨10, "read", .tagRead, .Ring3, CAP_CONSOLE_IO_BIT, [.Fd, .Ptr, .Len, .None, .None, .None]⟩
  , ⟨11, "open", .tagUnimplemented, .Ring3, 0, [.CStringPtr, .Flags, .Flags, .None, .None, .None]⟩
  , ⟨12, "close", .tagUnimplemented, .Ring3, 0, [.Fd, .None, .None, .None, .None, .None]⟩
  , ⟨13, "ioctl", .tagUnimplemented, .Ring3, 0, [.Fd, .Usize, .Ptr, .None, .None, .None]⟩
  , ⟨14, "yield", .tagYield, .Ring3, CAP_NONE, [.None, .None, .None, .None, .None, .None]⟩
  , ⟨15, "nanosleep", .tagUnimplemented, .Ring3, CAP_NONE, [.Ptr, .Ptr, .None, .None, .None, .None]⟩
  , ⟨16, "ipc_send", .tagUnimplemented, .Ring3, 0, [.Usize, .Ptr, .Len, .Flags, .None, .None]⟩
  , ⟨17, "ipc_recv", .tagUnimplemented, .Ring3, 0, [.Usize, .Ptr, .Len, .Flags, .None, .None]⟩
  , ⟨18, "shm_create", .tagUnimplemented, .Ring3, 0, [.Usize, .Len, .Flags, .None, .None, .None]⟩
  , ⟨19, "shm_map", .tagUnimplemented, .Ring3, 0, [.Usize, .Ptr, .Len, .Flags, .None, .None]⟩
  , ⟨20, "sysfs_read", .tagUnimplemented, .Ring3, 0, [.CStringPtr, .Ptr, .Len, .None, .None, .None]⟩
  , ⟨21, "sysfs_write", .tagUnimplemented, .Ring3, 0, [.CStringPtr, .Ptr, .Len, .None, .None, .None]⟩
  , ⟨22, "debug_log", .tagUnimplemented, .Ring0, 0, [.Ptr, .Len, .None, .None, .None, .None]⟩
  , ⟨23, "reserved23", .tagUnimplemented, .Ring3, 0, [.None, .None, .None, .None, .None, .None]⟩
  , ⟨24, "reserved24", .tagUnimplemented, .Ring3, 0, [.None, .None, .None, .None, .None, .None]⟩
  , ⟨25, "reserved25", .tagUnimplemented, .Ring3, 0, [.None, .None, .None, .None, .None, .None]⟩
  , ⟨26, "reserved26", .tagUnimplemented, .Ring3, 0, [.None, .None, .None, .None, .None, .None]⟩
  , ⟨27, "reserved27", .tagUnimplemented, .Ring3, 0, [.None, .None, .None, .None, .None, .None]⟩
  , ⟨28, "reserved28", .tagUnimplemented, .Ring3, 0, [.None, .None, .None, .None, .None, .None]⟩
  , ⟨29, "reserved29", .tagUnimplemented, .Ring3, 0, [.None, .None, .None, .None, .None, .None]⟩
  , ⟨30, "reserved30", .tagUnimplemented, .Ring3, 0, [.None, .None, .None, .None, .None, .None]⟩
  , ⟨31, "reserved31", .tagUnimplemented, .Ring3, 0, [.None, .None, .None, .None, .None, .None]⟩ ]

/-- Type of syscall handler functions over the explicit kernel state. -/
def SyscallHandlerFn : Type := Kernel → SyscallArgs → SyscallResult × Kernel

def current_thread_snapshot (k : Kernel) : Except Errno (Nat × Thread) :=
  match k.sched.current_thread with
  | none => .error .ESRCH
  | some tid =>
    match k.threadTable.get_thread tid with
    | none => .error .ESRCH
    | some th => .ok (tid, th)

/-- `handle_syscall`, parametric in the interpretation of the handler
function pointers stored in the table. -/
def handle_syscall (hinterp : HandlerTag → SyscallHandlerFn) (k : Kernel)
    (syscall_number : Nat) (args : SyscallArgs) : SyscallResult × Kernel :=
  match SYSCALL_TABLE.get? syscall_number with
  | none => (.error .ENOSYS, k)
  | some descriptor =>
    match current_thread_snapshot k with
    | .error e => (.error e, k)
    | .ok (_, thread) =>
      match k.get_process thread.process_id with
      | none => (.error .ESRCH, k)
      | some process =>
        if ¬ process.security.is_privileged_enough descriptor.max_caller_ring then
          (.error .EPERM, k)
        else if ¬ process.security.has_capabilities descriptor.required_capabilities then
          (.error .EPERM, k)
        else hinterp descriptor.handler k args

/-- `value as isize`: the u64 bit pattern reinterpreted as a signed 64-bit int. -/
def usizeToIsize (v : Nat) : Int :=
  if v % 2 ^ 64 < 2 ^ 63 then (v % 2 ^ 64 : Nat) else (v % 2 ^ 64 : Nat) - 2 ^ 64

/-- The `extern "C" fn syscall_handler` wrapper: success value cast to isize,
error mapped to the negated errno. -/
def syscall_handler (hinterp : HandlerTag → SyscallHandlerFn) (k : Kernel)
    (syscall_number a1 a2 a3 a4 a5 a6 : Nat) : Int × Kernel :=
  match handle_syscall hinterp k syscall_number ⟨a1, a2, a3, a4, a5, a6⟩ with
  | (.ok value, k') => (usizeToIsize value, k')
  | (.error e, k') => (-(e.code : Int), k')

/-! ## Syscall handlers used by the claims -/

/-- `take_zombie`: consume the first zombie matching the parent (and, when
`pid ≠ 0`, the specific child). -/
def take_zombie (k : Kernel) (parent pid : Nat) : Option (ZombieChild × Kernel) :=
  if pid = 0 then
    match takeFirst (fun z : ZombieChild => z.parent = parent) k.zombies with
    | some (z, rest) => some (z, { k with zombies := rest })
    | none => none
  else
    match takeFirst (fun z : ZombieChild => z.parent = parent ∧ z.child = pid) k.zombies with
    | some (z, rest) => some (z, { k with zombies := rest })
    | none => none

/-- `register_waiter`: drop any stale waiter of this thread, then push. -/
def register_waiter (k : Kernel) (parent tid pid : Nat) : Kernel :=
  let waiters := k.waiters.filter (fun w => w.tid ≠ tid)
  let target : Option Nat := if pid = 0 then none else some pid
  { k with waiters := waiters ++ [⟨parent, tid, target⟩] }

def sys_wait (k : Kernel) (args : SyscallArgs) : SyscallResult × Kernel :=
  match current_thread_snapshot k with
  | .error e => (.error e, k)
  | .ok (tid, thread) =>
    match take_zombie k thread.process_id args.a1 with
    | some (zombie, k') => (.ok zombie.child, k')
    | none =>
      let k1 := register_waiter k thread.process_id tid args.a1
      let k2 := k1.block_current_thread
      (.ok 0, k2)

/-- The waiter search-and-wake tail of `record_child_exit`. -/
def wake_waiter (k : Kernel) (parent_pid child : Nat) : Kernel :=
  match takeFirst
      (fun w : Waiter => w.parent = parent_pid ∧ (w.target = none ∨ w.target = some child))
      k.waiters with
  | some (w, rest) => ({ k with waiters := rest }).unblock_thread w.tid
  | none => k

/-- `record_child_exit`: detach the child from the parent, record a zombie,
and wake the first matching waiter if any. -/
def record_child_exit (k : Kernel) (parent : Option Nat) (child status : Nat) : Kernel :=
  match parent with
  | none => k
  | some parent_pid =>
    let pt1 := k.processTable.modifyProcess parent_pid
      (fun p => { p with children := p.children.filter (fun pid => pid ≠ child) })
    let k1 := { k with processTable := pt1 }
    let k2 := { k1 with zombies := k1.zombies ++ [⟨parent_pid, child, status⟩] }
    wake_waiter k2 parent_pid child

/-- The process-reaping tail of `finalize_thread`: drop the thread from its
process's list and, when that was the last thread, remove the process and run
the exit/wait rendezvous. -/
def reap_if_last (k3 : Kernel) (tid pid exit_code : Nat) : Kernel :=
  match k3.processTable.processes pid with
  | none => k3
  | some p =>
    let p1 := p.remove_thread tid
    let pt1 := { k3.processTable with
      processes := upd k3.processTable.processes pid (some p1) }
    if p1.threads = [] then
      let k4 := { k3 with processTable := pt1 }
      let k5 := (k4.remove_process pid).2
      record_child_exit k5 p.parent pid exit_code
    else
      { k3 with processTable := pt1 }

/-- `finalize_thread`: retire a thread; if it was its process's last thread,
reap the process and run the exit/wait rendezvous. -/
def finalize_thread (k : Kernel) (tid : Nat) (thread : Thread) (exit_code : Nat) : Kernel :=
  let k1 := k.set_thread_state tid .Terminated
  let k2 := k1.sched_remove_thread tid
  let k3 := { k2 with threadTable := k2.threadTable.remove_thread tid }
  reap_if_last k3 tid thread.process_id exit_code

def sys_exit (k : Kernel) (args : SyscallArgs) : SyscallResult × Kernel :=
  match current_thread_snapshot k with
  | .error e => (.error e, k)
  | .ok (tid, thread) => (.ok args.a1, finalize_thread k tid thread args.a1)

def sys_fork (k : Kernel) (_args : SyscallArgs) : SyscallResult × Kernel :=
  match current_thread_snapshot k with
  | .error e => (.error e, k)
  | .ok (_, thread) =>
    match k.get_process thread.process_id with
    | none => (.error .ESRCH, k)
    | some parent_process =>
      match k.allocate_frame with
      | none => (.error .ENOMEM, k)
      | some (new_page_frame, k1) =>
        let child_security := parent_process.security
        let child_fds := parent_process.file_descriptors.inherit
        let (child_pid, k2) :=
          k1.create_process parent_process.name new_page_frame child_security child_fds
        let setChild : Process → Process := fun child =>
          { child with parent := some parent_process.id, image := parent_process.image }
        let pt3 :=
          (k2.processTable.modifyProcess child_pid setChild).modifyProcess
            parent_process.id
            (fun parent => { parent with children := parent.children ++ [child_pid] })
        let k3 := { k2 with processTable := pt3 }
        match k3.allocate_frame with
        | none => (.error .ENOMEM, k3)
        | some (child_stack, k4) =>
          let (child_tid, k5) :=
            k4.create_thread child_pid thread.priority thread.context.rip child_stack
              thread.user_stack
          let k6 := k5.sched_add_thread child_tid
          (.ok child_pid, k6)

def sys_write (k : Kernel) (args : SyscallArgs) : SyscallResult × Kernel :=
  let fd := args.a1
  let buf := args.a2
  let len := args.a3
  if len = 0 then (.ok 0, k)
  else
    let data := (List.range len).map (fun i => k.userMem (buf + i))
    if fd = 1 ∨ fd = 2 then (.ok len, { k with stdout := k.stdout ++ data })
    else if fd = 0 then (.error .EPERM, k)
    else (.error .EINVAL, k)

/-- The byte-at-a-time stdin drain loop of `sys_read`: pop from stdin and
write through the raw user pointer until `len` bytes or stdin is empty. -/
def readStdinLoop : Nat → Nat → Nat → List Nat → (Nat → Nat) → Nat × List Nat × (Nat → Nat)
  | 0, _, read, stdin, mem => (read, stdin, mem)
  | n + 1, buf, read, stdin, mem =>
    match stdin with
    | [] => (read, stdin, mem)
    | b :: rest =>
      readStdinLoop n buf (read + 1) rest (fun a => if a = buf + read then b else mem a)

def sys_read (k : Kernel) (args : SyscallArgs) : SyscallResult × Kernel :=
  let fd := args.a1
  let buf := args.a2
  let len := args.a3
  if fd ≠ 0 then (.error .EINVAL, k)
  else if len = 0 then (.ok 0, k)
  else
    let r := readStdinLoop len buf 0 k.stdin k.userMem
    (.ok r.1, { k with stdin := r.2.1, userMem := r.2.2 })

def sys_getpid (k : Kernel) (_args : SyscallArgs) : SyscallResult × Kernel :=
  match current_thread_snapshot k with
  | .error e => (.error e, k)
  | .ok (_, thread) => (.ok thread.process_id, k)

def sys_yield (k : Kernel) (_args : SyscallArgs) : SyscallResult × Kernel :=
  (.ok 0, k.yield_cpu)

def sys_unimplemented (k : Kernel) (_args : SyscallArgs) : SyscallResult × Kernel :=
  (.error .ENOSYS, k)

/-! ## ELF loader (src/process/elf_loader.rs).  Byte buffers are `List Nat`;
strings (`&str` argv/envp entries) are their UTF-8 byte lists. -/

def ELF_MAGIC : List Nat := [0x7F, 0x45, 0x4C, 0x46]

def EI_CLASS : Nat := 4

def EI_DATA : Nat := 5

def EI_VERSION : Nat := 6

def PT_LOAD : Nat := 1

def SHT_RELA : Nat := 4

def SHT_REL : Nat := 9

def PF_EXECUTE : Nat := 0x1

def PF_WRITE : Nat := 0x2

def PF_READ : Nat := 0x4

def R_X86_64_RELATIVE : Nat := 8

def R_AARCH64_RELATIVE : Nat := 1027

inductive ElfClass
  | Elf32
  | Elf64
deriving DecidableEq, Repr

inductive Endianness
  | Little
  | Big
deriving DecidableEq, Repr

/-- Parsed ELF header; the source field `class` is named `eclass` here
because `class` is a Lean keyword. -/
structure ElfHeader where
  eclass : ElfClass
  endian : Endianness
  machine : Nat
  entry : Nat
  phoff : Nat
  shoff : Nat
  phentsize : Nat
  phnum : Nat
  shentsize : Nat
  shnum : Nat
deriving DecidableEq, Repr

structure ProgramHeader where
  typ : Nat
  flags : Nat
  offset : Nat
  vaddr : Nat
  filesz : Nat
  memsz : Nat
  align : Nat
deriving DecidableEq, Repr

structure SectionHeader where
  sh_type : Nat
  sh_offset : Nat
  sh_size : Nat
  sh_entsize : Nat
deriving DecidableEq, Repr

inductive RelocationKind
  | X86Relative
  | AArch64Relative
deriving DecidableEq, Repr

structure Relocation where
  offset : Nat
  addend : Int
  kind : RelocationKind
deriving DecidableEq, Repr

/-- Little-endian value of a byte list. -/
def fromLE (bs : List Nat) : Nat := bs.foldr (fun b acc => b + 256 * acc) 0

/-- Big-endian value of a byte list. -/
def fromBE (bs : List Nat) : Nat := bs.foldl (fun acc b => acc * 256 + b) 0

/-- `bytes.get(offset..offset+len)`: `none` when out of range. -/
def readSlice (bytes : List Nat) (offset len : Nat) : Option (List Nat) :=
  if offset + len ≤ bytes.length then some ((bytes.drop offset).take len) else none

def read_u16 (bytes : List Nat) (offset : Nat) (endian : Endianness) :
    Except ElfLoaderError Nat :=
  match readSlice bytes offset 2 with
  | none => .error .UnexpectedEof
  | some s => .ok (match endian with | .Little => fromLE s | .Big => fromBE s)

def read_u32 (bytes : List Nat) (offset : Nat) (endian : Endianness) :
    Except ElfLoaderError Nat :=
  match readSlice bytes offset 4 with
  | none => .error .UnexpectedEof
  | some s => .ok (match endian with | .Little => fromLE s | .Big => fromBE s)

def read_u64 (bytes : List Nat) (offset : Nat) (endian : Endianness) :
    Except ElfLoaderError Nat :=
  match readSlice bytes offset 8 with
  | none => .error .UnexpectedEof
  | some s => .ok (match endian with | .Little => fromLE s | .Big => fromBE s)

/-- `value as i32` reinterpretation of a u32. -/
def u32AsI32 (v : Nat) : Int :=
  if v < 2 ^ 31 then (v : Int) else (v : Int) - 2 ^ 32

/-- `value as i64` reinterpretation of a u64. -/
def u64AsI64 (v : Nat) : Int :=
  if v < 2 ^ 63 then (v : Int) else (v : Int) - 2 ^ 64

def read_i32 (bytes : List Nat) (offset : Nat) (endian : Endianness) :
    Except ElfLoaderError Int :=
  (read_u32 bytes offset endian).map u32AsI32

def read_i64 (bytes : List Nat) (offset : Nat) (endian : Endianness) :
    Except ElfLoaderError Int :=
  (read_u64 bytes offset endian).map u64AsI64

def parse_header64 (bytes : List Nat) (endian : Endianness) :
    Except ElfLoaderError ElfHeader :=
  if bytes.length < 64 then .error .InvalidHeader
  else do
    let machine ← read_u16 bytes 18 endian
    let entry ← read_u64 bytes 24 endian
    let phoff ← read_u64 bytes 32 endian
    let shoff ← read_u64 bytes 40 endian
    let phentsize ← read_u16 bytes 54 endian
    let phnum ← read_u16 bytes 56 endian
    let shentsize ← read_u16 bytes 58 endian
    let shnum ← read_u16 bytes 60 endian
    .ok { eclass := .Elf64, endian := endian, machine := machine, entry := entry
          phoff := phoff, shoff := shoff, phentsize := phentsize, phnum := phnum
          shentsize := shentsize, shnum := shnum }

def parse_header32 (bytes : List Nat) (endian : Endianness) :
    Except ElfLoaderError ElfHeader :=
  if bytes.length < 52 then .error .InvalidHeader
  else do
    let machine ← read_u16 bytes 18 endian
    let entry ← read_u32 bytes 24 endian
    let phoff ← read_u32 bytes 28 endian
    let shoff ← read_u32 bytes 32 endian
    let phentsize ← read_u16 bytes 42 endian
    let phnum ← read_u16 bytes 44 endian
    let shentsize ← read_u16 bytes 46 endian
    let shnum ← read_u16 bytes 48 endian
    .ok { eclass := .Elf32, endian := endian, machine := machine, entry := entry
          phoff := phoff, shoff := shoff, phentsize := phentsize, phnum := phnum
          shentsize := shentsize, shnum := shnum }

def parse_header (bytes : List Nat) : Except ElfLoaderError ElfHeader :=
  if bytes.length < 16 then .error .InvalidHeader
  else if bytes.take 4 ≠ ELF_MAGIC then .error .InvalidMagic
  else
    match bytes.getD EI_CLASS 0 with
    | 1 =>
      if bytes.getD EI_VERSION 0 ≠ 1 then .error .InvalidHeader
      else if bytes.getD EI_DATA 0 = 1 then parse_header32 bytes .Little
      else .error .UnsupportedEndianness
    | 2 =>
      if bytes.getD EI_VERSION 0 ≠ 1 then .error .InvalidHeader
      else if bytes.getD EI_DATA 0 = 1 then parse_header64 bytes .Little
      else .error .UnsupportedEndianness
    | _ => .error .UnsupportedClass

/-- Expected `e_machine` value for a target architecture. -/
def machineExpected : TargetArch → Nat
  | .X86_64 => 62
  | .AArch64 => 183

def validate_machine (header : ElfHeader) (arch : TargetArch) :
    Except ElfLoaderError Unit :=
  if header.machine ≠ machineExpected arch then .error .UnsupportedMachine
  else .ok ()

def parse_program_header64 (bytes : List Nat) (endian : Endianness) :
    Except ElfLoaderError ProgramHeader :=
  if bytes.length < 56 then .error .InvalidProgramHeader
  else do
    let typ ← read_u32 bytes 0 endian
    let flags ← read_u32 bytes 4 endian
    let offset ← read_u64 bytes 8 endian
    let vaddr ← read_u64 bytes 16 endian
    let filesz ← read_u64 bytes 32 endian
    let memsz ← read_u64 bytes 40 endian
    let align ← read_u64 bytes 48 endian
    .ok { typ := typ, flags := flags, offset := offset, vaddr := vaddr
          filesz := filesz, memsz := memsz, align := align }

def parse_program_header32 (bytes : List Nat) (endian : Endianness) :
    Except ElfLoaderError ProgramHeader :=
  if bytes.length < 32 then .error .InvalidProgramHeader
  else do
    let typ ← read_u32 bytes 0 endian
    let offset ← read_u32 bytes 4 endian
    let vaddr ← read_u32 bytes 8 endian
    let filesz ← read_u32 bytes 16 endian
    let memsz ← read_u32 bytes 20 endian
    let flags ← read_u32 bytes 24 endian
    let align ← read_u32 bytes 28 endian
    .ok { typ := typ, flags := flags, offset := offset, vaddr := vaddr
          filesz := filesz, memsz := memsz, align := align }

def parse_program_header (bytes : List Nat) (eclass : ElfClass) (endian : Endianness) :
    Except ElfLoaderError ProgramHeader :=
  match eclass with
  | .Elf64 => parse_program_header64 bytes endian
  | .Elf32 => parse_program_header32 bytes endian

def parse_program_headers (bytes : List Nat) (header : ElfHeader) :
    Except ElfLoaderError (List ProgramHeader) :=
  let phoff := header.phoff
  let entsize := header.phentsize
  if entsize = 0 then .error .InvalidProgramHeader
  else
    (List.range header.phnum).mapM (fun idx =>
      let start := phoff + idx * entsize
      if start + entsize > bytes.length then .error .UnexpectedEof
      else parse_program_header ((bytes.drop start).take entsize) header.eclass header.endian)

def parse_section_header64 (bytes : List Nat) (endian : Endianness) :
    Except ElfLoaderError SectionHeader :=
  if bytes.length < 64 then .error .InvalidHeader
  else do
    let sh_type ← read_u32 bytes 4 endian
    let sh_offset ← read_u64 bytes 24 endian
    let sh_size ← read_u64 bytes 32 endian
    let sh_entsize ← read_u64 bytes 56 endian
    .ok { sh_type := sh_type, sh_offset := sh_offset, sh_size := sh_size
          sh_entsize := sh_entsize }

def parse_section_header32 (bytes : List Nat) (endian : Endianness) :
    Except ElfLoaderError SectionHeader :=
  if bytes.length < 40 then .error .InvalidHeader
  else do
    let sh_type ← read_u32 bytes 4 endian
    let sh_offset ← read_u32 bytes 16 endian
    let sh_size ← read_u32 bytes 20 endian
    let sh_entsize ← read_u32 bytes 36 endian
    .ok { sh_type := sh_type, sh_offset := sh_offset, sh_size := sh_size
          sh_entsize := sh_entsize }

def parse_section_header (bytes : List Nat) (eclass : ElfClass) (endian : Endianness) :
    Except ElfLoaderError SectionHeader :=
  match eclass with
  | .Elf64 => parse_section_header64 bytes endian
  | .Elf32 => parse_section_header32 bytes endian

def parse_section_headers (bytes : List Nat) (header : ElfHeader) :
    Except ElfLoaderError (List SectionHeader) :=
  if header.shoff = 0 ∨ header.shentsize = 0 then .ok []
  else
    let shoff := header.shoff
    let entsize := header.shentsize
    (List.range header.shnum).mapM (fun idx =>
      let start := shoff + idx * entsize
      if start + entsize > bytes.length then .error .UnexpectedEof
      else parse_section_header ((bytes.drop start).take entsize) header.eclass header.endian)

def parse_relocation64 (bytes : List Nat) (endian : Endianness) (sh_type : Nat)
    (arch : TargetArch) : Except ElfLoaderError Relocation :=
  if bytes.length < 24 then .error .InvalidHeader
  else do
    let offset ← read_u64 bytes 0 endian
    let info ← read_u64 bytes 8 endian
    let addend ← if sh_type = SHT_RELA then read_i64 bytes 16 endian else pure 0
    match arch with
    | .X86_64 =>
      if info % 2 ^ 32 ≠ R_X86_64_RELATIVE then .error .RelocationUnsupported
      else .ok { offset := offset, addend := addend, kind := .X86Relative }
    | .AArch64 =>
      if info % 2 ^ 32 ≠ R_AARCH64_RELATIVE then .error .RelocationUnsupported
      else .ok { offset := offset, addend := addend, kind := .AArch64Relative }

def parse_relocation32 (bytes : List Nat) (endian : Endianness) (sh_type : Nat)
    (arch : TargetArch) : Except ElfLoaderError Relocation :=
  if bytes.length < 12 then .error .InvalidHeader
  else do
    let offset ← read_u32 bytes 0 endian
    let info ← read_u32 bytes 4 endian
    let addend ← if sh_type = SHT_RELA then read_i32 bytes 8 endian else pure 0
    match arch with
    | .X86_64 =>
      if info % 256 ≠ R_X86_64_RELATIVE then .error .RelocationUnsupported
      else .ok { offset := offset, addend := addend, kind := .X86Relative }
    | .AArch64 =>
      if info % 256 ≠ R_AARCH64_RELATIVE then .error .RelocationUnsupported
      else .ok { offset := offset, addend := addend, kind := .AArch64Relative }

def parse_relocation (bytes : List Nat) (eclass : ElfClass) (endian : Endianness)
    (sh_type : Nat) (arch : TargetArch) : Except ElfLoaderError Relocation :=
  match eclass with
  | .Elf64 => parse_relocation64 bytes endian sh_type arch
  | .Elf32 => parse_relocation32 bytes endian sh_type arch

/-- The `while offset < end` entry walk of one relocation section runs once per
started `entsize` stride; the out-of-file slice panic of the source (only
possible when `sh_size` is not a multiple of `entsize`) surfaces here as the
short-slice `InvalidHeader` of `parse_relocation`. -/
def parse_relocations (bytes : List Nat) (header : ElfHeader)
    (sections : List SectionHeader) (arch : TargetArch) :
    Except ElfLoaderError (List Relocation) :=
  sections.foldlM (fun acc sec =>
    if sec.sh_type ≠ SHT_RELA ∧ sec.sh_type ≠ SHT_REL then pure acc
    else
      let entsize :=
        if sec.sh_entsize = 0 then
          match header.eclass with | .Elf64 => 24 | .Elf32 => 12
        else sec.sh_entsize
      let off := sec.sh_offset
      let endPos := off + sec.sh_size
      if endPos > bytes.length then .error .UnexpectedEof
      else do
        let count := (endPos - off + entsize - 1) / entsize
        let rs ← (List.range count).mapM (fun i =>
          parse_relocation ((bytes.drop (off + i * entsize)).take entsize)
            header.eclass header.endian sec.sh_type arch)
        pure (acc ++ rs)) []

def build_segments (bytes : List Nat) (_header : ElfHeader)
    (program_headers : List ProgramHeader) : Except ElfLoaderError (List Segment) := do
  let segments ← program_headers.foldlM (fun acc ph =>
    if ph.typ ≠ PT_LOAD ∨ ph.memsz = 0 then pure acc
    else
      let file_start := ph.offset
      let file_end := file_start + ph.filesz
      if file_end > bytes.length then .error .UnexpectedEof
      else
        let copy_len := Nat.min ph.filesz ph.memsz
        let data := (bytes.drop file_start).take copy_len ++
          List.replicate (ph.memsz - copy_len) 0
        let flags0 := PageFlags.USER_ACCESSIBLE ||| PageFlags.PRESENT
        let flags1 := if ph.flags &&& PF_WRITE ≠ 0 then flags0 ||| PageFlags.WRITABLE
                      else flags0
        let flags2 := if ph.flags &&& PF_EXECUTE = 0 then flags1 ||| PageFlags.NO_EXECUTE
                      else flags1
        pure (acc ++ [{ vaddr := ph.vaddr, mem_size := ph.memsz, file_size := ph.filesz
                        flags := flags2, data := data }])) ([] : List Segment)
  pure (segments.mergeSort (fun a b => a.vaddr ≤ b.vaddr))

/-- Bytes of `value.to_le_bytes()` at width `w`. -/
def leBytes (w v : Nat) : List Nat :=
  (List.range w).map (fun i => v / 256 ^ i % 256)

/-- Overwrite `src.length` bytes of `data` starting at `off`
(`copy_from_slice` on a subslice). -/
def writeBytesAt (data : List Nat) (off : Nat) (src : List Nat) : List Nat :=
  data.take off ++ src ++ data.drop (off + src.length)

def find_segment_idx (segments : List Segment) (addr : Nat) : Option Nat :=
  segments.findIdx? (fun s => decide (s.vaddr ≤ addr ∧ addr < s.vaddr + s.mem_size))

def apply_relocations (segments : List Segment) (relocations : List Relocation)
    (arch : TargetArch) (eclass : ElfClass) : Except ElfLoaderError (List Segment) :=
  if relocations = [] then .ok segments
  else relocations.foldlM (fun segs reloc =>
    match find_segment_idx segs reloc.offset with
    | none => pure segs
    | some i =>
      match segs.get? i with
      | none => pure segs
      | some segment =>
        let offset := reloc.offset - segment.vaddr
        match arch, reloc.kind with
        | .X86_64, .X86Relative | .AArch64, .AArch64Relative =>
          let width := match eclass with | .Elf32 => 4 | .Elf64 => 8
          if offset + width > segment.data.length then .error .UnexpectedEof
          else
            let value := (reloc.addend % (2 ^ 64 : Int)).toNat
            let src := if width = 4 then leBytes 4 (value % 2 ^ 32) else leBytes 8 value
            pure (segs.set i { segment with data := writeBytesAt segment.data offset src })
        | _, _ => .error .RelocationUnsupported) segments

def build_auxiliary (header : ElfHeader) (argc envc : Nat) : List AuxEntry :=
  [ ⟨3, header.phoff⟩
  , ⟨4, header.phentsize⟩
  , ⟨5, header.phnum⟩
  , ⟨6, PAGE_SIZE⟩
  , ⟨7, 0⟩
  , ⟨9, header.entry⟩
  , ⟨11, 0⟩
  , ⟨12, 0⟩
  , ⟨13, 0⟩
  , ⟨14, 0⟩
  , ⟨17, argc⟩
  , ⟨23, envc⟩
  , ⟨0, 0⟩ ]

/-- `(value + align - 1) & !(align - 1)` for the power-of-two aligns used by
the source, written arithmetically. -/
def align_up (value align : Nat) : Nat :=
  if align = 0 then value
  else (value + align - 1) - (value + align - 1) % align

/-- `x & !0xF`. -/
def alignDown16 (x : Nat) : Nat := x - x % 16

def write_u64_stack (data : List Nat) (offset value : Nat) :
    Except ElfLoaderError (List Nat) :=
  if offset + 8 ≤ data.length then .ok (writeBytesAt data offset (leBytes 8 value))
  else .error .StackOverflow

/-- The argv/envp writing loop of `build_stack`: write each string with its
NUL terminator at the running cursor and its user-space address into pointer
slot `idx`. -/
def writeStringsLoop (ptrOffset userSp : Nat) :
    List (List Nat) → Nat → Nat → List Nat →
    Except ElfLoaderError (List Nat × Nat)
  | [], _, cursor, data => .ok (data, cursor)
  | s :: rest, idx, cursor, data =>
    let needed := s.length + 1
    if cursor + needed > data.length then .error .StackOverflow
    else do
      let data1 := writeBytesAt data cursor (s ++ [0])
      let data2 ← write_u64_stack data1 (ptrOffset + idx * 8) (userSp + cursor)
      writeStringsLoop ptrOffset userSp rest (idx + 1) (cursor + needed) data2

/-- The auxv writing loop of `build_stack`. -/
def writeAuxLoop (auxOffset : Nat) :
    List AuxEntry → Nat → List Nat → Except ElfLoaderError (List Nat)
  | [], _, data => .ok data
  | e :: rest, idx, data => do
    let data1 ← write_u64_stack data (auxOffset + idx * 2 * 8) e.key
    let data2 ← write_u64_stack data1 (auxOffset + (idx * 2 + 1) * 8) e.value
    writeAuxLoop auxOffset rest (idx + 1) data2

/-- Total byte size of the stack image computed by `build_stack`. -/
def stackImageSize (argv envp : List (List Nat)) (aux : List AuxEntry) : Nat :=
  let argc := argv.length
  let envc := envp.length
  let header_words := 1 + (argc + 1) + (envc + 1) + aux.length * 2
  let header_bytes := header_words * 8
  let strings_size := ((argv ++ envp).map (fun e => e.length + 1)).sum
  let strings_offset := align_up header_bytes 16
  align_up (strings_offset + strings_size) 16

def build_stack (address_space : AddressSpace) (argv envp : List (List Nat))
    (aux : List AuxEntry) : Except ElfLoaderError StackImage :=
  let argc := argv.length
  let envc := envp.length
  let ptr_size := 8
  let header_words := 1 + (argc + 1) + (envc + 1) + aux.length * 2
  let header_bytes := header_words * ptr_size
  let strings_size := ((argv ++ envp).map (fun e => e.length + 1)).sum
  let strings_offset := align_up header_bytes 16
  let total := align_up (strings_offset + strings_size) 16
  let top := address_space.stack_end
  let bottom_limit := address_space.stack_start
  if total > top - bottom_limit then .error .StackOverflow
  else
    let user_sp := alignDown16 (top - total)
    let argv_offset := ptr_size
    let envp_offset := argv_offset + (argc + 1) * ptr_size
    let aux_offset := envp_offset + (envc + 1) * ptr_size
    let data0 := List.replicate total 0
    (do
      let d1 ← write_u64_stack data0 0 argc
      let r1 ← writeStringsLoop argv_offset user_sp argv 0 strings_offset d1
      let d2 ← write_u64_stack r1.1 (argv_offset + argc * ptr_size) 0
      let r2 ← writeStringsLoop envp_offset user_sp envp 0 r1.2 d2
      let d3 ← write_u64_stack r2.1 (envp_offset + envc * ptr_size) 0
      let d4 ← writeAuxLoop aux_offset aux 0 d3
      .ok { user_sp := user_sp, stack_top := address_space.stack_end
            stack_bottom := address_space.stack_start, data := d4 })

def load_executable (image : List Nat) (arch : TargetArch)
    (address_space : AddressSpace) (argv envp : List (List Nat)) :
    Except ElfLoaderError LoadedImage := do
  let header ← parse_header image
  let _ ← validate_machine header arch
  let program_headers ← parse_program_headers image header
  let segments0 ← build_segments image header program_headers
  let sections ← parse_section_headers image header
  let relocations ← parse_relocations image header sections arch
  let segments ← apply_relocations segments0 relocations arch header.eclass
  if segments = [] then .error .MissingLoadSegment
  else do
    let aux := build_auxiliary header argv.length envp.length
    let stack ← build_stack address_space argv envp aux
    .ok { entry_point := header.entry, segments := segments, auxiliary := aux
          stack := stack, program_header_offset := header.phoff
          program_header_entry_size := header.phentsize
          program_header_count := header.phnum }

/-- Concrete instantiation of `c10_wait_blocking_path`: a one-process,
one-thread kernel with the thread current and no zombies. -/
def kernelC10 : Kernel :=
  { Kernel.empty with
    processTable := ProcessTable.new.add_process
      (Process.new 1 "p" (AddressSpace.new 0) (SecurityContext.as_user 7)
        FileDescriptorTable.new)
    threadTable := ThreadTable.new.add_thread (Thread.new 1 1 .Normal 0 0 none)
    sched := { Scheduler.new with
      runQueue := { RunQueue.new with currentThread := some 1 } } }

/-- Thread table and scheduler state refuting claim C6 as stated: thread 1 is
current with state `Ready` and remaining budget 1; thread 2 sits in the
Normal lane. -/
def ttC6 : ThreadTable :=
  (ThreadTable.new.add_thread (Thread.new 1 1 .Normal 0 0 none)).add_thread
    (Thread.new 2 1 .Normal 0 0 none)

def schC6 : Scheduler :=
  { runQueue := { queues := upd5 (fun _ => []) 2 [2], currentThread := some 1
                  idleThread := none }
    timeSliceRemaining := 1, totalTicks := 0 }

/-! ## Claim C3: at most one Running thread in any reachable state -/

/-- Strengthened invariant on a scheduler/thread-table pair: every thread in
`Running` state is the scheduler's current thread. -/
def RIC (s : Scheduler) (tt : ThreadTable) : Prop :=
  ∀ tid th, tt.threads tid = some th → th.state = ThreadState.Running →
    s.runQueue.currentThread = some tid

/-- No thread of the table is in `Running` state. -/
def noRunning (tt : ThreadTable) : Prop :=
  ∀ tid th, tt.threads tid = some th → th.state ≠ ThreadState.Running

/-- The strengthened invariant lifted to the kernel state. -/
def runningIsCurrent (k : Kernel) : Prop := RIC k.sched k.threadTable

/-- Claimed invariant: at most one thread in the whole thread table is in
`Running` state. -/
def atMostOneRunning (k : Kernel) : Prop :=
  ∀ t1 t2 th1 th2, k.threadTable.threads t1 = some th1 →
    k.threadTable.threads t2 = some th2 →
    th1.state = ThreadState.Running → th2.state = ThreadState.Running → t1 = t2

/-- One step by any of the scheduler/thread-lifecycle operations of the
claim, with arbitrary arguments. -/
inductive Step : Kernel → Kernel → Prop
  | schedule (k : Kernel) : Step k (k.schedule).2
  | tick (k : Kernel) : Step k k.tick
  | block_current (k : Kernel) : Step k k.block_current_thread
  | unblock_thread (k : Kernel) (tid : Nat) : Step k (k.unblock_thread tid)
  | yield_current (k : Kernel) : Step k k.yield_cpu
  | add_thread (k : Kernel) (tid : Nat) : Step k (k.sched_add_thread tid)
  | remove_thread (k : Kernel) (tid : Nat) : Step k (k.sched_remove_thread tid)
  | create_thread (k : Kernel) (pid : Nat) (prio : Priority) (entry kstack : Nat)
      (ustack : Option Nat) : Step k (k.create_thread pid prio entry kstack ustack).2
  | finalize (k : Kernel) (tid : Nat) (th : Thread) (code : Nat) :
      Step k (finalize_thread k tid th code)

/-- States reachable from the empty boot state by the claimed operations. -/
inductive ReachableK : Kernel → Prop
  | init : ReachableK Kernel.empty
  | step {k k' : Kernel} : ReachableK k → Step k k' → ReachableK k'

/-- A concrete reachable state with a Running thread, built by
create/add/schedule, instantiating `c3_at_most_one_running`. -/
def kernelC3 : Kernel :=
  ((((Kernel.empty.create_thread 1 .Normal 0 0 none).2).sched_add_thread 1).schedule).2

/-- Concrete kernel for the C8 witness: one process (pid 1, some initial
capability mask) with one current thread and two free frames. -/
def kernelC8 : Kernel :=
  { Kernel.empty with
    processTable :=
      { processes := upd (fun _ => none) 1
          (some (Process.new 1 "init" (AddressSpace.new 0)
            ((SecurityContext.as_user 5).with_capabilities CAP_PROC_MANAGE)
            FileDescriptorTable.new))
        nextPid := 2 }
    threadTable := ThreadTable.new.add_thread (Thread.new 1 1 .Normal 0 0 none)
    sched := { Scheduler.new with
      runQueue := { RunQueue.new with currentThread := some 1 } }
    securityContexts :=
      [⟨1, (SecurityContext.as_user 5).with_capabilities CAP_PROC_MANAGE⟩]
    freeFrames := [100, 200] }

/-! ## C2 scenario: the exit/wait rendezvous -/

/-- The argument block of a `wait(pid)` call. -/
def waitArgs (pid : Nat) : SyscallArgs := ⟨pid, 0, 0, 0, 0, 0⟩

/-- State after the parent's first (blocking) `wait(0)` call. -/
def c2K1 (k : Kernel) : Kernel := (sys_wait k (waitArgs 0)).2

/-- State after the child's last thread `tc` exits with `status`. -/
def c2K2 (k : Kernel) (tc : Nat) (thc : Thread) (status : Nat) : Kernel :=
  finalize_thread (c2K1 k) tc thc status

/-- State after the scheduler next runs. -/
def c2K3 (k : Kernel) (tc : Nat) (thc : Thread) (status : Nat) : Kernel :=
  ((c2K2 k tc thc status).schedule).2

/-- State after the rescheduled parent's consuming `wait(C)` call. -/
def c2K4 (k : Kernel) (tc : Nat) (thc : Thread) (status : Nat) : Kernel :=
  (sys_wait (c2K3 k tc thc status) (waitArgs thc.process_id)).2

/-- State after the parent's second immediate `wait(C)` call. -/
def c2K5 (k : Kernel) (tc : Nat) (thc : Thread) (status : Nat) : Kernel :=
  (sys_wait (c2K4 k tc thc status) (waitArgs thc.process_id)).2

/-- Explicit form of `c2K1`: parent thread `tp` Blocked, CPU idle, a
`pid`-parented any-child waiter registered. -/
def c2R1 (k : Kernel) (tp pid : Nat) : Kernel :=
  { k with
    threadTable := k.threadTable.modifyThread tp (fun t => t.set_state .Blocked)
    sched := { k.sched with runQueue := k.sched.runQueue.set_current none }
    waiters := k.waiters.filter (fun w => w.tid ≠ tp) ++ [⟨pid, tp, none⟩] }

/-- Thread table after the child exit: parent woken back to Ready, child
terminated and removed. -/
def c2tt7 (k : Kernel) (tp tc : Nat) : ThreadTable :=
  (((k.threadTable.modifyThread tp (fun t => t.set_state .Blocked)).modifyThread tc
      (fun t => t.set_state .Terminated)).remove_thread tc).modifyThread tp
    (fun t => t.set_state .Ready)

/-- Run queue after the child exit: no current thread, child dequeued, parent
re-enqueued at its priority. -/
def c2rq7 (k : Kernel) (tp tc : Nat) (prio : Priority) : RunQueue :=
  ((k.sched.runQueue.set_current none).remove tc).enqueue tp prio

/-- Explicit form of `c2K2`: child process reaped, zombie recorded, waiter
consumed, parent unblocked. -/
def c2R7 (k : Kernel) (tp tc status : Nat) (thp thc : Thread)
    (procC procP : Process) : Kernel :=
  { k with
    processTable := { k.processTable with
      processes := upd (upd (upd k.processTable.processes thc.process_id
        (some (procC.remove_thread tc))) thc.process_id none) thp.process_id
        (some { procP with
          children := procP.children.filter (fun pid => pid ≠ thc.process_id) }) }
    threadTable := c2tt7 k tp tc
    sched := { k.sched with runQueue := c2rq7 k tp tc thp.priority }
    securityContexts := removeContextCtx k.securityContexts thc.process_id
    zombies := k.zombies ++ [⟨thp.process_id, thc.process_id, status⟩]
    waiters := k.waiters.filter (fun w => w.tid ≠ tp) }

/-- Explicit form of `c2K3`: the parent is picked and promoted to Running. -/
def c2R8 (k : Kernel) (tp tc status : Nat) (thp thc : Thread)
    (procC procP : Process) : Kernel :=
  { c2R7 k tp tc status thp thc procC procP with
    sched := { k.sched with
      runQueue := { c2rq7 k tp tc thp.priority with
        currentThread := some tp
        queues := upd5 (c2rq7 k tp tc thp.priority).queues 2 [] }
      timeSliceRemaining := thp.time_slice }
    threadTable := (c2tt7 k tp tc).modifyThread tp (fun t => t.set_state .Running) }

/-- Explicit form of `c2K4`: the consuming `wait` removed the zombie and
changed nothing else. -/
def c2R9 (k : Kernel) (tp tc status : Nat) (thp thc : Thread)
    (procC procP : Process) : Kernel :=
  { c2R8 k tp tc status thp thc procC procP with zombies := k.zombies }

/-- Explicit form of `c2K5`: the parent is blocked again with a targeted
waiter registered. -/
def c2R5 (k : Kernel) (tp tc status : Nat) (thp thc : Thread)
    (procC procP : Process) : Kernel :=
  { c2R9 k tp tc status thp thc procC procP with
    threadTable := (c2R9 k tp tc status thp thc procC procP).threadTable.modifyThread
      tp (fun t => t.set_state .Blocked)
    sched := { (c2R9 k tp tc status thp thc procC procP).sched with
      runQueue := (c2R9 k tp tc status thp thc procC procP).sched.runQueue.set_current
        none }
    waiters := (c2R9 k tp tc status thp thc procC procP).waiters.filter
      (fun w => w.tid ≠ tp) ++ [⟨thp.process_id, tp, some thc.process_id⟩] }

/-- Concrete parent thread for the C2 scenario: tid 1 in process 1. -/
def thpC2 : Thread := Thread.new 1 1 .Normal 0 0 none

/-- Concrete child thread for the C2 scenario: tid 2 in process 2. -/
def thcC2 : Thread := Thread.new 2 2 .Normal 0 0 none

/-- Concrete parent process for the C2 scenario. -/
def procC2P : Process :=
  { Process.new 1 "parent" (AddressSpace.new 0) (SecurityContext.new 0 .Ring0)
      FileDescriptorTable.default with
    threads := [1], children := [2] }

/-- Concrete child process for the C2 scenario. -/
def procC2C : Process :=
  { Process.new 2 "child" (AddressSpace.new 0) (SecurityContext.new 0 .Ring0)
      FileDescriptorTable.default with
    threads := [2], parent := some 1 }

/-- The C2 scenario's process map: pid 1 is the parent, pid 2 the child. -/
def procMapC2 : Nat → Option Process :=
  upd (upd (fun _ => none) 1 (some procC2P)) 2 (some procC2C)

/-- The C2 scenario's thread map: tid 1 is the parent's thread, tid 2 the
child's. -/
def threadMapC2 : Nat → Option Thread :=
  upd (upd (fun _ => none) 1 (some thpC2)) 2 (some thcC2)

/-- Concrete kernel state for the C2 scenario: the parent thread is current,
the run queues are empty, no zombies or waiters. -/
def kernelC2 : Kernel :=
  { Kernel.empty with
    processTable := { processes := procMapC2, nextPid := 3 }
    threadTable := { threads := threadMapC2, nextTid := 3 }
    sched := { Scheduler.new with
      runQueue := { RunQueue.new with currentThread := some 1 } } }

/-- The `len`-byte subslice of `data` at offset `off`. -/
def sliceAt (data : List Nat) (off len : Nat) : List Nat :=
  (data.drop off).take len

/-- Combined size of a packed NUL-terminated string list. -/
def sizeSum (l : List (List Nat)) : Nat := (l.map (fun s => s.length + 1)).sum

/-- `header_bytes` of `build_stack`. -/
def headerBytes (argc envc auxn : Nat) : Nat :=
  (1 + (argc + 1) + (envc + 1) + auxn * 2) * 8

/-- `strings_offset` of `build_stack`. -/
def stringsOffset (argc envc auxn : Nat) : Nat :=
  align_up (headerBytes argc envc auxn) 16

/-- `envp_offset` of `build_stack`. -/
def envpOffset (argc : Nat) : Nat := 8 + (argc + 1) * 8

/-- `aux_offset` of `build_stack`. -/
def auxvOffset (argc envc : Nat) : Nat := envpOffset argc + (envc + 1) * 8

/-- A zero-size stack window for the C5 overflow witness. -/
def asOvfC5 : AddressSpace :=
  { page_table_frame := 0, heap_start := 0, heap_end := 0
    stack_start := 0, stack_end := 0 }

/-- A minimal 120-byte little-endian ELF64 executable image with one
`PT_LOAD` program header: `e` are the 8 `e_entry` bytes (at offset 24) and
`v` the 8 `p_vaddr` bytes (at offset 80 = phoff 64 + 16); `phnum = 1`,
`phentsize = 56`, `shoff = shnum = 0`, machine id 62 (x86-64), `p_type =
PT_LOAD`, `p_flags = R+X`, `p_filesz = 0`, `p_memsz = 8`. -/
def mkElf (e v : List Nat) : List Nat :=
  [0x7F, 0x45, 0x4C, 0x46, 2, 1, 1, 0, 0, 0, 0, 0, 0, 0, 0, 0] ++
  [2, 0] ++ [62, 0] ++ [1, 0, 0, 0] ++
  e ++
  [64, 0, 0, 0, 0, 0, 0, 0] ++
  [0, 0, 0, 0, 0, 0, 0, 0] ++
  [0, 0, 0, 0] ++ [64, 0] ++ [56, 0] ++ [1, 0] ++ [0, 0] ++ [0, 0] ++ [0, 0] ++
  [1, 0, 0, 0] ++ [5, 0, 0, 0] ++
  [0, 0, 0, 0, 0, 0, 0, 0] ++
  v ++
  [0, 0, 0, 0, 0, 0, 0, 0] ++
  [0, 0, 0, 0, 0, 0, 0, 0] ++
  [8, 0, 0, 0, 0, 0, 0, 0] ++
  [0, 16, 0, 0, 0, 0, 0, 0]

/-- The header parsed from `mkElf`. -/
def mkElfHeader (e : List Nat) : ElfHeader :=
  { eclass := .Elf64, endian := .Little, machine := 62, entry := fromLE e
    phoff := 64, shoff := 0, phentsize := 56, phnum := 1
    shentsize := 0, shnum := 0 }

/-- The program header parsed from `mkElf`. -/
def mkElfPh (v : List Nat) : ProgramHeader :=
  { typ := 1, flags := 5, offset := 0, vaddr := fromLE v
    filesz := 0, memsz := 8, align := 4096 }

/-- The single segment built from `mkElf`: read+execute, 8 zero bytes. -/
def mkElfSeg (v : List Nat) : Segment :=
  { vaddr := fromLE v, mem_size := 8, file_size := 0
    flags := PageFlags.USER_ACCESSIBLE ||| PageFlags.PRESENT
    data := List.replicate 8 0 }

/-! ## Theorems -/

@[simp] theorem takeFirst_nil {α : Type} (p : α → Prop) [DecidablePred p] :
    takeFirst p [] = none := rfl

theorem takeFirst_eq_none {α : Type} (p : α → Prop) [DecidablePred p] :
    ∀ l : List α, (∀ x ∈ l, ¬ p x) → takeFirst p l = none := by
  intro l
  induction l with
  | nil => intro _; rfl
  | cons x xs ih =>
    intro h
    simp only [takeFirst]
    rw [if_neg (h x (by simp))]
    rw [ih (fun y hy => h y (by simp [hy]))]
    rfl

theorem takeFirst_append_singleton {α : Type} (p : α → Prop) [DecidablePred p]
    (l : List α) (z : α) (hl : ∀ x ∈ l, ¬ p x) (hz : p z) :
    takeFirst p (l ++ [z]) = some (z, l) := by
  induction l with
  | nil => simp [takeFirst, hz]
  | cons x xs ih =>
    simp only [List.cons_append, takeFirst]
    rw [if_neg (hl x (by simp))]
    rw [show xs.append [z] = xs ++ [z] from rfl]
    rw [ih (fun y hy => hl y (by simp [hy]))]
    rfl

/-! ## Claim C7: `FileDescriptorTable::inherit` -/

theorem fdFold_le_acc (l : List FileDescriptorEntry) (a : Nat) :
    a ≤ l.foldl (fun m e => Nat.max m (e.fd + 1)) a := by
  induction l generalizing a with
  | nil => simp
  | cons x xs ih =>
    simp only [List.foldl_cons]
    exact le_trans (Nat.le_max_left a (x.fd + 1)) (ih _)

theorem fdFold_ge_mem (e : FileDescriptorEntry) :
    ∀ (l : List FileDescriptorEntry) (a : Nat), e ∈ l →
      e.fd + 1 ≤ l.foldl (fun m x => Nat.max m (x.fd + 1)) a := by
  intro l
  induction l with
  | nil => intro a he; cases he
  | cons x xs ih =>
    intro a he
    simp only [List.foldl_cons]
    rcases List.mem_cons.mp he with h | h
    · subst h
      exact le_trans (Nat.le_max_right a (e.fd + 1)) (fdFold_le_acc xs _)
    · exact ih _ h

theorem fdFold_cases (l : List FileDescriptorEntry) :
    ∀ a : Nat, l.foldl (fun m x => Nat.max m (x.fd + 1)) a = a ∨
      ∃ e ∈ l, l.foldl (fun m x => Nat.max m (x.fd + 1)) a = e.fd + 1 := by
  induction l with
  | nil => intro a; left; rfl
  | cons x xs ih =>
    intro a
    simp only [List.foldl_cons]
    rcases ih (Nat.max a (x.fd + 1)) with h | ⟨e, he, h⟩
    · rcases Nat.le_total a (x.fd + 1) with hm | hm
      · right; exact ⟨x, by simp, by rw [h]; exact Nat.max_eq_right hm⟩
      · left; rw [h]; exact Nat.max_eq_left hm
    · right; exact ⟨e, by simp [he], h⟩

/-- Claim C7 (corrected), counterexample to the claim as stated: a table whose
next-free-fd counter was advanced by a non-inheritable entry (fd 5, so
`next_fd = 6`) yields an inherited table with `next_fd = 3`, not 6: `inherit`
does not preserve the parent's next-free-fd counter. -/
theorem c7_inherit_counterexample :
    (FileDescriptorTable.new.insert 5 0 false FdObject.Stdout).next_fd = 6 ∧
    ((FileDescriptorTable.new.insert 5 0 false FdObject.Stdout).inherit).next_fd = 3 ∧
    ((FileDescriptorTable.new.insert 5 0 false FdObject.Stdout).inherit).next_fd ≠
      (FileDescriptorTable.new.insert 5 0 false FdObject.Stdout).next_fd := by
  refine ⟨rfl, rfl, ?_⟩
  decide

/-- Claim C7 (corrected, amended): `inherit()` keeps exactly the inheritable
entries of the parent (same fd numbers, flags and objects, in order), and its
next-free-fd counter is recomputed as one past the largest surviving fd
(0 when no entry survives), rather than copied from the parent. -/
theorem c7_inherit_amended (t : FileDescriptorTable) :
    t.inherit.entries = t.entries.filter (fun e => e.inheritable) ∧
    (∀ e, e ∈ t.inherit.entries ↔ e ∈ t.entries ∧ e.inheritable = true) ∧
    (∀ e ∈ t.inherit.entries, e.fd + 1 ≤ t.inherit.next_fd) ∧
    (t.inherit.next_fd = 0 ∨ ∃ e ∈ t.inherit.entries, t.inherit.next_fd = e.fd + 1) := by
  refine ⟨rfl, ?_, ?_, ?_⟩
  · intro e
    constructor
    · intro h
      have := List.mem_filter.mp h
      exact ⟨this.1, by simpa using this.2⟩
    · intro ⟨h1, h2⟩
      exact List.mem_filter.mpr ⟨h1, by simp [h2]⟩
  · intro e he
    exact fdFold_ge_mem e _ 0 he
  · exact fdFold_cases _ 0

/-- Concrete instantiation of `c7_inherit_amended`: fd 0 survives inheritance
of the default table extended with a non-inheritable fd 5, and its number is
below the recomputed counter. -/
theorem c7_inherit_amended_witness :
    (⟨0, 0, true, FdObject.Stdin⟩ : FileDescriptorEntry).fd + 1 ≤
      (FileDescriptorTable.new.insert 5 0 false FdObject.Stdout).inherit.next_fd :=
  (c7_inherit_amended (FileDescriptorTable.new.insert 5 0 false FdObject.Stdout)).2.2.1
    ⟨0, 0, true, FdObject.Stdin⟩ (by decide)

/-! ## Claim C9: `sys_write` / `sys_read` fd checks -/

theorem readStdinLoop_le (n : Nat) :
    ∀ (buf read : Nat) (stdin : List Nat) (mem : Nat → Nat),
      (readStdinLoop n buf read stdin mem).1 ≤ read + n := by
  induction n with
  | zero => intro buf read stdin mem; simp [readStdinLoop]
  | succ m ih =>
    intro buf read stdin mem
    cases stdin with
    | nil => simp [readStdinLoop]
    | cons b rest =>
      simp only [readStdinLoop]
      calc (readStdinLoop m buf (read + 1) rest _).1 ≤ (read + 1) + m := ih _ _ _ _
        _ ≤ read + (m + 1) := by omega

/-- Claim C9 (corrected), counterexample to the claim as stated: a zero-length
write to fd 0 returns success 0 (the `len == 0` early return precedes the fd
check), not `-EPERM` as the claim requires for every write to fd 0. -/
theorem c9_write_counterexample :
    (sys_write Kernel.empty ⟨0, 0, 0, 0, 0, 0⟩).1 = .ok 0 ∧
    ((.ok 0 : SyscallResult) ≠ .error Errno.EPERM) := by
  exact ⟨rfl, fun h => nomatch h⟩

/-- Claim C9 (corrected, amended): zero-length writes return success 0 for any
fd; for nonzero length, writing to fd 0 fails with `EPERM`, writing to fd 1 or
2 succeeds with the byte count (appending to the stdout buffer), and any
other fd fails with `EINVAL`.  For reads, any fd other than 0 fails with
`EINVAL` regardless of length, and fd 0 is accepted: it returns a success
count of at most the requested length. -/
theorem c9_write_read_amended (k : Kernel) (args : SyscallArgs) :
    (args.a3 = 0 → sys_write k args = (.ok 0, k)) ∧
    (args.a3 ≠ 0 →
      (args.a1 = 0 → sys_write k args = (.error .EPERM, k)) ∧
      ((args.a1 = 1 ∨ args.a1 = 2) →
        (sys_write k args).1 = .ok args.a3 ∧
        (sys_write k args).2.stdout =
          k.stdout ++ (List.range args.a3).map (fun i => k.userMem (args.a2 + i))) ∧
      (args.a1 ≠ 0 → args.a1 ≠ 1 → args.a1 ≠ 2 →
        sys_write k args = (.error .EINVAL, k))) ∧
    (args.a1 ≠ 0 → sys_read k args = (.error .EINVAL, k)) ∧
    (args.a1 = 0 → ∃ n, (sys_read k args).1 = .ok n ∧ n ≤ args.a3) := by
  refine ⟨?_, ?_, ?_, ?_⟩
  · intro h; simp [sys_write, h]
  · intro h
    refine ⟨?_, ?_, ?_⟩
    · intro h0
      simp [sys_write, h, h0]
    · intro h12
      rcases h12 with h1 | h2
      · simp [sys_write, h, h1]
      · simp [sys_write, h, h2]
    · intro h0 h1 h2
      simp [sys_write, h, h0, h1, h2]
  · intro h; simp [sys_read, h]
  · intro h
    by_cases hlen : args.a3 = 0
    · exact ⟨0, by simp [sys_read, h, hlen], by omega⟩
    · refine ⟨(readStdinLoop args.a3 args.a2 0 k.stdin k.userMem).1, ?_, ?_⟩
      · simp [sys_read, h, hlen]
      · have := readStdinLoop_le args.a3 args.a2 0 k.stdin k.userMem
        omega

/-- Concrete instantiation of `c9_write_read_amended`. -/
theorem c9_write_read_amended_witness :
    sys_write Kernel.empty ⟨0, 0, 7, 0, 0, 0⟩ = (.error .EPERM, Kernel.empty) ∧
    (sys_write Kernel.empty ⟨1, 0, 7, 0, 0, 0⟩).1 = .ok 7 ∧
    sys_write Kernel.empty ⟨3, 0, 7, 0, 0, 0⟩ = (.error .EINVAL, Kernel.empty) ∧
    sys_read Kernel.empty ⟨4, 0, 7, 0, 0, 0⟩ = (.error .EINVAL, Kernel.empty) := by
  refine ⟨?_, ?_, ?_, ?_⟩
  · exact ((c9_write_read_amended Kernel.empty ⟨0, 0, 7, 0, 0, 0⟩).2.1 (by decide)).1 rfl
  · exact (((c9_write_read_amended Kernel.empty ⟨1, 0, 7, 0, 0, 0⟩).2.1
      (by decide)).2.1 (Or.inl rfl)).1
  · exact ((c9_write_read_amended Kernel.empty ⟨3, 0, 7, 0, 0, 0⟩).2.1
      (by decide)).2.2 (by decide) (by decide) (by decide)
  · exact (c9_write_read_amended Kernel.empty ⟨4, 0, 7, 0, 0, 0⟩).2.2.1 (by decide)

/-! ## Table-map helper lemmas -/

@[simp] theorem upd_same {α : Type} (f : Nat → Option α) (k : Nat) (v : Option α) :
    upd f k v k = v := by simp [upd]

theorem upd_other {α : Type} (f : Nat → Option α) (k : Nat) (v : Option α) (x : Nat)
    (h : x ≠ k) : upd f k v x = f x := by simp [upd, h]

/-! ## Claim C10: the blocking path of `sys_wait` -/

/-- Claim C10 (confirmed): when the caller's process has no matching zombie
child (no zombie of this parent at all for `pid = 0`, no zombie of this
parent with the requested child for `pid ≠ 0`), `sys_wait` registers a
`Waiter` (with the requested target), blocks the calling thread, and returns
success 0 — whose syscall-ABI encoding equals `usizeToIsize 0 = 0`, the very
value a successful wait reporting child pid 0 would return. -/
theorem c10_wait_blocking_path (k : Kernel) (args : SyscallArgs) (tid : Nat) (th : Thread)
    (hcur : k.sched.current_thread = some tid)
    (hth : k.threadTable.get_thread tid = some th)
    (hz0 : args.a1 = 0 → ∀ z ∈ k.zombies, z.parent ≠ th.process_id)
    (hzp : args.a1 ≠ 0 → ∀ z ∈ k.zombies, ¬(z.parent = th.process_id ∧ z.child = args.a1)) :
    sys_wait k args =
      (.ok 0, (register_waiter k th.process_id tid args.a1).block_current_thread) ∧
    (∃ w, w ∈ (sys_wait k args).2.waiters ∧ w.parent = th.process_id ∧ w.tid = tid ∧
       w.target = (if args.a1 = 0 then none else some args.a1)) ∧
    (sys_wait k args).2.threadTable.get_thread tid = some (th.set_state .Blocked) ∧
    (match (sys_wait k args).1 with
     | .ok v => usizeToIsize v
     | .error e => -(e.code : Int)) = 0 := by
  have hzero : take_zombie k th.process_id args.a1 = none := by
    by_cases h0 : args.a1 = 0
    · simp only [take_zombie, if_pos h0]
      rw [takeFirst_eq_none _ _ (fun z hz => hz0 h0 z hz)]
    · simp only [take_zombie, if_neg h0]
      rw [takeFirst_eq_none _ _ (fun z hz => hzp h0 z hz)]
  have hmain : sys_wait k args =
      (.ok 0, (register_waiter k th.process_id tid args.a1).block_current_thread) := by
    simp only [sys_wait, current_thread_snapshot, hcur, hth, hzero]
  refine ⟨hmain, ?_, ?_, ?_⟩
  · refine ⟨⟨th.process_id, tid, if args.a1 = 0 then none else some args.a1⟩, ?_, rfl, rfl, rfl⟩
    rw [hmain]
    simp [Kernel.block_current_thread, Scheduler.block_current, register_waiter]
  · rw [hmain]
    simp only [Kernel.block_current_thread, Scheduler.block_current, register_waiter]
    simp only [Scheduler.current_thread] at hcur
    simp [hcur, ThreadTable.modifyThread, ThreadTable.get_thread, hth,
      ThreadTable.get_thread] at hth ⊢
    simp [hth]
  · rw [hmain]
    simp [usizeToIsize]

theorem c10_wait_blocking_path_witness :
    sys_wait kernelC10 ⟨0, 0, 0, 0, 0, 0⟩ =
      (.ok 0, (register_waiter kernelC10 1 1 0).block_current_thread) :=
  (c10_wait_blocking_path kernelC10 ⟨0, 0, 0, 0, 0, 0⟩ 1 (Thread.new 1 1 .Normal 0 0 none)
    rfl rfl (fun _ z hz => by cases hz) (fun h => absurd rfl h)).1

/-! ## Claim C6: `schedule()` short-circuit and rotation -/

@[simp] theorem upd5_same (f : Fin 5 → List Nat) (k : Fin 5) (v : List Nat) :
    upd5 f k v k = v := by simp [upd5]

theorem upd5_other (f : Fin 5 → List Nat) (k : Fin 5) (v : List Nat) (x : Fin 5)
    (h : x ≠ k) : upd5 f k v x = f x := by simp [upd5, h]

theorem modifyThread_get_same (tt : ThreadTable) (tid : Nat) (f : Thread → Thread)
    (th : Thread) (h : tt.get_thread tid = some th) :
    (tt.modifyThread tid f).get_thread tid = some (f th) := by
  simp [ThreadTable.modifyThread, ThreadTable.get_thread] at h ⊢
  simp [h]

theorem modifyThread_get_other (tt : ThreadTable) (tid : Nat) (f : Thread → Thread)
    (x : Nat) (h : x ≠ tid) :
    (tt.modifyThread tid f).get_thread x = tt.get_thread x := by
  unfold ThreadTable.modifyThread ThreadTable.get_thread
  cases tt.threads tid with
  | none => rfl
  | some th => simp [upd_other _ _ _ _ h]

theorem enqueue_not_mem (q : RunQueue) (tid : Nat) (p : Priority)
    (h : tid ∉ q.queues p.index) :
    (q.enqueue tid p).queues p.index = q.queues p.index ++ [tid] := by
  simp [RunQueue.enqueue, h]

/-- Claim C6 (corrected), counterexample to the claim as stated: with budget
remaining and the current thread in state `Ready` (which the claim counts as
"remains Ready or Running"), `schedule()` does not keep the current thread:
it picks thread 2 from the Normal lane (lane movement included).  The code's
short-circuit requires the current thread's state to be exactly `Running`. -/
theorem c6_schedule_counterexample :
    schC6.timeSliceRemaining > 0 ∧
    schC6.runQueue.currentThread = some 1 ∧
    (ttC6.get_thread 1).map Thread.state = some ThreadState.Ready ∧
    (schC6.schedule ttC6).1 = some 2 ∧
    (schC6.schedule ttC6).1 ≠ some 1 ∧
    (schC6.schedule ttC6).2.1.runQueue.queues 2 = [] ∧
    schC6.runQueue.queues 2 = [2] := by
  refine ⟨by decide, rfl, rfl, rfl, by decide, rfl, rfl⟩

/-- Claim C6 (corrected, amended): if the current thread still has time-slice
budget and its state is still exactly `Running`, `schedule()` returns it with
scheduler and thread table completely unchanged (no lane movement); with
exhausted budget, a still-Running current thread is demoted to Ready and
re-enqueued at the tail of its priority lane, then the next pick is promoted
to Running and the budget is reloaded from its priority-derived time slice. -/
theorem c6_schedule_amended (s : Scheduler) (tt : ThreadTable) (t : Nat) (th : Thread)
    (hcur : s.runQueue.currentThread = some t)
    (hth : tt.get_thread t = some th) :
    (0 < s.timeSliceRemaining → th.state = .Running → s.schedule tt = (some t, s, tt)) ∧
    (s.timeSliceRemaining = 0 → th.state = .Running →
      t ∉ s.runQueue.queues th.priority.index →
      ∀ next rq' th2,
        (s.runQueue.enqueue t th.priority).pick_next = (some next, rq') →
        (tt.modifyThread t (fun x => x.set_state .Ready)).get_thread next = some th2 →
        next ≠ t →
        s.schedule tt =
          (some next,
           { s with runQueue := rq'.set_current (some next)
                    timeSliceRemaining := th2.time_slice },
           (tt.modifyThread t (fun x => x.set_state .Ready)).modifyThread next
             (fun x => x.set_state .Running)) ∧
        (s.schedule tt).2.2.get_thread t = some (th.set_state .Ready) ∧
        (s.schedule tt).2.2.get_thread next = some (th2.set_state .Running) ∧
        (s.schedule tt).2.1.timeSliceRemaining = th2.time_slice ∧
        (s.runQueue.enqueue t th.priority).queues th.priority.index =
          s.runQueue.queues th.priority.index ++ [t]) := by
  constructor
  · intro hts hst
    have hcond : th.state = ThreadState.Running ∧ th.is_runnable :=
      ⟨hst, Or.inr hst⟩
    simp [Scheduler.schedule, hts, hcur, hth, hcond]
  · intro hts hst hmem next rq' th2 hpick hnext hne
    have hsched : s.schedule tt =
        (some next,
         { s with runQueue := rq'.set_current (some next)
                  timeSliceRemaining := th2.time_slice },
         (tt.modifyThread t (fun x => x.set_state .Ready)).modifyThread next
           (fun x => x.set_state .Running)) := by
      simp [Scheduler.schedule, Scheduler.scheduleRotate, Scheduler.demoteCurrent,
        Scheduler.pickStage, hts, hcur, hth, hst, hpick, hnext]
    refine ⟨hsched, ?_, ?_, ?_, ?_⟩
    · rw [hsched]
      show ((tt.modifyThread t (fun x => x.set_state .Ready)).modifyThread next
        (fun x => x.set_state .Running)).get_thread t = some (th.set_state .Ready)
      rw [modifyThread_get_other _ _ _ _ (Ne.symm hne)]
      exact modifyThread_get_same tt t _ th hth
    · rw [hsched]
      show ((tt.modifyThread t (fun x => x.set_state .Ready)).modifyThread next
        (fun x => x.set_state .Running)).get_thread next = some (th2.set_state .Running)
      exact modifyThread_get_same _ next _ th2 hnext
    · rw [hsched]
    · exact enqueue_not_mem s.runQueue t th.priority hmem

/-- Concrete instantiation of `c6_schedule_amended`: the short-circuit branch
with a Running current thread, and the rotation branch built from `ttC6`. -/
theorem c6_schedule_amended_witness :
    ({ schC6 with timeSliceRemaining := 1 }.schedule
      (ttC6.modifyThread 1 (fun x => x.set_state .Running))).1 = some 1 ∧
    ({ schC6 with timeSliceRemaining := 0 }.schedule
      (ttC6.modifyThread 1 (fun x => x.set_state .Running))).1 = some 2 := by
  constructor
  · have h := (c6_schedule_amended { schC6 with timeSliceRemaining := 1 }
      (ttC6.modifyThread 1 (fun x => x.set_state .Running)) 1
      ((Thread.new 1 1 .Normal 0 0 none).set_state .Running) rfl rfl).1
      (by decide) rfl
    rw [h]
  · have h := (c6_schedule_amended { schC6 with timeSliceRemaining := 0 }
      (ttC6.modifyThread 1 (fun x => x.set_state .Running)) 1
      ((Thread.new 1 1 .Normal 0 0 none).set_state .Running) rfl rfl).2
      rfl rfl (by decide) 2 _ ((Thread.new 2 1 .Normal 0 0 none))
      rfl rfl (by decide)
    rw [h.1]

theorem RIC_of_noRunning {s : Scheduler} {tt : ThreadTable} (h : noRunning tt) :
    RIC s tt := fun tid th hth hr => absurd hr (h tid th hth)

theorem noRunning_modify_set {tt : ThreadTable} {c : ThreadState}
    (hc : c ≠ ThreadState.Running) (tid : Nat) (h : ∀ t th, tt.threads t = some th →
      t ≠ tid → th.state ≠ ThreadState.Running) :
    noRunning (tt.modifyThread tid (fun x => x.set_state c)) := by
  intro t th hth
  unfold ThreadTable.modifyThread at hth
  cases hg : tt.threads tid with
  | none =>
    rw [hg] at hth
    exact h t th hth (fun he => by rw [he, hg] at hth; cases hth)
  | some th0 =>
    rw [hg] at hth
    simp only at hth
    by_cases he : t = tid
    · subst he
      rw [upd_same] at hth
      cases hth
      simpa [Thread.set_state] using hc
    · rw [upd_other _ _ _ _ he] at hth
      exact h t th hth he

/-- After the demote stage no thread is Running. -/
theorem noRunning_demote (s : Scheduler) (tt : ThreadTable) (h : RIC s tt) :
    noRunning (s.demoteCurrent tt).2 := by
  unfold Scheduler.demoteCurrent
  cases hc : s.runQueue.currentThread with
  | none =>
    dsimp only
    intro t th ht hr
    have hcc := h t th ht hr
    rw [hc] at hcc
    cases hcc
  | some ct =>
    dsimp only
    cases hg : tt.get_thread ct with
    | none =>
      dsimp only
      intro t th ht hr
      have hcc := h t th ht hr
      rw [hc] at hcc
      have he : ct = t := Option.some_injective _ hcc
      rw [← he] at ht
      unfold ThreadTable.get_thread at hg
      rw [ht] at hg
      cases hg
    | some th0 =>
      dsimp only
      by_cases hst : th0.state = ThreadState.Running
      · rw [if_pos hst]
        apply noRunning_modify_set (by decide) ct
        intro t th' ht hne hr
        have hcc := h t th' ht hr
        rw [hc] at hcc
        exact hne (Option.some_injective _ hcc).symm
      · rw [if_neg hst]
        intro t th ht hr
        have hcc := h t th ht hr
        rw [hc] at hcc
        have he : ct = t := Option.some_injective _ hcc
        rw [← he] at ht
        unfold ThreadTable.get_thread at hg
        rw [ht] at hg
        cases hg
        exact hst hr

/-- The pick stage restores the invariant from a no-Running table. -/
theorem RIC_pickStage (s1 : Scheduler) (tt1 : ThreadTable) (hNR : noRunning tt1) :
    RIC (s1.pickStage tt1).2.1 (s1.pickStage tt1).2.2 := by
  unfold Scheduler.pickStage
  rcases hpk : s1.runQueue.pick_next with ⟨onext, rq⟩
  cases onext with
  | none => exact RIC_of_noRunning hNR
  | some next =>
    simp only
    cases hn : tt1.get_thread next with
    | none => exact RIC_of_noRunning hNR
    | some th2 =>
      simp only
      intro tid th hth hr
      unfold ThreadTable.modifyThread at hth
      unfold ThreadTable.get_thread at hn
      rw [hn] at hth
      simp only at hth
      by_cases he : tid = next
      · subst he
        simp [RunQueue.set_current]
      · rw [upd_other _ _ _ _ he] at hth
        exact absurd hr (hNR tid th hth)

theorem RIC_rotate (s : Scheduler) (tt : ThreadTable) (h : RIC s tt) :
    RIC (s.scheduleRotate tt).2.1 (s.scheduleRotate tt).2.2 :=
  RIC_pickStage (s.demoteCurrent tt).1 (s.demoteCurrent tt).2 (noRunning_demote s tt h)

theorem RIC_schedule (s : Scheduler) (tt : ThreadTable) (h : RIC s tt) :
    RIC (s.schedule tt).2.1 (s.schedule tt).2.2 := by
  unfold Scheduler.schedule
  by_cases hts : s.timeSliceRemaining > 0
  · rw [if_pos hts]
    cases hc : s.runQueue.currentThread with
    | none => exact RIC_rotate s tt h
    | some ct =>
      dsimp only
      cases hg : tt.get_thread ct with
      | none => exact RIC_rotate s tt h
      | some th =>
        dsimp only
        by_cases hcond : th.state = ThreadState.Running ∧ th.is_runnable
        · rw [if_pos hcond]
          exact h
        · rw [if_neg hcond]
          exact RIC_rotate s tt h
  · rw [if_neg hts]
    exact RIC_rotate s tt h

theorem RIC_modify_keep_state (s : Scheduler) (tt : ThreadTable) (tid : Nat)
    (f : Thread → Thread) (hf : ∀ th, (f th).state = th.state) (h : RIC s tt) :
    RIC s (tt.modifyThread tid f) := by
  intro t th hth hr
  unfold ThreadTable.modifyThread at hth
  cases hg : tt.threads tid with
  | none => rw [hg] at hth; exact h t th hth hr
  | some th0 =>
    rw [hg] at hth
    simp only at hth
    by_cases he : t = tid
    · subst he
      rw [upd_same] at hth
      cases hth
      exact h t th0 hg (by rw [← hf th0]; exact hr)
    · rw [upd_other _ _ _ _ he] at hth
      exact h t th hth hr

theorem RIC_modify_set_not_running (s : Scheduler) (tt : ThreadTable) (tid : Nat)
    {c : ThreadState} (hc : c ≠ ThreadState.Running) (h : RIC s tt) :
    RIC s (tt.modifyThread tid (fun x => x.set_state c)) := by
  intro t th hth hr
  unfold ThreadTable.modifyThread at hth
  cases hg : tt.threads tid with
  | none => rw [hg] at hth; exact h t th hth hr
  | some th0 =>
    rw [hg] at hth
    simp only at hth
    by_cases he : t = tid
    · subst he
      rw [upd_same] at hth
      cases hth
      exact absurd hr hc
    · rw [upd_other _ _ _ _ he] at hth
      exact h t th hth hr

theorem enqueue_currentThread (q : RunQueue) (tid : Nat) (p : Priority) :
    (q.enqueue tid p).currentThread = q.currentThread := by
  unfold RunQueue.enqueue
  by_cases hmem : tid ∈ q.queues p.index
  · rw [if_pos hmem]
  · rw [if_neg hmem]

theorem RIC_tick (s : Scheduler) (tt : ThreadTable) (h : RIC s tt) :
    RIC (s.tick tt).1 (s.tick tt).2 := by
  unfold Scheduler.tick
  dsimp only
  cases hc : s.runQueue.currentThread with
  | none =>
    dsimp only
    intro t th hth hr
    exact h t th hth hr
  | some ct =>
    dsimp only
    intro t th hth hr
    show s.runQueue.currentThread = some t
    exact RIC_modify_keep_state s tt ct (fun t => t.increment_cpu_time 1)
      (fun th => rfl) h t th hth hr

theorem RIC_block (s : Scheduler) (tt : ThreadTable) (h : RIC s tt) :
    RIC (s.block_current tt).1 (s.block_current tt).2 := by
  unfold Scheduler.block_current
  cases hc : s.runQueue.currentThread with
  | none => exact h
  | some ct =>
    dsimp only
    intro t th hth hr
    unfold ThreadTable.modifyThread at hth
    cases hg : tt.threads ct with
    | none =>
      rw [hg] at hth
      have hcc := h t th hth hr
      rw [hc] at hcc
      have he : ct = t := Option.some_injective _ hcc
      rw [← he] at hth
      rw [hth] at hg
      cases hg
    | some th0 =>
      rw [hg] at hth
      simp only at hth
      by_cases he : t = ct
      · subst he
        rw [upd_same] at hth
        cases hth
        cases hr
      · rw [upd_other _ _ _ _ he] at hth
        have hcc := h t th hth hr
        rw [hc] at hcc
        exact absurd (Option.some_injective _ hcc).symm he

theorem RIC_unblock (s : Scheduler) (tt : ThreadTable) (tid : Nat) (h : RIC s tt) :
    RIC (s.unblock_thread tt tid).1 (s.unblock_thread tt tid).2 := by
  unfold Scheduler.unblock_thread
  cases hg : tt.get_thread tid with
  | none => exact h
  | some th0 =>
    dsimp only
    by_cases hst : th0.state = ThreadState.Blocked
    · rw [if_pos hst]
      intro t th hth hr
      show (s.runQueue.enqueue tid th0.priority).currentThread = some t
      rw [enqueue_currentThread]
      exact RIC_modify_set_not_running s tt tid (by decide) h t th hth hr
    · rw [if_neg hst]
      exact h

theorem ric_remove_process (kx : Kernel) (pid : Nat) (hx : runningIsCurrent kx) :
    runningIsCurrent (kx.remove_process pid).2 := by
  unfold Kernel.remove_process
  cases hp : kx.processTable.processes pid with
  | none => exact hx
  | some p =>
    dsimp only
    exact fun t th hth hr => hx t th hth hr

theorem ric_wake_waiter (kx : Kernel) (parent_pid child : Nat)
    (hx : runningIsCurrent kx) :
    runningIsCurrent (wake_waiter kx parent_pid child) := by
  unfold wake_waiter
  cases hw : takeFirst
      (fun w : Waiter => w.parent = parent_pid ∧ (w.target = none ∨ w.target = some child))
      kx.waiters with
  | none => exact hx
  | some wr =>
    obtain ⟨w, rest⟩ := wr
    dsimp only
    intro t th hth hr
    exact RIC_unblock kx.sched kx.threadTable w.tid hx t th hth hr

theorem ric_record_child_exit (kx : Kernel) (parent : Option Nat) (child status : Nat)
    (hx : runningIsCurrent kx) :
    runningIsCurrent (record_child_exit kx parent child status) := by
  unfold record_child_exit
  cases parent with
  | none => exact hx
  | some parent_pid =>
    exact ric_wake_waiter _ parent_pid child (fun t th hth hr => hx t th hth hr)

theorem ric_reap_if_last (k3 : Kernel) (tid pid code : Nat)
    (h3 : runningIsCurrent k3) : runningIsCurrent (reap_if_last k3 tid pid code) := by
  unfold reap_if_last
  cases hp : k3.processTable.processes pid with
  | none => exact h3
  | some p =>
    dsimp only
    by_cases hemp : (p.remove_thread tid).threads = []
    · rw [if_pos hemp]
      exact ric_record_child_exit _ _ _ _
        (ric_remove_process _ _ (fun t th hth hr => h3 t th hth hr))
    · rw [if_neg hemp]
      exact fun t th hth hr => h3 t th hth hr

theorem runningIsCurrent_step {k k' : Kernel} (hs : Step k k')
    (h : runningIsCurrent k) : runningIsCurrent k' := by
  cases hs with
  | schedule => exact RIC_schedule k.sched k.threadTable h
  | tick => exact RIC_tick k.sched k.threadTable h
  | block_current => exact RIC_block k.sched k.threadTable h
  | unblock_thread tid => exact RIC_unblock k.sched k.threadTable tid h
  | yield_current => exact h
  | add_thread tid =>
    show RIC (k.sched.add_thread k.threadTable tid) k.threadTable
    unfold Scheduler.add_thread
    cases hg : k.threadTable.get_thread tid with
    | none => exact h
    | some th0 =>
      dsimp only
      by_cases hrun : th0.is_runnable
      · rw [if_pos hrun]
        intro t th hth hr
        show (k.sched.runQueue.enqueue tid th0.priority).currentThread = some t
        rw [enqueue_currentThread]
        exact h t th hth hr
      · rw [if_neg hrun]
        exact h
  | remove_thread tid =>
    intro t th hth hr
    exact h t th hth hr
  | create_thread pid prio entry kstack ustack =>
    intro t th hth hr
    show k.sched.runQueue.currentThread = some t
    have hth' : upd k.threadTable.threads k.threadTable.nextTid
        (some (Thread.new k.threadTable.nextTid pid prio entry kstack ustack)) t =
        some th := hth
    by_cases he : t = k.threadTable.nextTid
    · subst he
      rw [upd_same] at hth'
      cases hth'
      cases hr
    · rw [upd_other _ _ _ _ he] at hth'
      exact h t th hth' hr
  | finalize tid th0 code =>
    have h1 : runningIsCurrent (k.set_thread_state tid .Terminated) :=
      RIC_modify_set_not_running k.sched k.threadTable tid (by decide) h
    have h2 : runningIsCurrent
        ((k.set_thread_state tid .Terminated).sched_remove_thread tid) :=
      fun t th hth hr => h1 t th hth hr
    have h3 : runningIsCurrent
        { (k.set_thread_state tid .Terminated).sched_remove_thread tid with
          threadTable := (((k.set_thread_state tid .Terminated).sched_remove_thread
            tid).threadTable).remove_thread tid } := by
      intro t th hth hr
      have hth' : upd (((k.set_thread_state tid .Terminated).sched_remove_thread
          tid).threadTable).threads tid none t = some th := hth
      by_cases he : t = tid
      · subst he
        rw [upd_same] at hth'
        cases hth'
      · rw [upd_other _ _ _ _ he] at hth'
        exact h2 t th hth' hr
    unfold finalize_thread
    exact ric_reap_if_last _ tid th0.process_id code h3

/-- Claim C3 (confirmed): in every state reachable from the empty scheduler
and thread-table state by any sequence of `schedule`, `tick`,
`block_current`, `unblock_thread`, `yield_current`, `add_thread`,
`remove_thread`, `create_thread` and `finalize_thread`, at most one thread of
the whole thread table is in `Running` state.  Proved through the
strengthened invariant that every Running thread is the scheduler's current
thread. -/
theorem c3_at_most_one_running (k : Kernel) (h : ReachableK k) : atMostOneRunning k := by
  have hinv : runningIsCurrent k := by
    induction h with
    | init => intro t th hth hr; cases hth
    | step _ hs ih => exact runningIsCurrent_step hs ih
  intro t1 t2 th1 th2 h1 h2 r1 r2
  have e1 := hinv t1 th1 h1 r1
  have e2 := hinv t2 th2 h2 r2
  rw [e1] at e2
  exact Option.some_injective _ e2

theorem c3_at_most_one_running_witness : (1 : Nat) = 1 :=
  c3_at_most_one_running kernelC3
    (ReachableK.step
      (ReachableK.step
        (ReachableK.step ReachableK.init (Step.create_thread Kernel.empty 1 .Normal 0 0 none))
        (Step.add_thread _ 1))
      (Step.schedule _))
    1 1 ((Thread.new 1 1 .Normal 0 0 none).set_state .Running)
    ((Thread.new 1 1 .Normal 0 0 none).set_state .Running) rfl rfl rfl rfl

/-! ## Claim C8: fork clones the security context; later grants to the
parent do not leak to the child -/

theorem getContext_register_same (l : List SecurityEntry) (pid : Nat)
    (ctx : SecurityContext) :
    getContext (registerProcessCtx l pid ctx) pid = some ctx := by
  induction l with
  | nil => simp [registerProcessCtx, getContext]
  | cons e es ih =>
    unfold registerProcessCtx
    by_cases he : e.pid = pid
    · rw [if_pos he]
      simp [getContext, he]
    · rw [if_neg he]
      simp [getContext, he]
      exact ih

theorem getContext_grant_other (l : List SecurityEntry) (pid : Nat) (mask : CapMask)
    (q : Nat) (hq : q ≠ pid) :
    getContext (grantCapabilitiesCtx l pid mask) q = getContext l q := by
  induction l with
  | nil => rfl
  | cons e es ih =>
    unfold grantCapabilitiesCtx
    by_cases he : e.pid = pid
    · rw [if_pos he]
      have heq : e.pid ≠ q := by rw [he]; exact fun h => hq h.symm
      simp [getContext, heq]
    · rw [if_neg he]
      unfold getContext
      by_cases heq : e.pid = q
      · simp [heq]
      · simp [heq]
        exact ih

theorem grant_processes_other (k : Kernel) (pid : Nat) (mask : CapMask) (q : Nat)
    (hq : q ≠ pid) :
    ((k.grant_process_capabilities pid mask).2).processTable.processes q =
      k.processTable.processes q := by
  unfold Kernel.grant_process_capabilities
  cases hp : k.processTable.processes pid with
  | none => rfl
  | some p =>
    dsimp only
    exact upd_other _ _ _ _ hq

theorem grant_processes_same (k : Kernel) (pid : Nat) (mask : CapMask) (p0 : Process)
    (hp : k.processTable.processes pid = some p0) :
    ((k.grant_process_capabilities pid mask).2).processTable.processes pid =
      some { p0 with security := p0.security.grant_capabilities mask } := by
  unfold Kernel.grant_process_capabilities
  rw [hp]
  dsimp only
  exact upd_same _ _ _

theorem grant_registry_eq (k : Kernel) (pid : Nat) (mask : CapMask) (p0 : Process)
    (hp : k.processTable.processes pid = some p0) :
    ((k.grant_process_capabilities pid mask).2).securityContexts =
      grantCapabilitiesCtx k.securityContexts pid mask := by
  unfold Kernel.grant_process_capabilities
  rw [hp]

/-- Evaluation of `sys_fork` on a resolvable caller with two free frames:
the child process is the parent's clone (security context verbatim,
fd table inherited, parent link set, one fresh thread), the parent gains the
child in its children list, and the child's security context is registered. -/
theorem sys_fork_spec (k : Kernel) (args : SyscallArgs) (tid : Nat) (th : Thread)
    (parentProc : Process) (f1 f2 : Nat) (rest : List Nat)
    (hcur : k.sched.current_thread = some tid)
    (hth : k.threadTable.get_thread tid = some th)
    (hpr : k.processTable.processes th.process_id = some parentProc)
    (hframes : k.freeFrames = f1 :: f2 :: rest)
    (hid : parentProc.id = th.process_id)
    (hne : th.process_id ≠ k.processTable.nextPid) :
    (sys_fork k args).1 = .ok k.processTable.nextPid ∧
    (sys_fork k args).2.processTable.processes k.processTable.nextPid =
      some { Process.new k.processTable.nextPid parentProc.name (AddressSpace.new f1)
               parentProc.security parentProc.file_descriptors.inherit with
             parent := some th.process_id, image := parentProc.image,
             threads := [k.threadTable.nextTid] } ∧
    (sys_fork k args).2.processTable.processes th.process_id =
      some { parentProc with children := parentProc.children ++ [k.processTable.nextPid] } ∧
    (sys_fork k args).2.securityContexts =
      registerProcessCtx k.securityContexts k.processTable.nextPid parentProc.security := by
  refine ⟨?_, ?_⟩
  · simp only [sys_fork, current_thread_snapshot, hcur, hth, Kernel.get_process,
      ProcessTable.get_process, hpr, Kernel.allocate_frame, hframes,
      Kernel.create_process, ProcessTable.allocate_pid, ProcessTable.add_process,
      Kernel.create_thread, ThreadTable.allocate_tid, ThreadTable.add_thread,
      Kernel.sched_add_thread, ProcessTable.modifyProcess]
  · simp only [sys_fork, current_thread_snapshot, hcur, hth, Kernel.get_process,
      ProcessTable.get_process, hpr, Kernel.allocate_frame, hframes,
      Kernel.create_process, ProcessTable.allocate_pid, ProcessTable.add_process,
      Kernel.create_thread, ThreadTable.allocate_tid, ThreadTable.add_thread,
      Kernel.sched_add_thread, ProcessTable.modifyProcess, Process.new,
      Process.add_thread, hid]
    simp only [upd_other _ _ _ _ hne, upd_other _ _ _ _ (Ne.symm hne), upd_same, hpr]
    exact ⟨rfl, by rw [hid], trivial⟩

/-- Claim C8 (confirmed): when a fork completes for a parent process with
security context `S`, the child's process-table entry carries `S` verbatim
(equal capability mask) and its registry entry equals `S`; a later
`grant_process_capabilities` on the parent's pid ors the mask only into the
parent's table entry and registry entry, leaving the child's capability mask
(table and registry) and every other process untouched. -/
theorem c8_fork_capability_isolation (k : Kernel) (args : SyscallArgs) (tid : Nat)
    (th : Thread) (parentProc : Process) (f1 f2 : Nat) (rest : List Nat)
    (hcur : k.sched.current_thread = some tid)
    (hth : k.threadTable.get_thread tid = some th)
    (hpr : k.processTable.processes th.process_id = some parentProc)
    (hframes : k.freeFrames = f1 :: f2 :: rest)
    (hid : parentProc.id = th.process_id)
    (hne : th.process_id ≠ k.processTable.nextPid) :
    (sys_fork k args).1 = .ok k.processTable.nextPid ∧
    (∃ child, (sys_fork k args).2.processTable.processes k.processTable.nextPid =
        some child ∧
      child.security = parentProc.security ∧
      child.security.capabilities = parentProc.security.capabilities ∧
      child.parent = some th.process_id) ∧
    getContext (sys_fork k args).2.securityContexts k.processTable.nextPid =
      some parentProc.security ∧
    (∀ mask : CapMask,
      (((sys_fork k args).2.grant_process_capabilities th.process_id mask).2).processTable.processes
          k.processTable.nextPid =
        (sys_fork k args).2.processTable.processes k.processTable.nextPid ∧
      getContext
          (((sys_fork k args).2.grant_process_capabilities th.process_id mask).2).securityContexts
          k.processTable.nextPid =
        getContext (sys_fork k args).2.securityContexts k.processTable.nextPid ∧
      (∃ pp, (((sys_fork k args).2.grant_process_capabilities th.process_id
            mask).2).processTable.processes th.process_id = some pp ∧
        pp.security.capabilities = parentProc.security.capabilities ||| mask) ∧
      (∀ q, q ≠ th.process_id →
        (((sys_fork k args).2.grant_process_capabilities th.process_id
            mask).2).processTable.processes q =
          (sys_fork k args).2.processTable.processes q)) := by
  obtain ⟨hres, hchild, hparent, hsec⟩ :=
    sys_fork_spec k args tid th parentProc f1 f2 rest hcur hth hpr hframes hid hne
  refine ⟨hres, ⟨_, hchild, rfl, rfl, rfl⟩, ?_, ?_⟩
  · rw [hsec]
    exact getContext_register_same _ _ _
  · intro mask
    refine ⟨?_, ?_, ?_, ?_⟩
    · exact grant_processes_other _ _ _ _ (Ne.symm hne)
    · rw [grant_registry_eq _ _ _ _ hparent]
      exact getContext_grant_other _ _ _ _ (Ne.symm hne)
    · refine ⟨_, grant_processes_same _ _ _ _ hparent, rfl⟩
    · intro q hq
      exact grant_processes_other _ _ _ _ hq

theorem c8_fork_capability_isolation_witness :
    (sys_fork kernelC8 ⟨0, 0, 0, 0, 0, 0⟩).1 = .ok 2 ∧
    getContext (sys_fork kernelC8 ⟨0, 0, 0, 0, 0, 0⟩).2.securityContexts 2 =
      some ((SecurityContext.as_user 5).with_capabilities CAP_PROC_MANAGE) := by
  have h := c8_fork_capability_isolation kernelC8 ⟨0, 0, 0, 0, 0, 0⟩ 1
    (Thread.new 1 1 .Normal 0 0 none)
    (Process.new 1 "init" (AddressSpace.new 0)
      ((SecurityContext.as_user 5).with_capabilities CAP_PROC_MANAGE)
      FileDescriptorTable.new)
    100 200 [] rfl rfl rfl rfl rfl (by decide)
  exact ⟨h.1, h.2.2.1⟩

/-- Claim C1 (confirmed): for every handler interpretation, state, syscall
number and argument tuple — a number with no descriptor in the 32-slot table
yields `ENOSYS`; otherwise, once the calling thread and its process resolve,
a caller ring above `max_caller_ring` or a capability mask missing some
required bit yields `EPERM` with the state untouched (the handler is not
invoked); only when both checks pass is the descriptor's handler invoked, and
the C-ABI wrapper returns its value cast to `isize` (the identity, hence
non-negative, for values below `2^63`) or the negated errno code. -/
theorem c1_handle_syscall_gate (hinterp : HandlerTag → SyscallHandlerFn) (k : Kernel)
    (n : Nat) (args : SyscallArgs) :
    (SYSCALL_MAX ≤ n → handle_syscall hinterp k n args = (.error .ENOSYS, k)) ∧
    (∀ desc, SYSCALL_TABLE.get? n = some desc →
      ∀ tid th pr, k.sched.current_thread = some tid →
        k.threadTable.get_thread tid = some th →
        k.get_process th.process_id = some pr →
        ((¬ pr.security.is_privileged_enough desc.max_caller_ring ∨
            ¬ pr.security.has_capabilities desc.required_capabilities) →
          handle_syscall hinterp k n args = (.error .EPERM, k)) ∧
        (pr.security.is_privileged_enough desc.max_caller_ring →
          pr.security.has_capabilities desc.required_capabilities →
          handle_syscall hinterp k n args = hinterp desc.handler k args)) ∧
    (∀ v : Nat, v < 2 ^ 63 → usizeToIsize v = v) ∧
    (∀ e : Errno, -((e.code : Int)) < 0) ∧
    (syscall_handler hinterp k n args.a1 args.a2 args.a3 args.a4 args.a5 args.a6 =
      (match handle_syscall hinterp k n args with
       | (.ok value, k') => (usizeToIsize value, k')
       | (.error e, k') => (-(e.code : Int), k'))) := by
  refine ⟨?_, ?_, ?_, ?_, ?_⟩
  · intro hn
    have hnone : SYSCALL_TABLE.get? n = none :=
      List.get?_eq_none.mpr (le_trans (le_of_eq rfl) hn)
    rw [List.get?_eq_getElem?] at hnone
    simp [handle_syscall, hnone]
  · intro desc hdesc tid th pr hcur hth hpr
    rw [List.get?_eq_getElem?] at hdesc
    constructor
    · intro hfail
      by_cases hp : pr.security.is_privileged_enough desc.max_caller_ring
      · have hc : ¬ pr.security.has_capabilities desc.required_capabilities := by
          rcases hfail with h | h
          · exact absurd hp h
          · exact h
        simp [handle_syscall, hdesc, current_thread_snapshot, hcur, hth, hpr, hp, hc]
      · simp [handle_syscall, hdesc, current_thread_snapshot, hcur, hth, hpr, hp]
    · intro hp hc
      simp [handle_syscall, hdesc, current_thread_snapshot, hcur, hth, hpr, hp, hc]
  · intro v hv
    have hv64 : v < 2 ^ 64 := lt_trans hv (by norm_num)
    unfold usizeToIsize
    rw [Nat.mod_eq_of_lt hv64, if_pos hv]
  · intro e
    cases e <;> simp [Errno.code]
  · rfl

/-- Concrete instantiation of `c1_handle_syscall_gate`: a Ring3 user process
with an empty capability mask.  Slot 40 is outside the table (`ENOSYS`);
slot 9 (`write`) requires `CAP_CONSOLE_IO`, which the caller lacks (`EPERM`);
slot 4 (`getpid`) requires nothing, so the chosen interpretation of its
handler tag runs. -/
theorem c1_handle_syscall_gate_witness :
    handle_syscall (fun _ => sys_unimplemented) kernelC10 40 ⟨0, 0, 0, 0, 0, 0⟩ =
      (.error .ENOSYS, kernelC10) ∧
    handle_syscall (fun _ => sys_unimplemented) kernelC10 9 ⟨1, 0, 0, 0, 0, 0⟩ =
      (.error .EPERM, kernelC10) ∧
    handle_syscall (fun _ => sys_unimplemented) kernelC10 4 ⟨0, 0, 0, 0, 0, 0⟩ =
      sys_unimplemented kernelC10 ⟨0, 0, 0, 0, 0, 0⟩ := by
  refine ⟨?_, ?_, ?_⟩
  · exact (c1_handle_syscall_gate (fun _ => sys_unimplemented) kernelC10 40
      ⟨0, 0, 0, 0, 0, 0⟩).1 (by decide)
  · exact (((c1_handle_syscall_gate (fun _ => sys_unimplemented) kernelC10 9
      ⟨1, 0, 0, 0, 0, 0⟩).2.1 _ rfl 1 (Thread.new 1 1 .Normal 0 0 none)
      (Process.new 1 "p" (AddressSpace.new 0) (SecurityContext.as_user 7)
        FileDescriptorTable.new) rfl rfl rfl).1 (Or.inr (by decide)))
  · exact (((c1_handle_syscall_gate (fun _ => sys_unimplemented) kernelC10 4
      ⟨0, 0, 0, 0, 0, 0⟩).2.1 _ rfl 1 (Thread.new 1 1 .Normal 0 0 none)
      (Process.new 1 "p" (AddressSpace.new 0) (SecurityContext.as_user 7)
        FileDescriptorTable.new) rfl rfl rfl).2 (by decide) (by decide))

theorem take_zombie_none_any (k : Kernel) (parent : Nat)
    (h : ∀ z ∈ k.zombies, z.parent ≠ parent) :
    take_zombie k parent 0 = none := by
  simp only [take_zombie, if_pos rfl]
  rw [takeFirst_eq_none _ _ (fun z hz => h z hz)]
  simp

theorem take_zombie_none_pid (k : Kernel) (parent pid : Nat) (hp : pid ≠ 0)
    (h : ∀ z ∈ k.zombies, ¬(z.parent = parent ∧ z.child = pid)) :
    take_zombie k parent pid = none := by
  simp only [take_zombie, if_neg hp]
  rw [takeFirst_eq_none _ _ (fun z hz => h z hz)]

theorem take_zombie_hit (k : Kernel) (parent pid : Nat) (l : List ZombieChild)
    (z : ZombieChild) (hp : pid ≠ 0) (hzl : k.zombies = l ++ [z])
    (hl : ∀ y ∈ l, ¬(y.parent = parent ∧ y.child = pid))
    (hz1 : z.parent = parent) (hz2 : z.child = pid) :
    take_zombie k parent pid = some (z, { k with zombies := l }) := by
  simp only [take_zombie, if_neg hp, hzl]
  rw [takeFirst_append_singleton _ l z (fun y hy => hl y hy) ⟨hz1, hz2⟩]

theorem finalize_thread_as_reap (kx : Kernel) (tid : Nat) (th : Thread) (code : Nat) :
    finalize_thread kx tid th code =
      reap_if_last
        { kx with
          threadTable := (kx.threadTable.modifyThread tid
            (fun t => t.set_state .Terminated)).remove_thread tid
          sched := { kx.sched with runQueue := kx.sched.runQueue.remove tid } }
        tid th.process_id code := rfl

theorem c2_phase1 (k : Kernel) (tp : Nat) (thp : Thread)
    (hcur : k.sched.runQueue.currentThread = some tp)
    (hthp : k.threadTable.threads tp = some thp)
    (hz : ∀ z ∈ k.zombies, z.parent ≠ thp.process_id) :
    sys_wait k (waitArgs 0) = (.ok 0, c2R1 k tp thp.process_id) := by
  have hzero : take_zombie k thp.process_id 0 = none := take_zombie_none_any k _ hz
  unfold c2R1
  simp only [sys_wait, current_thread_snapshot, Scheduler.current_thread, waitArgs,
    hcur, ThreadTable.get_thread, hthp, hzero, register_waiter,
    Kernel.block_current_thread, Scheduler.block_current]
  simp [hcur]

theorem c2_phase2 (k : Kernel) (tp tc status : Nat) (thp thc : Thread)
    (procC procP : Process)
    (hthp : k.threadTable.threads tp = some thp)
    (hthc : k.threadTable.threads tc = some thc)
    (hnet : tc ≠ tp)
    (hnep : thc.process_id ≠ thp.process_id)
    (hprc : k.processTable.processes thc.process_id = some procC)
    (hprp : k.processTable.processes thp.process_id = some procP)
    (hthreads : procC.threads = [tc])
    (hparent : procC.parent = some thp.process_id)
    (hw : ∀ w ∈ k.waiters, w.parent ≠ thp.process_id) :
    finalize_thread (c2R1 k tp thp.process_id) tc thc status =
      c2R7 k tp tc status thp thc procC procP := by
  have eB : reap_if_last
      { k with
        threadTable := ((k.threadTable.modifyThread tp
          (fun t => t.set_state .Blocked)).modifyThread tc
          (fun t => t.set_state .Terminated)).remove_thread tc
        sched := { k.sched with
          runQueue := (k.sched.runQueue.set_current none).remove tc }
        waiters := k.waiters.filter (fun w => w.tid ≠ tp) ++
          [⟨thp.process_id, tp, none⟩] }
      tc thc.process_id status =
      record_child_exit
        { k with
          threadTable := ((k.threadTable.modifyThread tp
            (fun t => t.set_state .Blocked)).modifyThread tc
            (fun t => t.set_state .Terminated)).remove_thread tc
          sched := { k.sched with
            runQueue := (k.sched.runQueue.set_current none).remove tc }
          waiters := k.waiters.filter (fun w => w.tid ≠ tp) ++
            [⟨thp.process_id, tp, none⟩]
          processTable := { k.processTable with
            processes := upd (upd k.processTable.processes thc.process_id
              (some (procC.remove_thread tc))) thc.process_id none }
          securityContexts := removeContextCtx k.securityContexts thc.process_id }
        procC.parent thc.process_id status := by
    have hempty : (procC.remove_thread tc).threads = [] := by
      simp [Process.remove_thread, hthreads]
    unfold reap_if_last Kernel.remove_process
    simp only [hprc]
    rw [if_pos hempty]
    simp only [upd_same]
  have hget : ThreadTable.get_thread
      (((k.threadTable.modifyThread tp (fun t => t.set_state .Blocked)).modifyThread tc
        (fun t => t.set_state .Terminated)).remove_thread tc) tp =
      some (thp.set_state .Blocked) := by
    unfold ThreadTable.get_thread ThreadTable.remove_thread ThreadTable.modifyThread
    simp only [hthp]
    simp only [upd_other _ _ _ _ hnet, hthc]
    simp only [upd_other _ _ _ _ (Ne.symm hnet), upd_same]
  have htakeW : takeFirst
      (fun w : Waiter => w.parent = thp.process_id ∧
        (w.target = none ∨ w.target = some thc.process_id))
      (k.waiters.filter (fun w => w.tid ≠ tp) ++ [⟨thp.process_id, tp, none⟩]) =
      some (⟨thp.process_id, tp, none⟩, k.waiters.filter (fun w => w.tid ≠ tp)) := by
    apply takeFirst_append_singleton
    · intro x hx
      intro hpred
      exact hw x (List.mem_of_mem_filter hx) hpred.1
    · exact ⟨rfl, Or.inl rfl⟩
  have eC : record_child_exit
      { k with
        threadTable := ((k.threadTable.modifyThread tp
          (fun t => t.set_state .Blocked)).modifyThread tc
          (fun t => t.set_state .Terminated)).remove_thread tc
        sched := { k.sched with
          runQueue := (k.sched.runQueue.set_current none).remove tc }
        waiters := k.waiters.filter (fun w => w.tid ≠ tp) ++
          [⟨thp.process_id, tp, none⟩]
        processTable := { k.processTable with
          processes := upd (upd k.processTable.processes thc.process_id
            (some (procC.remove_thread tc))) thc.process_id none }
        securityContexts := removeContextCtx k.securityContexts thc.process_id }
      procC.parent thc.process_id status =
      c2R7 k tp tc status thp thc procC procP := by
    unfold c2R7 c2tt7 c2rq7
    rw [hparent]
    unfold record_child_exit wake_waiter Kernel.unblock_thread Scheduler.unblock_thread
    simp only [ProcessTable.modifyProcess, upd_other _ _ _ _ (Ne.symm hnep), hprp]
    simp only [htakeW]
    simp only [hget]
    rw [if_pos (show (thp.set_state ThreadState.Blocked).state = ThreadState.Blocked from rfl)]
    rfl
  exact (finalize_thread_as_reap _ tc thc status).trans (eB.trans eC)

theorem c2tt7_get (k : Kernel) (tp tc : Nat) (thp thc : Thread)
    (hthp : k.threadTable.threads tp = some thp)
    (hthc : k.threadTable.threads tc = some thc)
    (hnet : tc ≠ tp) :
    (c2tt7 k tp tc).get_thread tp = some (thp.set_state .Ready) := by
  have hget : ThreadTable.get_thread
      (((k.threadTable.modifyThread tp (fun t => t.set_state .Blocked)).modifyThread tc
        (fun t => t.set_state .Terminated)).remove_thread tc) tp =
      some (thp.set_state .Blocked) := by
    unfold ThreadTable.get_thread ThreadTable.remove_thread ThreadTable.modifyThread
    simp only [hthp]
    simp only [upd_other _ _ _ _ hnet, hthc]
    simp only [upd_other _ _ _ _ (Ne.symm hnet), upd_same]
  exact modifyThread_get_same _ tp _ (thp.set_state .Blocked) hget

theorem pick_next_lane2 (q : RunQueue) (tp : Nat)
    (h4 : q.queues 4 = []) (h3 : q.queues 3 = []) (h2 : q.queues 2 = [tp]) :
    q.pick_next = (some tp, { q with queues := upd5 q.queues 2 [] }) := by
  unfold RunQueue.pick_next
  simp only [h4, h3, h2]

theorem scheduler_schedule_of_pick (s : Scheduler) (tt : ThreadTable) (next : Nat)
    (rq2 : RunQueue) (th2 : Thread)
    (hcur : s.runQueue.currentThread = none)
    (hpick : s.runQueue.pick_next = (some next, rq2))
    (hnext : tt.get_thread next = some th2) :
    s.schedule tt =
      (some next,
       { s with runQueue := rq2.set_current (some next)
                timeSliceRemaining := th2.time_slice },
       tt.modifyThread next (fun x => x.set_state .Running)) := by
  by_cases hts : s.timeSliceRemaining > 0
  · simp [Scheduler.schedule, Scheduler.scheduleRotate, Scheduler.demoteCurrent,
      Scheduler.pickStage, hts, hcur, hpick, hnext]
  · simp [Scheduler.schedule, Scheduler.scheduleRotate, Scheduler.demoteCurrent,
      Scheduler.pickStage, hts, hcur, hpick, hnext]

theorem kernel_schedule_of_pick (k : Kernel) (next : Nat) (rq2 : RunQueue)
    (th2 : Thread)
    (hcur : k.sched.runQueue.currentThread = none)
    (hpick : k.sched.runQueue.pick_next = (some next, rq2))
    (hnext : k.threadTable.get_thread next = some th2) :
    k.schedule =
      (some next,
       { k with
         sched := { k.sched with
           runQueue := rq2.set_current (some next)
           timeSliceRemaining := th2.time_slice }
         threadTable := k.threadTable.modifyThread next
           (fun x => x.set_state .Running) }) := by
  unfold Kernel.schedule
  rw [scheduler_schedule_of_pick k.sched k.threadTable next rq2 th2 hcur hpick hnext]

theorem c2_phase3 (k : Kernel) (tp tc status : Nat) (thp thc : Thread)
    (procC procP : Process)
    (hthp : k.threadTable.threads tp = some thp)
    (hthc : k.threadTable.threads tc = some thc)
    (hnet : tc ≠ tp)
    (hq : ∀ i : Fin 5, k.sched.runQueue.queues i = [])
    (hprio : thp.priority = Priority.Normal) :
    (c2R7 k tp tc status thp thc procC procP).schedule =
      (some tp, c2R8 k tp tc status thp thc procC procP) := by
  have hq2 : ∀ i : Fin 5, ((k.sched.runQueue.set_current none).remove tc).queues i = [] := by
    intro i
    show (k.sched.runQueue.queues i).filter (fun t => t ≠ tc) = []
    rw [hq i]
    rfl
  have hmemn : tp ∉ ((k.sched.runQueue.set_current none).remove tc).queues
      (Priority.index thp.priority) := by
    rw [hq2]
    simp
  have henq : c2rq7 k tp tc thp.priority =
      { queues := upd5 ((k.sched.runQueue.set_current none).remove tc).queues
          (Priority.index thp.priority)
          (((k.sched.runQueue.set_current none).remove tc).queues
            (Priority.index thp.priority) ++ [tp])
        currentThread := none
        idleThread := k.sched.runQueue.idleThread } := by
    unfold c2rq7 RunQueue.enqueue
    rw [if_neg hmemn]
    rfl
  have hidx : Priority.index Priority.Normal = (2 : Fin 5) := rfl
  have h4 : (c2rq7 k tp tc thp.priority).queues 4 = [] := by
    simp only [henq]
    simp only [hprio, hidx]
    rw [upd5_other _ _ _ _ (by decide)]
    exact hq2 4
  have h3 : (c2rq7 k tp tc thp.priority).queues 3 = [] := by
    simp only [henq]
    simp only [hprio, hidx]
    rw [upd5_other _ _ _ _ (by decide)]
    exact hq2 3
  have h2 : (c2rq7 k tp tc thp.priority).queues 2 = [tp] := by
    simp only [henq]
    simp only [hprio, hidx]
    rw [upd5_same]
    rw [hq2]
    rfl
  have hcur7 : (c2rq7 k tp tc thp.priority).currentThread = none := by
    simp only [henq]
  have hpick : (c2rq7 k tp tc thp.priority).pick_next =
      (some tp, { c2rq7 k tp tc thp.priority with
        queues := upd5 (c2rq7 k tp tc thp.priority).queues 2 [] }) :=
    pick_next_lane2 _ tp h4 h3 h2
  have hnext : (c2tt7 k tp tc).get_thread tp = some (thp.set_state .Ready) :=
    c2tt7_get k tp tc thp thc hthp hthc hnet
  exact kernel_schedule_of_pick (c2R7 k tp tc status thp thc procC procP) tp _
    (thp.set_state .Ready) hcur7 hpick hnext

theorem c2_phase4 (k : Kernel) (tp tc status : Nat) (thp thc : Thread)
    (procC procP : Process)
    (hthp : k.threadTable.threads tp = some thp)
    (hthc : k.threadTable.threads tc = some thc)
    (hnet : tc ≠ tp)
    (hz : ∀ z ∈ k.zombies, z.parent ≠ thp.process_id)
    (hc0 : thc.process_id ≠ 0) :
    sys_wait (c2R8 k tp tc status thp thc procC procP) (waitArgs thc.process_id) =
      (.ok thc.process_id, c2R9 k tp tc status thp thc procC procP) := by
  have hget8 : (c2R8 k tp tc status thp thc procC procP).threadTable.get_thread tp =
      some (thp.set_state .Running) :=
    modifyThread_get_same _ tp _ (thp.set_state .Ready)
      (c2tt7_get k tp tc thp thc hthp hthc hnet)
  have hsnap8 : current_thread_snapshot (c2R8 k tp tc status thp thc procC procP) =
      .ok (tp, thp.set_state .Running) := by
    unfold current_thread_snapshot Scheduler.current_thread
    rw [show (c2R8 k tp tc status thp thc procC procP).sched.runQueue.currentThread =
      some tp from rfl]
    dsimp only
    rw [hget8]
  have hzhit : take_zombie (c2R8 k tp tc status thp thc procC procP) thp.process_id
      thc.process_id =
      some (⟨thp.process_id, thc.process_id, status⟩,
        c2R9 k tp tc status thp thc procC procP) :=
    take_zombie_hit _ thp.process_id thc.process_id k.zombies
      ⟨thp.process_id, thc.process_id, status⟩ hc0 rfl
      (fun y hy c => hz y hy c.1) rfl rfl
  unfold sys_wait
  rw [hsnap8]
  simp only [waitArgs]
  rw [show (thp.set_state ThreadState.Running).process_id = thp.process_id from rfl]
  rw [hzhit]

theorem c2_phase5 (k : Kernel) (tp tc status : Nat) (thp thc : Thread)
    (procC procP : Process)
    (hthp : k.threadTable.threads tp = some thp)
    (hthc : k.threadTable.threads tc = some thc)
    (hnet : tc ≠ tp)
    (hz : ∀ z ∈ k.zombies, z.parent ≠ thp.process_id)
    (hc0 : thc.process_id ≠ 0) :
    sys_wait (c2R9 k tp tc status thp thc procC procP) (waitArgs thc.process_id) =
      (.ok 0, c2R5 k tp tc status thp thc procC procP) := by
  have hget9 : (c2R9 k tp tc status thp thc procC procP).threadTable.get_thread tp =
      some (thp.set_state .Running) :=
    modifyThread_get_same _ tp _ (thp.set_state .Ready)
      (c2tt7_get k tp tc thp thc hthp hthc hnet)
  have hsnap9 : current_thread_snapshot (c2R9 k tp tc status thp thc procC procP) =
      .ok (tp, thp.set_state .Running) := by
    unfold current_thread_snapshot Scheduler.current_thread
    rw [show (c2R9 k tp tc status thp thc procC procP).sched.runQueue.currentThread =
      some tp from rfl]
    dsimp only
    rw [hget9]
  have hznone : take_zombie (c2R9 k tp tc status thp thc procC procP) thp.process_id
      thc.process_id = none :=
    take_zombie_none_pid _ _ _ hc0 (fun z hzm c => hz z hzm c.1)
  unfold sys_wait
  rw [hsnap9]
  simp only [waitArgs]
  rw [show (thp.set_state ThreadState.Running).process_id = thp.process_id from rfl]
  rw [hznone]
  unfold register_waiter Kernel.block_current_thread Scheduler.block_current
  rw [if_neg hc0]
  rfl

theorem finalize_keeps_nonlast (kx : Kernel) (tidx codex : Nat) (thx : Thread)
    (px : Process)
    (hpx : kx.processTable.processes thx.process_id = some px)
    (hne : (px.remove_thread tidx).threads ≠ []) :
    (finalize_thread kx tidx thx codex).zombies = kx.zombies ∧
    (finalize_thread kx tidx thx codex).processTable.processes thx.process_id =
      some (px.remove_thread tidx) := by
  rw [finalize_thread_as_reap]
  have hpx2 : ({ kx with
      threadTable := (kx.threadTable.modifyThread tidx
        (fun t => t.set_state .Terminated)).remove_thread tidx
      sched := { kx.sched with runQueue := kx.sched.runQueue.remove tidx } } :
      Kernel).processTable.processes thx.process_id = some px := hpx
  unfold reap_if_last
  rw [hpx2]
  dsimp only
  rw [if_neg hne]
  exact ⟨rfl, upd_same _ _ _⟩

/-- Claim C2 (confirmed): the full exit/wait rendezvous.  For a parent
process (its thread `tp` current, owning process id `thp.process_id`) with a
child process `procC` whose only live thread is `tc`: (1) a `wait(0)` call by
the parent before the child exits returns the blocking marker `Ok 0`, blocks
the parent thread, leaves the CPU idle and registers an any-child waiter;
(2) when the child's last thread exits, the child process is removed from the
process table, a `ZombieChild` record is created and the parent thread is
woken back to `Ready`; (3) the scheduler then picks the parent again; (4) a
subsequent `wait(C)` call returns the child's id and consumes the zombie, so
the id is returned exactly once; (5) a second immediate `wait(C)` with no new
exit finds no zombie, returns the blocking marker again, re-blocks the parent
and registers a targeted waiter.  Finally, while a process still has other
live threads, `finalize_thread` records no zombie and keeps the process. -/
theorem c2_wait_exit_rendezvous (k : Kernel) (tp tc status : Nat)
    (thp thc : Thread) (procC procP : Process)
    (hcur : k.sched.runQueue.currentThread = some tp)
    (hthp : k.threadTable.threads tp = some thp)
    (hthc : k.threadTable.threads tc = some thc)
    (hnet : tc ≠ tp)
    (hnep : thc.process_id ≠ thp.process_id)
    (hprc : k.processTable.processes thc.process_id = some procC)
    (hprp : k.processTable.processes thp.process_id = some procP)
    (hthreads : procC.threads = [tc])
    (hparent : procC.parent = some thp.process_id)
    (hz : ∀ z ∈ k.zombies, z.parent ≠ thp.process_id)
    (hw : ∀ w ∈ k.waiters, w.parent ≠ thp.process_id)
    (hq : ∀ i : Fin 5, k.sched.runQueue.queues i = [])
    (hprio : thp.priority = Priority.Normal)
    (hc0 : thc.process_id ≠ 0) :
    (sys_wait k (waitArgs 0)).1 = .ok 0 ∧
    (c2K1 k).sched.runQueue.currentThread = none ∧
    (c2K1 k).threadTable.get_thread tp = some (thp.set_state .Blocked) ∧
    (⟨thp.process_id, tp, none⟩ : Waiter) ∈ (c2K1 k).waiters ∧
    (c2K2 k tc thc status).processTable.processes thc.process_id = none ∧
    (⟨thp.process_id, thc.process_id, status⟩ : ZombieChild) ∈
      (c2K2 k tc thc status).zombies ∧
    (c2K2 k tc thc status).threadTable.get_thread tp =
      some (thp.set_state .Ready) ∧
    ((c2K2 k tc thc status).schedule).1 = some tp ∧
    (sys_wait (c2K3 k tc thc status) (waitArgs thc.process_id)).1 =
      .ok thc.process_id ∧
    (c2K4 k tc thc status).zombies = k.zombies ∧
    (sys_wait (c2K4 k tc thc status) (waitArgs thc.process_id)).1 = .ok 0 ∧
    (c2K5 k tc thc status).sched.runQueue.currentThread = none ∧
    (c2K5 k tc thc status).threadTable.get_thread tp =
      some (thp.set_state .Blocked) ∧
    (⟨thp.process_id, tp, some thc.process_id⟩ : Waiter) ∈
      (c2K5 k tc thc status).waiters ∧
    (∀ (kx : Kernel) (tidx codex : Nat) (thx : Thread) (px : Process),
      kx.processTable.processes thx.process_id = some px →
      (px.remove_thread tidx).threads ≠ [] →
      (finalize_thread kx tidx thx codex).zombies = kx.zombies ∧
      (finalize_thread kx tidx thx codex).processTable.processes thx.process_id =
        some (px.remove_thread tidx)) := by
  have hk1 := c2_phase1 k tp thp hcur hthp hz
  have e1 : c2K1 k = c2R1 k tp thp.process_id := by
    unfold c2K1
    rw [hk1]
  have hk2 := c2_phase2 k tp tc status thp thc procC procP hthp hthc hnet hnep hprc
    hprp hthreads hparent hw
  have e2 : c2K2 k tc thc status = c2R7 k tp tc status thp thc procC procP := by
    unfold c2K2
    rw [e1, hk2]
  have hk3 := c2_phase3 k tp tc status thp thc procC procP hthp hthc hnet hq hprio
  have e3 : c2K3 k tc thc status = c2R8 k tp tc status thp thc procC procP := by
    unfold c2K3
    rw [e2, hk3]
  have hk4 := c2_phase4 k tp tc status thp thc procC procP hthp hthc hnet hz hc0
  have e4 : c2K4 k tc thc status = c2R9 k tp tc status thp thc procC procP := by
    unfold c2K4
    rw [e3, hk4]
  have hk5 := c2_phase5 k tp tc status thp thc procC procP hthp hthc hnet hz hc0
  have e5 : c2K5 k tc thc status = c2R5 k tp tc status thp thc procC procP := by
    unfold c2K5
    rw [e4, hk5]
  refine ⟨?_, ?_, ?_, ?_, ?_, ?_, ?_, ?_, ?_, ?_, ?_, ?_, ?_, ?_, ?_⟩
  · rw [hk1]
  · rw [e1]
    rfl
  · rw [e1]
    exact modifyThread_get_same k.threadTable tp _ thp hthp
  · rw [e1]
    show _ ∈ k.waiters.filter (fun w => w.tid ≠ tp) ++
      [(⟨thp.process_id, tp, none⟩ : Waiter)]
    simp
  · rw [e2]
    show upd (upd (upd k.processTable.processes thc.process_id
      (some (procC.remove_thread tc))) thc.process_id none) thp.process_id
      (some { procP with
        children := procP.children.filter (fun pid => pid ≠ thc.process_id) })
      thc.process_id = none
    rw [upd_other _ _ _ _ hnep, upd_same]
  · rw [e2]
    show _ ∈ k.zombies ++ [(⟨thp.process_id, thc.process_id, status⟩ : ZombieChild)]
    simp
  · rw [e2]
    exact c2tt7_get k tp tc thp thc hthp hthc hnet
  · rw [e2, hk3]
  · rw [e3, hk4]
  · rw [e4]
    rfl
  · rw [e4, hk5]
  · rw [e5]
    rfl
  · rw [e5]
    exact modifyThread_get_same _ tp _ (thp.set_state .Running)
      (modifyThread_get_same _ tp _ (thp.set_state .Ready)
        (c2tt7_get k tp tc thp thc hthp hthc hnet))
  · rw [e5]
    show _ ∈ (c2R9 k tp tc status thp thc procC procP).waiters.filter
      (fun w => w.tid ≠ tp) ++ [(⟨thp.process_id, tp, some thc.process_id⟩ : Waiter)]
    simp
  · exact finalize_keeps_nonlast

theorem c2_wait_exit_rendezvous_witness :
    (sys_wait kernelC2 (waitArgs 0)).1 = .ok 0 ∧
    (c2K1 kernelC2).sched.runQueue.currentThread = none ∧
    (c2K1 kernelC2).threadTable.get_thread 1 = some (thpC2.set_state .Blocked) ∧
    (⟨thpC2.process_id, 1, none⟩ : Waiter) ∈ (c2K1 kernelC2).waiters ∧
    (c2K2 kernelC2 2 thcC2 7).processTable.processes thcC2.process_id = none ∧
    (⟨thpC2.process_id, thcC2.process_id, 7⟩ : ZombieChild) ∈
      (c2K2 kernelC2 2 thcC2 7).zombies ∧
    (c2K2 kernelC2 2 thcC2 7).threadTable.get_thread 1 =
      some (thpC2.set_state .Ready) ∧
    ((c2K2 kernelC2 2 thcC2 7).schedule).1 = some 1 ∧
    (sys_wait (c2K3 kernelC2 2 thcC2 7) (waitArgs thcC2.process_id)).1 =
      .ok thcC2.process_id ∧
    (c2K4 kernelC2 2 thcC2 7).zombies = kernelC2.zombies ∧
    (sys_wait (c2K4 kernelC2 2 thcC2 7) (waitArgs thcC2.process_id)).1 = .ok 0 ∧
    (c2K5 kernelC2 2 thcC2 7).sched.runQueue.currentThread = none ∧
    (c2K5 kernelC2 2 thcC2 7).threadTable.get_thread 1 =
      some (thpC2.set_state .Blocked) ∧
    (⟨thpC2.process_id, 1, some thcC2.process_id⟩ : Waiter) ∈
      (c2K5 kernelC2 2 thcC2 7).waiters ∧
    (∀ (kx : Kernel) (tidx codex : Nat) (thx : Thread) (px : Process),
      kx.processTable.processes thx.process_id = some px →
      (px.remove_thread tidx).threads ≠ [] →
      (finalize_thread kx tidx thx codex).zombies = kx.zombies ∧
      (finalize_thread kx tidx thx codex).processTable.processes thx.process_id =
        some (px.remove_thread tidx)) :=
  c2_wait_exit_rendezvous kernelC2 1 2 7 thpC2 thcC2 procC2C procC2P rfl rfl rfl
    (by decide) (by decide) rfl rfl rfl rfl
    (fun z hzm => absurd hzm (List.not_mem_nil z))
    (fun w hwm => absurd hwm (List.not_mem_nil w))
    (fun _ => rfl) rfl (by decide)

theorem writeBytesAt_length (data src : List Nat) (off : Nat)
    (h : off + src.length ≤ data.length) :
    (writeBytesAt data off src).length = data.length := by
  simp [writeBytesAt]
  omega

theorem sliceAt_writeBytesAt_self (data src : List Nat) (off : Nat)
    (h : off + src.length ≤ data.length) :
    sliceAt (writeBytesAt data off src) off src.length = src := by
  unfold sliceAt writeBytesAt
  rw [List.append_assoc]
  rw [List.drop_append_of_le_length (by simp; omega)]
  rw [List.drop_take]
  simp

theorem sliceAt_writeBytesAt_left (data src : List Nat) (off off2 len2 : Nat)
    (h : off + src.length ≤ data.length)
    (hlt : off2 + len2 ≤ off) :
    sliceAt (writeBytesAt data off src) off2 len2 = sliceAt data off2 len2 := by
  unfold sliceAt writeBytesAt
  rw [List.append_assoc]
  rw [List.drop_append_of_le_length (by simp; omega)]
  rw [List.take_append_of_le_length (by simp; omega)]
  rw [List.drop_take, List.take_take]
  congr 1
  omega

theorem sliceAt_writeBytesAt_right (data src : List Nat) (off off2 len2 : Nat)
    (h : off + src.length ≤ data.length)
    (hgt : off + src.length ≤ off2) :
    sliceAt (writeBytesAt data off src) off2 len2 = sliceAt data off2 len2 := by
  unfold sliceAt writeBytesAt
  have hlen : ((data.take off ++ src).length) = off + src.length := by
    simp
    omega
  have e : off2 = (data.take off ++ src).length + (off2 - (off + src.length)) := by
    rw [hlen]
    omega
  nth_rewrite 1 [e]
  rw [List.drop_append]
  rw [List.drop_drop]
  congr 2
  omega

theorem leBytes_length (w v : Nat) : (leBytes w v).length = w := by
  simp [leBytes]

theorem write_u64_stack_ok (data : List Nat) (off v : Nat)
    (h : off + 8 ≤ data.length) :
    write_u64_stack data off v = .ok (writeBytesAt data off (leBytes 8 v)) := by
  unfold write_u64_stack
  rw [if_pos h]

theorem le_align_up (v a : Nat) : v ≤ align_up v a := by
  unfold align_up
  by_cases ha : a = 0
  · rw [if_pos ha]
  · rw [if_neg ha]
    have := Nat.mod_lt (v + a - 1) (Nat.pos_of_ne_zero ha)
    omega

theorem sizeSum_cons (s : List Nat) (l : List (List Nat)) :
    sizeSum (s :: l) = s.length + 1 + sizeSum l := by
  simp [sizeSum]

theorem sizeSum_append (a b : List (List Nat)) :
    sizeSum (a ++ b) = sizeSum a + sizeSum b := by
  simp [sizeSum]

theorem sizeSum_take_get (l : List (List Nat)) :
    ∀ (j : Nat) (s : List Nat), l.get? j = some s →
      sizeSum (l.take j) + s.length + 1 ≤ sizeSum l := by
  induction l with
  | nil => intro j s hs; cases hs
  | cons x xs ih =>
    intro j s hs
    cases j with
    | zero =>
      cases hs
      simp only [List.take_zero]
      rw [sizeSum_cons]
      have : sizeSum ([] : List (List Nat)) = 0 := rfl
      omega
    | succ j =>
      simp only [List.get?_cons_succ] at hs
      have := ih j s hs
      simp only [List.take_succ_cons]
      rw [sizeSum_cons, sizeSum_cons]
      omega

theorem writeStringsLoop_spec (p usp : Nat) :
    ∀ (l : List (List Nat)) (idx c : Nat) (data : List Nat),
      c + sizeSum l ≤ data.length →
      p + (idx + l.length) * 8 ≤ c →
      ∃ dataF : List Nat,
        writeStringsLoop p usp l idx c data = .ok (dataF, c + sizeSum l) ∧
        dataF.length = data.length ∧
        (∀ (j : Nat) (s : List Nat), l.get? j = some s →
          sliceAt dataF (p + (idx + j) * 8) 8 =
            leBytes 8 (usp + c + sizeSum (l.take j)) ∧
          sliceAt dataF (c + sizeSum (l.take j)) (s.length + 1) = s ++ [0]) ∧
        (∀ off len : Nat,
          (off + len ≤ p + idx * 8 ∨
           (p + (idx + l.length) * 8 ≤ off ∧ off + len ≤ c) ∨
           c + sizeSum l ≤ off) →
          sliceAt dataF off len = sliceAt data off len) := by
  intro l
  induction l with
  | nil =>
    intro idx c data hfit hptr
    refine ⟨data, rfl, rfl, ?_, ?_⟩
    · intro j s hs
      cases hs
    · intro off len _
      rfl
  | cons s rest ih =>
    intro idx c data hfit hptr
    have hsz := sizeSum_cons s rest
    have hfit1 : c + (s.length + 1) ≤ data.length := by omega
    have hnogt : ¬ (c + (s.length + 1) > data.length) := by omega
    have hptr8 : p + idx * 8 + 8 ≤ c := by
      have : p + (idx + (rest.length + 1)) * 8 ≤ c := by
        simpa using hptr
      omega
    have hd1len : (writeBytesAt data c (s ++ [0])).length = data.length := by
      apply writeBytesAt_length
      simp
      omega
    have hd2 : write_u64_stack (writeBytesAt data c (s ++ [0])) (p + idx * 8)
        (usp + c) =
        .ok (writeBytesAt (writeBytesAt data c (s ++ [0])) (p + idx * 8)
          (leBytes 8 (usp + c))) := by
      apply write_u64_stack_ok
      rw [hd1len]
      omega
    have hd2len : (writeBytesAt (writeBytesAt data c (s ++ [0])) (p + idx * 8)
        (leBytes 8 (usp + c))).length = data.length := by
      rw [writeBytesAt_length, hd1len]
      rw [hd1len, leBytes_length]
      omega
    obtain ⟨dataF, hrec, hlenF, hcontF, hframeF⟩ :=
      ih (idx + 1) (c + (s.length + 1))
        (writeBytesAt (writeBytesAt data c (s ++ [0])) (p + idx * 8)
          (leBytes 8 (usp + c)))
        (by rw [hd2len]; omega)
        (by have : p + (idx + (rest.length + 1)) * 8 ≤ c := by simpa using hptr
            have e : idx + 1 + rest.length = idx + (rest.length + 1) := by omega
            rw [e]
            omega)
    refine ⟨dataF, ?_, by rw [hlenF, hd2len], ?_, ?_⟩
    · show writeStringsLoop p usp (s :: rest) idx c data = _
      unfold writeStringsLoop
      rw [if_neg hnogt]
      simp only [bind, Except.bind]
      rw [hd2]
      dsimp only
      rw [hrec]
      have e : c + (s.length + 1) + sizeSum rest = c + sizeSum (s :: rest) := by
        rw [hsz]
        omega
      rw [e]
    · intro j t ht
      cases j with
      | zero =>
        cases ht
        constructor
        · have h1 : sliceAt dataF (p + (idx + 0) * 8) 8 =
              sliceAt (writeBytesAt (writeBytesAt data c (s ++ [0])) (p + idx * 8)
                (leBytes 8 (usp + c))) (p + (idx + 0) * 8) 8 := by
            apply hframeF
            left
            omega
          rw [h1]
          have e0 : p + (idx + 0) * 8 = p + idx * 8 := by omega
          rw [e0]
          have := sliceAt_writeBytesAt_self
            (writeBytesAt data c (s ++ [0])) (leBytes 8 (usp + c)) (p + idx * 8)
            (by rw [hd1len, leBytes_length]; omega)
          rw [leBytes_length] at this
          rw [this]
          have e1 : usp + c + sizeSum ((s :: rest).take 0) = usp + c := by
            simp [sizeSum]
          rw [e1]
        · have e2 : sizeSum ((s :: rest).take 0) = 0 := rfl
          rw [e2]
          have h1 : sliceAt dataF (c + 0) (s.length + 1) =
              sliceAt (writeBytesAt (writeBytesAt data c (s ++ [0])) (p + idx * 8)
                (leBytes 8 (usp + c))) (c + 0) (s.length + 1) := by
            apply hframeF
            right
            left
            constructor
            · have : p + (idx + (rest.length + 1)) * 8 ≤ c := by simpa using hptr
              have e : idx + 1 + rest.length = idx + (rest.length + 1) := by omega
              rw [e]
              omega
            · omega
          rw [h1]
          have h2 : sliceAt (writeBytesAt (writeBytesAt data c (s ++ [0]))
              (p + idx * 8) (leBytes 8 (usp + c))) (c + 0) (s.length + 1) =
              sliceAt (writeBytesAt data c (s ++ [0])) (c + 0) (s.length + 1) := by
            apply sliceAt_writeBytesAt_right
            · rw [hd1len, leBytes_length]
              omega
            · rw [leBytes_length]
              omega
          rw [h2]
          have h3 := sliceAt_writeBytesAt_self data (s ++ [0]) c
            (by simp; omega)
          simp only [List.length_append, List.length_cons, List.length_nil] at h3
          have e3 : c + 0 = c := by omega
          rw [e3]
          have e4 : s.length + 1 = s.length + (0 + 1) := by omega
          rw [e4] at h3 ⊢
          exact h3
      | succ j =>
        simp only [List.get?_cons_succ] at ht
        obtain ⟨hc1, hc2⟩ := hcontF j t ht
        constructor
        · have e : p + (idx + (j + 1)) * 8 = p + (idx + 1 + j) * 8 := by
            have : idx + (j + 1) = idx + 1 + j := by omega
            rw [this]
          rw [e, hc1]
          have e2 : usp + (c + (s.length + 1)) + sizeSum (rest.take j) =
              usp + c + sizeSum ((s :: rest).take (j + 1)) := by
            simp only [List.take_succ_cons]
            rw [sizeSum_cons]
            omega
          rw [e2]
        · have e : c + sizeSum ((s :: rest).take (j + 1)) =
              c + (s.length + 1) + sizeSum (rest.take j) := by
            simp only [List.take_succ_cons]
            rw [sizeSum_cons]
            omega
          rw [e]
          exact hc2
    · intro off len hdisj
      have hstep : sliceAt dataF off len =
          sliceAt (writeBytesAt (writeBytesAt data c (s ++ [0])) (p + idx * 8)
            (leBytes 8 (usp + c))) off len := by
        apply hframeF
        rcases hdisj with h1 | ⟨h2a, h2b⟩ | h3
        · left
          omega
        · right
          left
          constructor
          · have e : idx + 1 + rest.length = idx + (rest.length + 1) := by omega
            rw [e]
            have e2 : idx + (s :: rest).length = idx + (rest.length + 1) := by
              simp
            rw [e2] at h2a
            exact h2a
          · omega
        · right
          right
          rw [hsz] at h3
          omega
      rw [hstep]
      have hstep2 : sliceAt (writeBytesAt (writeBytesAt data c (s ++ [0]))
          (p + idx * 8) (leBytes 8 (usp + c))) off len =
          sliceAt (writeBytesAt data c (s ++ [0])) off len := by
        rcases hdisj with h1 | ⟨h2a, h2b⟩ | h3
        · apply sliceAt_writeBytesAt_left
          · rw [hd1len, leBytes_length]
            omega
          · omega
        · apply sliceAt_writeBytesAt_right
          · rw [hd1len, leBytes_length]
            omega
          · rw [leBytes_length]
            have e2 : idx + (s :: rest).length = idx + rest.length + 1 := by
              simp only [List.length_cons]
              omega
            rw [e2] at h2a
            omega
        · apply sliceAt_writeBytesAt_right
          · rw [hd1len, leBytes_length]
            omega
          · rw [leBytes_length]
            rw [hsz] at h3
            omega
      rw [hstep2]
      rcases hdisj with h1 | ⟨h2a, h2b⟩ | h3
      · apply sliceAt_writeBytesAt_left
        · simp
          omega
        · have : p + idx * 8 ≤ c := by omega
          omega
      · apply sliceAt_writeBytesAt_left
        · simp
          omega
        · omega
      · apply sliceAt_writeBytesAt_right
        · simp
          omega
        · simp
          rw [hsz] at h3
          omega

theorem writeAuxLoop_spec (a : Nat) :
    ∀ (l : List AuxEntry) (idx : Nat) (data : List Nat),
      a + (idx + l.length) * 16 ≤ data.length →
      ∃ dataF : List Nat,
        writeAuxLoop a l idx data = .ok dataF ∧
        dataF.length = data.length ∧
        (∀ (j : Nat) (e : AuxEntry), l.get? j = some e →
          sliceAt dataF (a + (idx + j) * 16) 8 = leBytes 8 e.key ∧
          sliceAt dataF (a + (idx + j) * 16 + 8) 8 = leBytes 8 e.value) ∧
        (∀ off len : Nat,
          (off + len ≤ a + idx * 16 ∨ a + (idx + l.length) * 16 ≤ off) →
          sliceAt dataF off len = sliceAt data off len) := by
  intro l
  induction l with
  | nil =>
    intro idx data hfit
    refine ⟨data, rfl, rfl, ?_, ?_⟩
    · intro j e he
      cases he
    · intro off len _
      rfl
  | cons e rest ih =>
    intro idx data hfit
    have hlcons : (e :: rest).length = rest.length + 1 := by
      simp only [List.length_cons]
    rw [hlcons] at hfit
    have hk : write_u64_stack data (a + idx * 2 * 8) e.key =
        .ok (writeBytesAt data (a + idx * 2 * 8) (leBytes 8 e.key)) := by
      apply write_u64_stack_ok
      omega
    have hklen : (writeBytesAt data (a + idx * 2 * 8) (leBytes 8 e.key)).length =
        data.length := by
      rw [writeBytesAt_length]
      rw [leBytes_length]
      omega
    have hv : write_u64_stack (writeBytesAt data (a + idx * 2 * 8) (leBytes 8 e.key))
        (a + (idx * 2 + 1) * 8) e.value =
        .ok (writeBytesAt (writeBytesAt data (a + idx * 2 * 8) (leBytes 8 e.key))
          (a + (idx * 2 + 1) * 8) (leBytes 8 e.value)) := by
      apply write_u64_stack_ok
      rw [hklen]
      omega
    have hvlen : (writeBytesAt (writeBytesAt data (a + idx * 2 * 8) (leBytes 8 e.key))
        (a + (idx * 2 + 1) * 8) (leBytes 8 e.value)).length = data.length := by
      rw [writeBytesAt_length]
      · exact hklen
      · rw [hklen, leBytes_length]
        omega
    obtain ⟨dataF, hrec, hlenF, hcontF, hframeF⟩ :=
      ih (idx + 1)
        (writeBytesAt (writeBytesAt data (a + idx * 2 * 8) (leBytes 8 e.key))
          (a + (idx * 2 + 1) * 8) (leBytes 8 e.value))
        (by rw [hvlen]; omega)
    refine ⟨dataF, ?_, by rw [hlenF, hvlen], ?_, ?_⟩
    · show writeAuxLoop a (e :: rest) idx data = _
      unfold writeAuxLoop
      simp only [bind, Except.bind]
      rw [hk]
      dsimp only
      rw [hv]
      dsimp only
      exact hrec
    · intro j x hx
      cases j with
      | zero =>
        cases hx
        have hf0 : ∀ len2 : Nat, len2 ≤ 8 → ∀ extra : Nat, extra + len2 ≤ 16 →
            sliceAt dataF (a + (idx + 0) * 16 + extra) len2 =
            sliceAt (writeBytesAt (writeBytesAt data (a + idx * 2 * 8)
              (leBytes 8 e.key)) (a + (idx * 2 + 1) * 8) (leBytes 8 e.value))
              (a + (idx + 0) * 16 + extra) len2 := by
          intro len2 hlen2 extra hextra
          apply hframeF
          left
          omega
        constructor
        · rw [show a + (idx + 0) * 16 = a + (idx + 0) * 16 + 0 from by omega]
          rw [hf0 8 (by omega) 0 (by omega)]
          rw [show a + (idx + 0) * 16 + 0 = a + idx * 2 * 8 from by omega]
          rw [sliceAt_writeBytesAt_left
            (writeBytesAt data (a + idx * 2 * 8) (leBytes 8 e.key))
            (leBytes 8 e.value) (a + (idx * 2 + 1) * 8) (a + idx * 2 * 8) 8
            (by rw [hklen, leBytes_length]; omega)
            (by omega)]
          have := sliceAt_writeBytesAt_self data (leBytes 8 e.key) (a + idx * 2 * 8)
            (by rw [leBytes_length]; omega)
          rw [leBytes_length] at this
          exact this
        · rw [hf0 8 (by omega) 8 (by omega)]
          rw [show a + (idx + 0) * 16 + 8 = a + (idx * 2 + 1) * 8 from by omega]
          have := sliceAt_writeBytesAt_self
            (writeBytesAt data (a + idx * 2 * 8) (leBytes 8 e.key))
            (leBytes 8 e.value) (a + (idx * 2 + 1) * 8)
            (by rw [hklen, leBytes_length]; omega)
          rw [leBytes_length] at this
          exact this
      | succ j =>
        simp only [List.get?_cons_succ] at hx
        obtain ⟨hc1, hc2⟩ := hcontF j x hx
        have e1 : a + (idx + (j + 1)) * 16 = a + (idx + 1 + j) * 16 := by
          have : idx + (j + 1) = idx + 1 + j := by omega
          rw [this]
        constructor
        · rw [e1]
          exact hc1
        · rw [e1]
          exact hc2
    · intro off len hdisj
      have hstep : sliceAt dataF off len =
          sliceAt (writeBytesAt (writeBytesAt data (a + idx * 2 * 8)
            (leBytes 8 e.key)) (a + (idx * 2 + 1) * 8) (leBytes 8 e.value))
            off len := by
        apply hframeF
        rcases hdisj with h1 | h2
        · left
          omega
        · right
          rw [hlcons] at h2
          omega
      rw [hstep]
      rcases hdisj with h1 | h2
      · rw [sliceAt_writeBytesAt_left
          (writeBytesAt data (a + idx * 2 * 8) (leBytes 8 e.key))
          (leBytes 8 e.value) (a + (idx * 2 + 1) * 8) off len
          (by rw [hklen, leBytes_length]; omega)
          (by omega)]
        rw [sliceAt_writeBytesAt_left data (leBytes 8 e.key) (a + idx * 2 * 8)
          off len
          (by rw [leBytes_length]; omega)
          (by omega)]
      · rw [hlcons] at h2
        rw [sliceAt_writeBytesAt_right
          (writeBytesAt data (a + idx * 2 * 8) (leBytes 8 e.key))
          (leBytes 8 e.value) (a + (idx * 2 + 1) * 8) off len
          (by rw [hklen, leBytes_length]; omega)
          (by rw [leBytes_length]; omega)]
        rw [sliceAt_writeBytesAt_right data (leBytes 8 e.key) (a + idx * 2 * 8)
          off len
          (by rw [leBytes_length]; omega)
          (by rw [leBytes_length]; omega)]

theorem build_stack_ok (as : AddressSpace) (argv envp : List (List Nat))
    (aux : List AuxEntry)
    (h : stackImageSize argv envp aux ≤ as.stack_end - as.stack_start) :
    ∃ data : List Nat,
      build_stack as argv envp aux = .ok
        { user_sp := alignDown16 (as.stack_end - stackImageSize argv envp aux)
          stack_top := as.stack_end
          stack_bottom := as.stack_start
          data := data } ∧
      data.length = stackImageSize argv envp aux ∧
      sliceAt data 0 8 = leBytes 8 argv.length ∧
      (∀ (j : Nat) (s : List Nat), argv.get? j = some s →
        sliceAt data (8 + j * 8) 8 = leBytes 8
          (alignDown16 (as.stack_end - stackImageSize argv envp aux) +
            stringsOffset argv.length envp.length aux.length +
            sizeSum (argv.take j)) ∧
        sliceAt data (stringsOffset argv.length envp.length aux.length +
          sizeSum (argv.take j)) (s.length + 1) = s ++ [0]) ∧
      sliceAt data (8 + argv.length * 8) 8 = leBytes 8 0 ∧
      (∀ (j : Nat) (s : List Nat), envp.get? j = some s →
        sliceAt data (envpOffset argv.length + j * 8) 8 = leBytes 8
          (alignDown16 (as.stack_end - stackImageSize argv envp aux) +
            (stringsOffset argv.length envp.length aux.length + sizeSum argv) +
            sizeSum (envp.take j)) ∧
        sliceAt data (stringsOffset argv.length envp.length aux.length +
          sizeSum argv + sizeSum (envp.take j)) (s.length + 1) = s ++ [0]) ∧
      sliceAt data (envpOffset argv.length + envp.length * 8) 8 = leBytes 8 0 ∧
      (∀ (j : Nat) (e : AuxEntry), aux.get? j = some e →
        sliceAt data (auxvOffset argv.length envp.length + j * 16) 8 =
          leBytes 8 e.key ∧
        sliceAt data (auxvOffset argv.length envp.length + j * 16 + 8) 8 =
          leBytes 8 e.value) := by
  have hss : (((argv ++ envp).map (fun e => e.length + 1)).sum) = sizeSum argv + sizeSum envp := by
    rw [show (((argv ++ envp).map (fun e => e.length + 1)).sum) = sizeSum (argv ++ envp) from rfl, sizeSum_append]
  have hSO : ((1 + (argv.length + 1) + (envp.length + 1) + aux.length * 2) * 8) ≤ align_up ((1 + (argv.length + 1) + (envp.length + 1) + aux.length * 2) * 8) 16 := le_align_up _ 16
  have hTOT : align_up ((1 + (argv.length + 1) + (envp.length + 1) + aux.length * 2) * 8) 16 + (((argv ++ envp).map (fun e => e.length + 1)).sum) ≤ align_up (align_up ((1 + (argv.length + 1) + (envp.length + 1) + aux.length * 2) * 8) 16 + ((argv ++ envp).map (fun e => e.length + 1)).sum) 16 := le_align_up _ 16
  have hAlen : (List.replicate (align_up (align_up ((1 + (argv.length + 1) + (envp.length + 1) + aux.length * 2) * 8) 16 + ((argv ++ envp).map (fun e => e.length + 1)).sum) 16) 0).length = (align_up (align_up ((1 + (argv.length + 1) + (envp.length + 1) + aux.length * 2) * 8) 16 + ((argv ++ envp).map (fun e => e.length + 1)).sum) 16) := by
    simp
  have hA : write_u64_stack (List.replicate (align_up (align_up ((1 + (argv.length + 1) + (envp.length + 1) + aux.length * 2) * 8) 16 + ((argv ++ envp).map (fun e => e.length + 1)).sum) 16) 0) 0 argv.length =
      .ok (writeBytesAt (List.replicate (align_up (align_up ((1 + (argv.length + 1) + (envp.length + 1) + aux.length * 2) * 8) 16 + ((argv ++ envp).map (fun e => e.length + 1)).sum) 16) 0) 0 (leBytes 8 argv.length)) := by
    apply write_u64_stack_ok
    rw [hAlen]
    omega
  have hdAlen : (writeBytesAt (List.replicate (align_up (align_up ((1 + (argv.length + 1) + (envp.length + 1) + aux.length * 2) * 8) 16 + ((argv ++ envp).map (fun e => e.length + 1)).sum) 16) 0) 0
      (leBytes 8 argv.length)).length = (align_up (align_up ((1 + (argv.length + 1) + (envp.length + 1) + aux.length * 2) * 8) 16 + ((argv ++ envp).map (fun e => e.length + 1)).sum) 16) := by
    rw [writeBytesAt_length]
    · exact hAlen
    · rw [hAlen, leBytes_length]
      omega
  obtain ⟨dB, hBrun, hBlen, hBcont, hBframe⟩ :=
    writeStringsLoop_spec 8 (alignDown16 (as.stack_end - (align_up (align_up ((1 + (argv.length + 1) + (envp.length + 1) + aux.length * 2) * 8) 16 + ((argv ++ envp).map (fun e => e.length + 1)).sum) 16))) argv 0 (align_up ((1 + (argv.length + 1) + (envp.length + 1) + aux.length * 2) * 8) 16)
      (writeBytesAt (List.replicate (align_up (align_up ((1 + (argv.length + 1) + (envp.length + 1) + aux.length * 2) * 8) 16 + ((argv ++ envp).map (fun e => e.length + 1)).sum) 16) 0) 0 (leBytes 8 argv.length))
      (by rw [hdAlen]; omega)
      (by omega)
  rw [hdAlen] at hBlen
  have hC : write_u64_stack dB (8 + argv.length * 8) 0 =
      .ok (writeBytesAt dB (8 + argv.length * 8) (leBytes 8 0)) := by
    apply write_u64_stack_ok
    rw [hBlen]
    omega
  have hdClen : (writeBytesAt dB (8 + argv.length * 8) (leBytes 8 0)).length =
      (align_up (align_up ((1 + (argv.length + 1) + (envp.length + 1) + aux.length * 2) * 8) 16 + ((argv ++ envp).map (fun e => e.length + 1)).sum) 16) := by
    rw [writeBytesAt_length]
    · exact hBlen
    · rw [hBlen, leBytes_length]
      omega
  obtain ⟨dD, hDrun, hDlen, hDcont, hDframe⟩ :=
    writeStringsLoop_spec (8 + (argv.length + 1) * 8) (alignDown16 (as.stack_end - (align_up (align_up ((1 + (argv.length + 1) + (envp.length + 1) + aux.length * 2) * 8) 16 + ((argv ++ envp).map (fun e => e.length + 1)).sum) 16))) envp 0 (align_up ((1 + (argv.length + 1) + (envp.length + 1) + aux.length * 2) * 8) 16 + sizeSum argv)
      (writeBytesAt dB (8 + argv.length * 8) (leBytes 8 0))
      (by rw [hdClen]; omega)
      (by omega)
  rw [hdClen] at hDlen
  have hE : write_u64_stack dD (8 + (argv.length + 1) * 8 + envp.length * 8) 0 =
      .ok (writeBytesAt dD (8 + (argv.length + 1) * 8 + envp.length * 8) (leBytes 8 0)) := by
    apply write_u64_stack_ok
    rw [hDlen]
    omega
  have hdElen : (writeBytesAt dD (8 + (argv.length + 1) * 8 + envp.length * 8) (leBytes 8 0)).length =
      (align_up (align_up ((1 + (argv.length + 1) + (envp.length + 1) + aux.length * 2) * 8) 16 + ((argv ++ envp).map (fun e => e.length + 1)).sum) 16) := by
    rw [writeBytesAt_length]
    · exact hDlen
    · rw [hDlen, leBytes_length]
      omega
  obtain ⟨dF, hFrun, hFlen, hFcont, hFframe⟩ :=
    writeAuxLoop_spec (8 + (argv.length + 1) * 8 + (envp.length + 1) * 8) aux 0
      (writeBytesAt dD (8 + (argv.length + 1) * 8 + envp.length * 8) (leBytes 8 0))
      (by rw [hdElen]; omega)
  rw [hdElen] at hFlen
  have hcond : ¬ ((align_up (align_up ((1 + (argv.length + 1) + (envp.length + 1) + aux.length * 2) * 8) 16 + ((argv ++ envp).map (fun e => e.length + 1)).sum) 16) > as.stack_end - as.stack_start) := by
    have h2 := h
    simp only [stackImageSize] at h2
    omega
  refine ⟨dF, ?_, ?_, ?_, ?_, ?_, ?_, ?_, ?_⟩
  · show build_stack as argv envp aux = _
    simp only [build_stack]
    rw [if_neg hcond]
    simp only [bind, Except.bind]
    rw [hA]
    dsimp only
    rw [hBrun]
    dsimp only
    rw [hC]
    dsimp only
    rw [hDrun]
    dsimp only
    rw [hE]
    dsimp only
    rw [hFrun]
    rfl
  · rw [hFlen]
    rfl
  · rw [hFframe 0 8 (Or.inl (by omega))]
    rw [sliceAt_writeBytesAt_left dD (leBytes 8 0) (8 + (argv.length + 1) * 8 + envp.length * 8) 0 8
      (by rw [leBytes_length, hDlen]; omega) (by omega)]
    rw [hDframe 0 8 (Or.inl (by omega))]
    rw [sliceAt_writeBytesAt_left dB (leBytes 8 0) (8 + argv.length * 8) 0 8
      (by rw [leBytes_length, hBlen]; omega) (by omega)]
    rw [hBframe 0 8 (Or.inl (by omega))]
    have hself := sliceAt_writeBytesAt_self (List.replicate (align_up (align_up ((1 + (argv.length + 1) + (envp.length + 1) + aux.length * 2) * 8) 16 + ((argv ++ envp).map (fun e => e.length + 1)).sum) 16) 0)
      (leBytes 8 argv.length) 0 (by rw [hAlen, leBytes_length]; omega)
    rw [leBytes_length] at hself
    exact hself
  · intro j s hj
    obtain ⟨hjlt, -⟩ := List.get?_eq_some.mp hj
    obtain ⟨hBp, hBs⟩ := hBcont j s hj
    have hs1 := sizeSum_take_get argv j s hj
    constructor
    · rw [show 8 + j * 8 = 8 + (0 + j) * 8 from by omega]
      rw [hFframe (8 + (0 + j) * 8) 8 (Or.inl (by omega))]
      rw [sliceAt_writeBytesAt_left dD (leBytes 8 0) (8 + (argv.length + 1) * 8 + envp.length * 8)
        (8 + (0 + j) * 8) 8 (by rw [leBytes_length, hDlen]; omega) (by omega)]
      rw [hDframe (8 + (0 + j) * 8) 8 (Or.inl (by omega))]
      rw [sliceAt_writeBytesAt_left dB (leBytes 8 0) (8 + argv.length * 8)
        (8 + (0 + j) * 8) 8 (by rw [leBytes_length, hBlen]; omega) (by omega)]
      exact hBp
    · show sliceAt dF (align_up ((1 + (argv.length + 1) + (envp.length + 1) + aux.length * 2) * 8) 16 + sizeSum (argv.take j)) (s.length + 1) = s ++ [0]
      rw [hFframe (align_up ((1 + (argv.length + 1) + (envp.length + 1) + aux.length * 2) * 8) 16 + sizeSum (argv.take j)) (s.length + 1) (Or.inr (by omega))]
      rw [sliceAt_writeBytesAt_right dD (leBytes 8 0) (8 + (argv.length + 1) * 8 + envp.length * 8)
        (align_up ((1 + (argv.length + 1) + (envp.length + 1) + aux.length * 2) * 8) 16 + sizeSum (argv.take j)) (s.length + 1)
        (by rw [leBytes_length, hDlen]; omega) (by rw [leBytes_length]; omega)]
      rw [hDframe (align_up ((1 + (argv.length + 1) + (envp.length + 1) + aux.length * 2) * 8) 16 + sizeSum (argv.take j)) (s.length + 1)
        (Or.inr (Or.inl ⟨by omega, by omega⟩))]
      rw [sliceAt_writeBytesAt_right dB (leBytes 8 0) (8 + argv.length * 8)
        (align_up ((1 + (argv.length + 1) + (envp.length + 1) + aux.length * 2) * 8) 16 + sizeSum (argv.take j)) (s.length + 1)
        (by rw [leBytes_length, hBlen]; omega) (by rw [leBytes_length]; omega)]
      exact hBs
  · rw [hFframe (8 + argv.length * 8) 8 (Or.inl (by omega))]
    rw [sliceAt_writeBytesAt_left dD (leBytes 8 0) (8 + (argv.length + 1) * 8 + envp.length * 8)
      (8 + argv.length * 8) 8 (by rw [leBytes_length, hDlen]; omega) (by omega)]
    rw [hDframe (8 + argv.length * 8) 8 (Or.inl (by omega))]
    have hself := sliceAt_writeBytesAt_self dB (leBytes 8 0) (8 + argv.length * 8)
      (by rw [leBytes_length, hBlen]; omega)
    rw [leBytes_length] at hself
    exact hself
  · intro j s hj
    obtain ⟨hjlt, -⟩ := List.get?_eq_some.mp hj
    obtain ⟨hDp, hDs⟩ := hDcont j s hj
    have hs1 := sizeSum_take_get envp j s hj
    constructor
    · show sliceAt dF (8 + (argv.length + 1) * 8 + j * 8) 8 = _
      rw [show (8 + (argv.length + 1) * 8) + j * 8 = (8 + (argv.length + 1) * 8) + (0 + j) * 8 from by omega]
      rw [hFframe ((8 + (argv.length + 1) * 8) + (0 + j) * 8) 8 (Or.inl (by omega))]
      rw [sliceAt_writeBytesAt_left dD (leBytes 8 0) (8 + (argv.length + 1) * 8 + envp.length * 8)
        ((8 + (argv.length + 1) * 8) + (0 + j) * 8) 8 (by rw [leBytes_length, hDlen]; omega)
        (by omega)]
      exact hDp
    · show sliceAt dF (align_up ((1 + (argv.length + 1) + (envp.length + 1) + aux.length * 2) * 8) 16 + sizeSum argv + sizeSum (envp.take j))
        (s.length + 1) = s ++ [0]
      rw [hFframe (align_up ((1 + (argv.length + 1) + (envp.length + 1) + aux.length * 2) * 8) 16 + sizeSum argv + sizeSum (envp.take j)) (s.length + 1)
        (Or.inr (by omega))]
      rw [sliceAt_writeBytesAt_right dD (leBytes 8 0) (8 + (argv.length + 1) * 8 + envp.length * 8)
        (align_up ((1 + (argv.length + 1) + (envp.length + 1) + aux.length * 2) * 8) 16 + sizeSum argv + sizeSum (envp.take j)) (s.length + 1)
        (by rw [leBytes_length, hDlen]; omega) (by rw [leBytes_length]; omega)]
      exact hDs
  · show sliceAt dF ((8 + (argv.length + 1) * 8) + envp.length * 8) 8 = leBytes 8 0
    rw [hFframe ((8 + (argv.length + 1) * 8) + envp.length * 8) 8 (Or.inl (by omega))]
    have hself := sliceAt_writeBytesAt_self dD (leBytes 8 0)
      ((8 + (argv.length + 1) * 8) + envp.length * 8) (by rw [leBytes_length, hDlen]; omega)
    rw [leBytes_length] at hself
    exact hself
  · intro j e hj
    obtain ⟨hk, hv⟩ := hFcont j e hj
    constructor
    · show sliceAt dF ((8 + (argv.length + 1) * 8 + (envp.length + 1) * 8) + j * 16) 8 = leBytes 8 e.key
      rw [show (8 + (argv.length + 1) * 8 + (envp.length + 1) * 8) + j * 16 = (8 + (argv.length + 1) * 8 + (envp.length + 1) * 8) + (0 + j) * 16 from by omega]
      exact hk
    · show sliceAt dF ((8 + (argv.length + 1) * 8 + (envp.length + 1) * 8) + j * 16 + 8) 8 = leBytes 8 e.value
      rw [show (8 + (argv.length + 1) * 8 + (envp.length + 1) * 8) + j * 16 + 8 = (8 + (argv.length + 1) * 8 + (envp.length + 1) * 8) + (0 + j) * 16 + 8 from by omega]
      exact hv

/-- Claim C5 (confirmed): `build_stack` against the stack window.  If the
16-byte-aligned image of argc word, argv/envp pointer arrays, auxv pairs and
packed NUL-terminated strings exceeds `stack_end - stack_start`, the result is
exactly `Err(StackOverflow)` — no partially-written image escapes.  If it
fits, the call succeeds and the returned image contains, at their computed
offsets, the argc word, every argv and envp string in full with its NUL
terminator and its user-space pointer, the two null terminator words, and
every auxiliary key/value pair. -/
theorem c5_stack_window (as : AddressSpace) (argv envp : List (List Nat))
    (aux : List AuxEntry) :
    (stackImageSize argv envp aux > as.stack_end - as.stack_start →
      build_stack as argv envp aux = .error .StackOverflow) ∧
    (stackImageSize argv envp aux ≤ as.stack_end - as.stack_start →
      ∃ data : List Nat,
        build_stack as argv envp aux = .ok
          { user_sp := alignDown16 (as.stack_end - stackImageSize argv envp aux)
            stack_top := as.stack_end
            stack_bottom := as.stack_start
            data := data } ∧
        data.length = stackImageSize argv envp aux ∧
        sliceAt data 0 8 = leBytes 8 argv.length ∧
        (∀ (j : Nat) (s : List Nat), argv.get? j = some s →
          sliceAt data (8 + j * 8) 8 = leBytes 8
            (alignDown16 (as.stack_end - stackImageSize argv envp aux) +
              stringsOffset argv.length envp.length aux.length +
              sizeSum (argv.take j)) ∧
          sliceAt data (stringsOffset argv.length envp.length aux.length +
            sizeSum (argv.take j)) (s.length + 1) = s ++ [0]) ∧
        sliceAt data (8 + argv.length * 8) 8 = leBytes 8 0 ∧
        (∀ (j : Nat) (s : List Nat), envp.get? j = some s →
          sliceAt data (envpOffset argv.length + j * 8) 8 = leBytes 8
            (alignDown16 (as.stack_end - stackImageSize argv envp aux) +
              (stringsOffset argv.length envp.length aux.length + sizeSum argv) +
              sizeSum (envp.take j)) ∧
          sliceAt data (stringsOffset argv.length envp.length aux.length +
            sizeSum argv + sizeSum (envp.take j)) (s.length + 1) = s ++ [0]) ∧
        sliceAt data (envpOffset argv.length + envp.length * 8) 8 = leBytes 8 0 ∧
        (∀ (j : Nat) (e : AuxEntry), aux.get? j = some e →
          sliceAt data (auxvOffset argv.length envp.length + j * 16) 8 =
            leBytes 8 e.key ∧
          sliceAt data (auxvOffset argv.length envp.length + j * 16 + 8) 8 =
            leBytes 8 e.value)) := by
  constructor
  · intro hgt
    simp only [stackImageSize] at hgt
    simp only [build_stack]
    rw [if_pos hgt]
  · intro hle
    exact build_stack_ok as argv envp aux hle

theorem c5_stack_window_witness :
    build_stack asOvfC5 [[65]] [] [⟨0, 0⟩] = .error .StackOverflow ∧
    (∃ data : List Nat,
      build_stack (AddressSpace.new 0) [[65]] [] [⟨0, 0⟩] = .ok
        { user_sp := alignDown16 ((AddressSpace.new 0).stack_end -
            stackImageSize [[65]] [] [⟨0, 0⟩])
          stack_top := (AddressSpace.new 0).stack_end
          stack_bottom := (AddressSpace.new 0).stack_start
          data := data } ∧
      data.length = stackImageSize [[65]] [] [⟨0, 0⟩] ∧
      sliceAt data 0 8 = leBytes 8 [[65]].length ∧
      (∀ (j : Nat) (s : List Nat), [[65]].get? j = some s →
        sliceAt data (8 + j * 8) 8 = leBytes 8
          (alignDown16 ((AddressSpace.new 0).stack_end -
              stackImageSize [[65]] [] [⟨0, 0⟩]) +
            stringsOffset [[65]].length ([] : List (List Nat)).length
              [(⟨0, 0⟩ : AuxEntry)].length +
            sizeSum ([[65]].take j)) ∧
        sliceAt data (stringsOffset [[65]].length ([] : List (List Nat)).length
          [(⟨0, 0⟩ : AuxEntry)].length +
          sizeSum ([[65]].take j)) (s.length + 1) = s ++ [0]) ∧
      sliceAt data (8 + [[65]].length * 8) 8 = leBytes 8 0 ∧
      (∀ (j : Nat) (s : List Nat), ([] : List (List Nat)).get? j = some s →
        sliceAt data (envpOffset [[65]].length + j * 8) 8 = leBytes 8
          (alignDown16 ((AddressSpace.new 0).stack_end -
              stackImageSize [[65]] [] [⟨0, 0⟩]) +
            (stringsOffset [[65]].length ([] : List (List Nat)).length
              [(⟨0, 0⟩ : AuxEntry)].length + sizeSum [[65]]) +
            sizeSum (([] : List (List Nat)).take j)) ∧
        sliceAt data (stringsOffset [[65]].length ([] : List (List Nat)).length
          [(⟨0, 0⟩ : AuxEntry)].length +
          sizeSum [[65]] + sizeSum (([] : List (List Nat)).take j))
          (s.length + 1) = s ++ [0]) ∧
      sliceAt data (envpOffset [[65]].length +
        ([] : List (List Nat)).length * 8) 8 = leBytes 8 0 ∧
      (∀ (j : Nat) (e : AuxEntry), [(⟨0, 0⟩ : AuxEntry)].get? j = some e →
        sliceAt data (auxvOffset [[65]].length ([] : List (List Nat)).length +
          j * 16) 8 = leBytes 8 e.key ∧
        sliceAt data (auxvOffset [[65]].length ([] : List (List Nat)).length +
          j * 16 + 8) 8 = leBytes 8 e.value)) :=
  ⟨(c5_stack_window asOvfC5 [[65]] [] [⟨0, 0⟩]).1 (by decide),
   (c5_stack_window (AddressSpace.new 0) [[65]] [] [⟨0, 0⟩]).2 (by decide)⟩

theorem mkElf_parse_header (e0 e1 e2 e3 e4 e5 e6 e7 v0 v1 v2 v3 v4 v5 v6 v7 : Nat) :
    parse_header (mkElf [e0, e1, e2, e3, e4, e5, e6, e7]
      [v0, v1, v2, v3, v4, v5, v6, v7]) =
    .ok (mkElfHeader [e0, e1, e2, e3, e4, e5, e6, e7]) := by
  simp [mkElf, parse_header, parse_header64, read_u16, read_u64, readSlice,
    bind, Except.bind, mkElfHeader, fromLE, ELF_MAGIC, EI_CLASS, EI_DATA,
    EI_VERSION]

theorem mkElf_validate (e : List Nat) :
    validate_machine (mkElfHeader e) .X86_64 = .ok () := rfl

theorem mkElf_phdrs (e0 e1 e2 e3 e4 e5 e6 e7 v0 v1 v2 v3 v4 v5 v6 v7 : Nat) :
    parse_program_headers (mkElf [e0, e1, e2, e3, e4, e5, e6, e7]
      [v0, v1, v2, v3, v4, v5, v6, v7])
      (mkElfHeader [e0, e1, e2, e3, e4, e5, e6, e7]) =
    .ok [mkElfPh [v0, v1, v2, v3, v4, v5, v6, v7]] := by
  have hlen : (mkElf [e0, e1, e2, e3, e4, e5, e6, e7]
      [v0, v1, v2, v3, v4, v5, v6, v7]).length = 120 := by
    simp [mkElf]
  have h1 : ((mkElf [e0, e1, e2, e3, e4, e5, e6, e7]
      [v0, v1, v2, v3, v4, v5, v6, v7]).drop (64 + 0 * 56)).take 56 =
      [1, 0, 0, 0, 5, 0, 0, 0,
       0, 0, 0, 0, 0, 0, 0, 0,
       v0, v1, v2, v3, v4, v5, v6, v7,
       0, 0, 0, 0, 0, 0, 0, 0,
       0, 0, 0, 0, 0, 0, 0, 0,
       8, 0, 0, 0, 0, 0, 0, 0,
       0, 16, 0, 0, 0, 0, 0, 0] := by
    simp [mkElf]
  have h2 : parse_program_header64
      [1, 0, 0, 0, 5, 0, 0, 0,
       0, 0, 0, 0, 0, 0, 0, 0,
       v0, v1, v2, v3, v4, v5, v6, v7,
       0, 0, 0, 0, 0, 0, 0, 0,
       0, 0, 0, 0, 0, 0, 0, 0,
       8, 0, 0, 0, 0, 0, 0, 0,
       0, 16, 0, 0, 0, 0, 0, 0] .Little =
      .ok (mkElfPh [v0, v1, v2, v3, v4, v5, v6, v7]) := by
    simp [parse_program_header64, read_u32, read_u64, readSlice, bind,
      Except.bind, fromLE, mkElfPh]
  simp only [parse_program_headers, mkElfHeader]
  rw [if_neg (by decide)]
  rw [show List.range 1 = [0] from rfl]
  simp only [List.mapM, List.mapM.loop, hlen]
  rw [if_neg (by decide)]
  simp only [parse_program_header, h1, h2, bind, Except.bind]
  rfl

theorem mkElf_segments (e0 e1 e2 e3 e4 e5 e6 e7 v0 v1 v2 v3 v4 v5 v6 v7 : Nat) :
    build_segments (mkElf [e0, e1, e2, e3, e4, e5, e6, e7]
      [v0, v1, v2, v3, v4, v5, v6, v7])
      (mkElfHeader [e0, e1, e2, e3, e4, e5, e6, e7])
      [mkElfPh [v0, v1, v2, v3, v4, v5, v6, v7]] =
    .ok [mkElfSeg [v0, v1, v2, v3, v4, v5, v6, v7]] := by
  have hfold : List.foldlM (fun (acc : List Segment) (ph : ProgramHeader) =>
      if ph.typ ≠ PT_LOAD ∨ ph.memsz = 0 then pure acc
      else
        let file_start := ph.offset
        let file_end := file_start + ph.filesz
        if file_end > (mkElf [e0, e1, e2, e3, e4, e5, e6, e7]
            [v0, v1, v2, v3, v4, v5, v6, v7]).length then
          Except.error ElfLoaderError.UnexpectedEof
        else
          let copy_len := Nat.min ph.filesz ph.memsz
          let data := ((mkElf [e0, e1, e2, e3, e4, e5, e6, e7]
            [v0, v1, v2, v3, v4, v5, v6, v7]).drop file_start).take copy_len ++
            List.replicate (ph.memsz - copy_len) 0
          let flags0 := PageFlags.USER_ACCESSIBLE ||| PageFlags.PRESENT
          let flags1 := if ph.flags &&& PF_WRITE ≠ 0 then
              flags0 ||| PageFlags.WRITABLE else flags0
          let flags2 := if ph.flags &&& PF_EXECUTE = 0 then
              flags1 ||| PageFlags.NO_EXECUTE else flags1
          pure (acc ++ [({ vaddr := ph.vaddr, mem_size := ph.memsz
                           file_size := ph.filesz, flags := flags2
                           data := data } : Segment)]))
      [] [mkElfPh [v0, v1, v2, v3, v4, v5, v6, v7]] =
      .ok [mkElfSeg [v0, v1, v2, v3, v4, v5, v6, v7]] := by
    simp only [List.foldlM, mkElfPh]
    rw [if_neg (by simp [PT_LOAD])]
    rw [if_neg (by simp)]
    simp [mkElfSeg, PF_WRITE, PF_EXECUTE]
    rw [if_pos (show (5 : Nat) &&& 2 = 0 by decide)]
    rfl
  show build_segments _ _ _ = _
  simp only [build_segments, bind, Except.bind]
  rw [hfold]
  dsimp only
  rw [List.mergeSort_singleton]
  rfl

theorem mkElf_sections (e0 e1 e2 e3 e4 e5 e6 e7 v0 v1 v2 v3 v4 v5 v6 v7 : Nat) :
    parse_section_headers (mkElf [e0, e1, e2, e3, e4, e5, e6, e7]
      [v0, v1, v2, v3, v4, v5, v6, v7])
      (mkElfHeader [e0, e1, e2, e3, e4, e5, e6, e7]) = .ok [] := rfl

theorem mkElf_relocs (e0 e1 e2 e3 e4 e5 e6 e7 v0 v1 v2 v3 v4 v5 v6 v7 : Nat) :
    parse_relocations (mkElf [e0, e1, e2, e3, e4, e5, e6, e7]
      [v0, v1, v2, v3, v4, v5, v6, v7])
      (mkElfHeader [e0, e1, e2, e3, e4, e5, e6, e7]) [] .X86_64 = .ok [] := rfl

theorem mkElf_apply_relocs (v : List Nat) :
    apply_relocations [mkElfSeg v] [] .X86_64 .Elf64 = .ok [mkElfSeg v] := rfl

theorem mkElf_stack_fits (e0 e1 e2 e3 e4 e5 e6 e7 v0 v1 v2 v3 v4 v5 v6 v7 : Nat) :
    stackImageSize [] [] (build_auxiliary (mkElfHeader [e0, e1, e2, e3, e4, e5, e6, e7]) 0 0) ≤
      (AddressSpace.new 0).stack_end - (AddressSpace.new 0).stack_start := by
  have h240 : stackImageSize [] []
      (build_auxiliary (mkElfHeader [e0, e1, e2, e3, e4, e5, e6, e7]) 0 0) = 240 := by
    simp [stackImageSize, build_auxiliary, mkElfHeader, align_up]
  rw [h240]
  decide

theorem load_executable_of_stages (image : List Nat) (arch : TargetArch)
    (aspace : AddressSpace) (header : ElfHeader) (phs : List ProgramHeader)
    (segs : List Segment) (stack : StackImage)
    (h1 : parse_header image = .ok header)
    (h2 : validate_machine header arch = .ok ())
    (h3 : parse_program_headers image header = .ok phs)
    (h4 : build_segments image header phs = .ok segs)
    (h5 : parse_section_headers image header = .ok [])
    (h6 : parse_relocations image header [] arch = .ok [])
    (h7 : apply_relocations segs [] arch header.eclass = .ok segs)
    (h8 : ¬ (segs = []))
    (h9 : build_stack aspace [] [] (build_auxiliary header 0 0) = .ok stack) :
    load_executable image arch aspace [] [] =
      .ok { entry_point := header.entry, segments := segs
            auxiliary := build_auxiliary header 0 0, stack := stack
            program_header_offset := header.phoff
            program_header_entry_size := header.phentsize
            program_header_count := header.phnum } := by
  unfold load_executable
  simp only [bind, Except.bind]
  rw [h1]
  dsimp only
  rw [h2]
  dsimp only
  rw [h3]
  dsimp only
  rw [h4]
  dsimp only
  rw [h5]
  dsimp only
  rw [h6]
  dsimp only
  rw [h7]
  dsimp only
  rw [if_neg h8]
  dsimp only [List.length_nil]
  rw [h9]

theorem load_executable_of_bad_header (image : List Nat) (arch : TargetArch)
    (aspace : AddressSpace) (argv envp : List (List Nat)) (e : ElfLoaderError)
    (h1 : parse_header image = .error e) :
    load_executable image arch aspace argv envp = .error e := by
  unfold load_executable
  simp only [bind, Except.bind]
  rw [h1]

theorem load_executable_of_bad_machine (image : List Nat) (arch : TargetArch)
    (aspace : AddressSpace) (argv envp : List (List Nat)) (header : ElfHeader)
    (h1 : parse_header image = .ok header)
    (h2 : validate_machine header arch = .error .UnsupportedMachine) :
    load_executable image arch aspace argv envp = .error .UnsupportedMachine := by
  unfold load_executable
  simp only [bind, Except.bind]
  rw [h1]
  dsimp only
  rw [h2]

theorem mkElf_load (e0 e1 e2 e3 e4 e5 e6 e7 v0 v1 v2 v3 v4 v5 v6 v7 : Nat) :
    (load_executable (mkElf [e0, e1, e2, e3, e4, e5, e6, e7]
        [v0, v1, v2, v3, v4, v5, v6, v7]) .X86_64 (AddressSpace.new 0)
        [] []).toOption.map
      (fun img => (img.entry_point, img.segments)) =
    some (fromLE [e0, e1, e2, e3, e4, e5, e6, e7],
      [mkElfSeg [v0, v1, v2, v3, v4, v5, v6, v7]]) := by
  obtain ⟨sdata, hstack, -⟩ := build_stack_ok (AddressSpace.new 0) [] []
    (build_auxiliary (mkElfHeader [e0, e1, e2, e3, e4, e5, e6, e7]) 0 0)
    (mkElf_stack_fits e0 e1 e2 e3 e4 e5 e6 e7 v0 v1 v2 v3 v4 v5 v6 v7)
  rw [load_executable_of_stages (mkElf [e0, e1, e2, e3, e4, e5, e6, e7] [v0, v1, v2, v3, v4, v5, v6, v7]) .X86_64
    (AddressSpace.new 0) (mkElfHeader [e0, e1, e2, e3, e4, e5, e6, e7]) [mkElfPh [v0, v1, v2, v3, v4, v5, v6, v7]]
    [mkElfSeg [v0, v1, v2, v3, v4, v5, v6, v7]] _
    (mkElf_parse_header e0 e1 e2 e3 e4 e5 e6 e7 v0 v1 v2 v3 v4 v5 v6 v7)
    (mkElf_validate [e0, e1, e2, e3, e4, e5, e6, e7])
    (mkElf_phdrs e0 e1 e2 e3 e4 e5 e6 e7 v0 v1 v2 v3 v4 v5 v6 v7)
    (mkElf_segments e0 e1 e2 e3 e4 e5 e6 e7 v0 v1 v2 v3 v4 v5 v6 v7)
    (mkElf_sections e0 e1 e2 e3 e4 e5 e6 e7 v0 v1 v2 v3 v4 v5 v6 v7)
    (mkElf_relocs e0 e1 e2 e3 e4 e5 e6 e7 v0 v1 v2 v3 v4 v5 v6 v7)
    (mkElf_apply_relocs [v0, v1, v2, v3, v4, v5, v6, v7])
    (fun hc => nomatch hc)
    hstack]
  rfl

theorem mkElf_magic_corrupt (m0 m1 m2 m3 e0 e1 e2 e3 e4 e5 e6 e7 v0 v1 v2 v3 v4 v5 v6 v7 : Nat)
    (hm : [m0, m1, m2, m3] ≠ ELF_MAGIC) :
    load_executable ([m0, m1, m2, m3] ++ (mkElf [e0, e1, e2, e3, e4, e5, e6, e7] [v0, v1, v2, v3, v4, v5, v6, v7]).drop 4) .X86_64
      (AddressSpace.new 0) [] [] = .error .InvalidMagic := by
  have hlen2 : ([m0, m1, m2, m3] ++
      (mkElf [e0, e1, e2, e3, e4, e5, e6, e7] [v0, v1, v2, v3, v4, v5, v6, v7]).drop 4).length = 120 := by
    simp [mkElf]
  have htake : ([m0, m1, m2, m3] ++
      (mkElf [e0, e1, e2, e3, e4, e5, e6, e7] [v0, v1, v2, v3, v4, v5, v6, v7]).drop 4).take 4 = [m0, m1, m2, m3] := by
    simp
  have hph : parse_header ([m0, m1, m2, m3] ++
      (mkElf [e0, e1, e2, e3, e4, e5, e6, e7] [v0, v1, v2, v3, v4, v5, v6, v7]).drop 4) = .error .InvalidMagic := by
    unfold parse_header
    rw [if_neg (by rw [hlen2]; decide)]
    rw [if_pos (by rw [htake]; exact hm)]
  exact load_executable_of_bad_header _ _ _ _ _ _ hph

theorem mkElf_wrong_machine (e0 e1 e2 e3 e4 e5 e6 e7 v0 v1 v2 v3 v4 v5 v6 v7 : Nat) (arch : TargetArch)
    (harch : machineExpected arch ≠ 62) :
    load_executable (mkElf [e0, e1, e2, e3, e4, e5, e6, e7] [v0, v1, v2, v3, v4, v5, v6, v7]) arch (AddressSpace.new 0) [] [] =
      .error .UnsupportedMachine := by
  have hvm : validate_machine (mkElfHeader [e0, e1, e2, e3, e4, e5, e6, e7]) arch =
      .error .UnsupportedMachine := by
    dsimp only [validate_machine, mkElfHeader]
    rw [if_pos (show (62 : Nat) ≠ machineExpected arch from
      fun hc => harch hc.symm)]
  exact load_executable_of_bad_machine _ _ _ _ _ _
    (mkElf_parse_header e0 e1 e2 e3 e4 e5 e6 e7 v0 v1 v2 v3 v4 v5 v6 v7) hvm

/-- Claim C4 (confirmed): the ELF loader on a minimal ELF64 executable.  For
every choice of the 8 `e_entry` bytes and 8 `p_vaddr` bytes, loading the
120-byte one-`PT_LOAD` image `mkElf` succeeds, and the returned image's
`entry_point` is the little-endian value of the header's `e_entry` bytes (at
offset 24) while its single segment's `vaddr` is the little-endian value of
the program header's `p_vaddr` bytes (at offset 80); the same bytes with the
leading 4 bytes replaced by any non-magic quadruple yield `InvalidMagic`; and
requesting any architecture whose expected machine id (62 for x86-64, 183 for
aarch64) differs from the header's machine field 62 yields
`UnsupportedMachine`. -/
theorem c4_elf_loader (m0 m1 m2 m3 e0 e1 e2 e3 e4 e5 e6 e7 v0 v1 v2 v3 v4 v5 v6 v7 : Nat) (arch : TargetArch)
    (hm : [m0, m1, m2, m3] ≠ ELF_MAGIC)
    (harch : machineExpected arch ≠ 62) :
    (load_executable (mkElf [e0, e1, e2, e3, e4, e5, e6, e7] [v0, v1, v2, v3, v4, v5, v6, v7]) .X86_64 (AddressSpace.new 0)
        [] []).toOption.map (fun img => (img.entry_point, img.segments)) =
      some (fromLE [e0, e1, e2, e3, e4, e5, e6, e7], [mkElfSeg [v0, v1, v2, v3, v4, v5, v6, v7]]) ∧
    sliceAt (mkElf [e0, e1, e2, e3, e4, e5, e6, e7] [v0, v1, v2, v3, v4, v5, v6, v7]) 24 8 = [e0, e1, e2, e3, e4, e5, e6, e7] ∧
    sliceAt (mkElf [e0, e1, e2, e3, e4, e5, e6, e7] [v0, v1, v2, v3, v4, v5, v6, v7]) 80 8 = [v0, v1, v2, v3, v4, v5, v6, v7] ∧
    (mkElfSeg [v0, v1, v2, v3, v4, v5, v6, v7]).vaddr = fromLE [v0, v1, v2, v3, v4, v5, v6, v7] ∧
    machineExpected .X86_64 = 62 ∧
    machineExpected .AArch64 = 183 ∧
    load_executable ([m0, m1, m2, m3] ++ (mkElf [e0, e1, e2, e3, e4, e5, e6, e7] [v0, v1, v2, v3, v4, v5, v6, v7]).drop 4) .X86_64
      (AddressSpace.new 0) [] [] = .error .InvalidMagic ∧
    load_executable (mkElf [e0, e1, e2, e3, e4, e5, e6, e7] [v0, v1, v2, v3, v4, v5, v6, v7]) arch (AddressSpace.new 0) [] [] =
      .error .UnsupportedMachine := by
  refine ⟨mkElf_load e0 e1 e2 e3 e4 e5 e6 e7 v0 v1 v2 v3 v4 v5 v6 v7, ?_, ?_, rfl, rfl, rfl,
    mkElf_magic_corrupt m0 m1 m2 m3 e0 e1 e2 e3 e4 e5 e6 e7 v0 v1 v2 v3 v4 v5 v6 v7 hm,
    mkElf_wrong_machine e0 e1 e2 e3 e4 e5 e6 e7 v0 v1 v2 v3 v4 v5 v6 v7 arch harch⟩
  · simp [mkElf, sliceAt]
  · simp [mkElf, sliceAt]

theorem c4_elf_loader_witness :
    (load_executable (mkElf [0x34, 0x12, 0, 0, 0, 0, 0, 0] [0, 0x10, 0, 0, 0, 0, 0, 0]) .X86_64 (AddressSpace.new 0)
        [] []).toOption.map (fun img => (img.entry_point, img.segments)) =
      some (fromLE [0x34, 0x12, 0, 0, 0, 0, 0, 0], [mkElfSeg [0, 0x10, 0, 0, 0, 0, 0, 0]]) ∧
    sliceAt (mkElf [0x34, 0x12, 0, 0, 0, 0, 0, 0] [0, 0x10, 0, 0, 0, 0, 0, 0]) 24 8 = [0x34, 0x12, 0, 0, 0, 0, 0, 0] ∧
    sliceAt (mkElf [0x34, 0x12, 0, 0, 0, 0, 0, 0] [0, 0x10, 0, 0, 0, 0, 0, 0]) 80 8 = [0, 0x10, 0, 0, 0, 0, 0, 0] ∧
    (mkElfSeg [0, 0x10, 0, 0, 0, 0, 0, 0]).vaddr = fromLE [0, 0x10, 0, 0, 0, 0, 0, 0] ∧
    machineExpected .X86_64 = 62 ∧
    machineExpected .AArch64 = 183 ∧
    load_executable ([9, 9, 9, 9] ++ (mkElf [0x34, 0x12, 0, 0, 0, 0, 0, 0] [0, 0x10, 0, 0, 0, 0, 0, 0]).drop 4) .X86_64
      (AddressSpace.new 0) [] [] = .error .InvalidMagic ∧
    load_executable (mkElf [0x34, 0x12, 0, 0, 0, 0, 0, 0] [0, 0x10, 0, 0, 0, 0, 0, 0]) .AArch64 (AddressSpace.new 0) [] [] =
      .error .UnsupportedMachine :=
  c4_elf_loader 9 9 9 9 0x34 0x12 0 0 0 0 0 0 0 0x10 0 0 0 0 0 0 .AArch64
    (by decide) (by decide)

end Devine
